import Mathlib

/-!
# VOICE Platform: graph model, search and ingestion of `frontend/src/App.js`

A shallow embedding of the data-handling functions of the React component
`RelationshipGraphApp`: the ingestion transform inside `fetchGraphData`,
`getFallbackData`, `toggleNodeType`, `getFilteredData`, `handleSearch` and the
per-node `filter` style computed by the graph effect; and of the graph effect itself
with its drag and hover handlers, `handleZoom`, and the parts of d3 (link force, zoom
behaviour, drag events, the cooling of a simulation) that these drive.

JavaScript values are modelled by `JSVal`; a property that an object does not
have reads as `undefined`, exactly as in the language.  React state is an
explicit record `AppState` and every handler is a function on it.

Three things are not written out and are taken as parameters wherever they
can be reached:
* `toStr`, the ECMAScript `ToString` of numbers and objects (used only when
  such a value is used as a property key);
* `unicodeLower`, `String.prototype.toLowerCase` on strings that contain a
  non-ASCII character;
* `objectId`, the `id` property of an object that is not a node.
-/

namespace Voice

/-! ## JavaScript values -/

/-- The JavaScript values that can occur in the graph data.  `num q` is a finite
number (`+0` and `-0` are both `num 0`), `obj ref` is a reference to an object,
array or function, identified by `ref`, and `node index` is a reference to the node
object at position `index` of `data.nodes` (the link force stores such references in
the links). -/
inductive JSVal where
  | undefined
  | null
  | bool (b : Bool)
  | num (q : ℚ)
  | nan
  | inf (negative : Bool)
  | str (s : String)
  | obj (ref : Nat)
  | node (index : Nat)
  deriving DecidableEq

/-- ECMAScript `ToBoolean`. -/
def truthy : JSVal → Bool
  | .undefined => false
  | .null => false
  | .bool b => b
  | .num q => decide (q ≠ 0)
  | .nan => false
  | .inf _ => true
  | .str s => decide (s ≠ "")
  | .obj _ => true
  | .node _ => true

/-- The JavaScript expression `a || b`. -/
def jsOr (a b : JSVal) : JSVal := if truthy a then a else b

/-- ECMAScript `ToPropertyKey` on the values of `JSVal`; `toStr` is the
language's `ToString` on numbers and objects. -/
def toPropertyKey (toStr : JSVal → String) : JSVal → String
  | .str s => s
  | .undefined => "undefined"
  | .null => "null"
  | .bool true => "true"
  | .bool false => "false"
  | v => toStr v

/-- Errors a handler can raise: a `TypeError` of the language, or the `Error`
"node not found" of the link force. -/
inductive JSError where
  | typeError
  | nodeNotFound
  deriving DecidableEq, Repr

/-- How a handler ends: normally, or by throwing after some state updates. -/
inductive Completion (σ : Type) where
  | normal (state : σ)
  | throw (error : JSError) (state : σ)

/-! ## Strings -/

/-- The code points `String.prototype.trim` removes: ECMAScript `WhiteSpace`
and `LineTerminator`. -/
def isWhiteSpace (c : Char) : Bool :=
  let n := c.toNat
  n == 0x09 || n == 0x0A || n == 0x0B || n == 0x0C || n == 0x0D || n == 0x20 ||
  n == 0xA0 || n == 0x1680 || (0x2000 ≤ n && n ≤ 0x200A) || n == 0x2028 ||
  n == 0x2029 || n == 0x202F || n == 0x205F || n == 0x3000 || n == 0xFEFF

/-- The method `String.prototype.trim`. -/
def trim (s : String) : String :=
  String.mk ((s.data.dropWhile isWhiteSpace).reverse.dropWhile isWhiteSpace).reverse

/-- The method `String.prototype.toLowerCase`.  On a string of ASCII characters
it lowers `A`..`Z`; on any other string it is `unicodeLower`. -/
def toLowerCase (unicodeLower : String → String) (s : String) : String :=
  if s.data.all (fun c => decide (c.toNat < 128)) then String.mk (s.data.map Char.toLower)
  else unicodeLower s

/-- The method `String.prototype.includes`: `t` occurs in `s` as a contiguous run. -/
def includes (s t : String) : Bool :=
  s.data.tails.any (fun u => t.data.isPrefixOf u)

/-! ## Sets and objects -/

/-- A JavaScript `Set`, as the list of its members in insertion order.  Membership
is `SameValueZero`, which on `JSVal` is equality. -/
abbrev JSSet := List JSVal

/-- The method `Set.prototype.add`. -/
def JSSet.add (s : JSSet) (v : JSVal) : JSSet := if v ∈ s then s else s ++ [v]

/-- The method `Set.prototype.has`. -/
def JSSet.has (s : JSSet) (v : JSVal) : Bool := decide (v ∈ s)

/-- The accessor `Set.prototype.size`. -/
def JSSet.size (s : JSSet) : Nat := s.length

/-- The constructor `new Set(iterable)`. -/
def JSSet.ofList (vs : List JSVal) : JSSet := vs.foldl JSSet.add []

/-- A plain object, as the list of its own properties. -/
abbrev JSObject := List (String × JSVal)

/-- The property names every plain object inherits from `Object.prototype`. -/
def objectPrototypeKeys : List String :=
  ["constructor", "__defineGetter__", "__defineSetter__", "hasOwnProperty",
   "__lookupGetter__", "__lookupSetter__", "isPrototypeOf", "propertyIsEnumerable",
   "toString", "valueOf", "__proto__", "toLocaleString"]

/-- The property read `o[k]`: an own property, else an inherited one (a built-in
object), else `undefined`. -/
def JSObject.get (o : JSObject) (k : String) : JSVal :=
  match o.lookup k with
  | some v => v
  | none => if k ∈ objectPrototypeKeys then .obj 0 else .undefined

/-- The object literal `{...o, [k]: v}`: the own properties of `o`, with `k` set to `v`. -/
def JSObject.set (o : JSObject) (k : String) (v : JSVal) : JSObject :=
  if o.any (fun p => p.1 == k) then o.map (fun p => if p.1 = k then (k, v) else p)
  else o ++ [(k, v)]

/-! ## The graph data -/

/-- A node object.  A field the object lacks is `undefined`.  The fields `x` to `fy`
are the position, the velocity and the pinned position that the force simulation keeps
on the node object. -/
structure Node where
  id : JSVal := .undefined
  name : JSVal := .undefined
  type : JSVal := .undefined
  bio : JSVal := .undefined
  description : JSVal := .undefined
  methods : JSVal := .undefined
  category : JSVal := .undefined
  website : JSVal := .undefined
  budget : JSVal := .undefined
  connections : JSVal := .undefined
  x : JSVal := .undefined
  y : JSVal := .undefined
  vx : JSVal := .undefined
  vy : JSVal := .undefined
  fx : JSVal := .undefined
  fy : JSVal := .undefined
  deriving DecidableEq

/-- A link object of the component's state. -/
structure Link where
  source : JSVal := .undefined
  target : JSVal := .undefined
  relationship : JSVal := .undefined
  strength : JSVal := .undefined
  deriving DecidableEq

/-- The value of the `data` state: `{nodes, links}`. -/
structure GraphData where
  nodes : List Node
  links : List Link
  deriving DecidableEq

/-- A link object of the API payload. -/
structure PayloadLink where
  source_id : JSVal := .undefined
  target_id : JSVal := .undefined
  relationship_type : JSVal := .undefined
  strength : JSVal := .undefined
  deriving DecidableEq

/-- The parsed body of `/api/graph-data`.  `none` stands for a `nodes` or `links`
property that is absent or falsy; a present one is an array of objects. -/
structure GraphPayload where
  nodes : Option (List Node)
  links : Option (List PayloadLink)
  deriving DecidableEq

/-- The React state of `RelationshipGraphApp` that the graph model reads and writes. -/
structure AppState where
  viewMode : String := "simple"
  searchTerm : String := ""
  selectedNode : Option Node := none
  highlightedNodes : JSSet := []
  visibleTypes : JSObject :=
    [("People", .bool true), ("Institutions", .bool true),
     ("Projects", .bool true), ("Methods", .bool true)]
  data : GraphData := ⟨[], []⟩
  loading : Bool := true
  error : Option String := none

/-- The state of a freshly mounted component (the `useState` initial values). -/
def initialState : AppState := {}

/-! ## Ingestion -/

/-- The `map` callback of `fetchGraphData`: one payload link to one state link. -/
def transformLink (link : PayloadLink) : Link :=
  { source := link.source_id
    target := link.target_id
    relationship := link.relationship_type
    strength := jsOr link.strength (.num 1) }

/-- The object `transformedData` built in `fetchGraphData`. -/
def transformedData (graphData : GraphPayload) : GraphData :=
  { nodes := graphData.nodes.getD []
    links := (graphData.links.getD []).map transformLink }

/-- The literal returned by `getFallbackData`. -/
def getFallbackData : GraphData :=
  { nodes := [
      { id := .str "P001", name := .str "Jakob Kukula", type := .str "People",
        bio := .str "Multidisciplinary creator working in art, design and music...",
        website := .str "https://www.spreeberlin.de/",
        connections := .str "Waag (Lead Mentor)" },
      { id := .str "P002", name := .str "Marina Wainer", type := .str "People",
        bio := .str "Paris-based interactive artist...",
        website := .str "http://marinaestelawainer.com",
        connections := .str "Waag (Lead Mentor)" },
      { id := .str "I001", name := .str "Waag Futurelab", type := .str "Institutions",
        bio := .str "Research institute for technology and society...",
        website := .str "https://waag.org/" },
      { id := .str "PR001", name := .str "RiverSync", type := .str "Projects",
        description := .str "Transdisciplinary artistic intervention...",
        budget := .str "12,000 Euros" },
      { id := .str "M001", name := .str "Forest Walking Method", type := .str "Methods",
        description := .str "Immersive, participatory approach...",
        category := .str "Environmental" } ]
    links := [
      { source := .str "P001", target := .str "PR001", relationship := .str "leads",
        strength := .num 1 },
      { source := .str "P001", target := .str "I001", relationship := .str "mentored_by",
        strength := .num (7 / 10) },
      { source := .str "P002", target := .str "I001", relationship := .str "mentored_by",
        strength := .num (7 / 10) },
      { source := .str "PR001", target := .str "M001", relationship := .str "applies",
        strength := .num (9 / 10) } ] }

/-- What the `try` block of `fetchGraphData` ends with: an exception (network
failure, HTTP error status, unparsable body) or the parsed body. -/
inductive FetchOutcome where
  | failure (message : String)
  | success (graphData : GraphPayload)

/-- The handler `fetchGraphData`, given what the request produced. -/
def fetchGraphData (s : AppState) (r : FetchOutcome) : AppState :=
  match r with
  | .success graphData =>
    { s with loading := false, error := none, data := transformedData graphData }
  | .failure message =>
    { s with loading := false, error := some ("Failed to fetch data: " ++ message),
             data := getFallbackData }

/-! ## Filtering -/

/-- The handler `toggleNodeType`: `setVisibleTypes(prev => ({...prev, [type]: !prev[type]}))`. -/
def toggleNodeType (toStr : JSVal → String) (s : AppState) (type : JSVal) : AppState :=
  let key := toPropertyKey toStr type
  let flag := JSVal.bool (!truthy (s.visibleTypes.get key))
  { s with visibleTypes := JSObject.set s.visibleTypes key flag }

/-- The function `getFilteredData`. -/
def getFilteredData (toStr : JSVal → String) (s : AppState) : GraphData :=
  let filteredNodes :=
    s.data.nodes.filter (fun node => truthy (s.visibleTypes.get (toPropertyKey toStr node.type)))
  let filteredNodeIds := JSSet.ofList (filteredNodes.map (fun n => n.id))
  let filteredLinks :=
    s.data.links.filter (fun link =>
      filteredNodeIds.has link.source && filteredNodeIds.has link.target)
  { nodes := filteredNodes, links := filteredLinks }

/-! ## Search -/

/-- The call `v.toLowerCase().includes(term.toLowerCase())`.  Only a string has a
`toLowerCase` method; on any other value the call raises a `TypeError`. -/
def lowerIncludes (unicodeLower : String → String) (v : JSVal) (term : String) :
    Except JSError Bool :=
  match v with
  | .str s => .ok (includes (toLowerCase unicodeLower s) (toLowerCase unicodeLower term))
  | _ => .error .typeError

/-- The condition `(v && v.toLowerCase().includes(term.toLowerCase()))`. -/
def guardedIncludes (unicodeLower : String → String) (v : JSVal) (term : String) :
    Except JSError Bool :=
  if truthy v then lowerIncludes unicodeLower v term else .ok false

/-- The short-circuit `a || b` of two conditions, the second evaluated only when
the first completed with a falsy value. -/
def orElse (a : Except JSError Bool) (b : Unit → Except JSError Bool) : Except JSError Bool :=
  match a with
  | .ok true => .ok true
  | .ok false => b ()
  | .error e => .error e

/-- The condition of the `if` inside the `forEach` callback of `handleSearch`. -/
def nodeMatches (unicodeLower : String → String) (node : Node) (term : String) :
    Except JSError Bool :=
  orElse (lowerIncludes unicodeLower node.name term) fun _ =>
  orElse (guardedIncludes unicodeLower node.bio term) fun _ =>
  orElse (guardedIncludes unicodeLower node.description term) fun _ =>
  orElse (guardedIncludes unicodeLower node.methods term) fun _ =>
  guardedIncludes unicodeLower node.category term

/-- The loop `data.nodes.forEach(node => { if (...) matches.add(node.id) })`, started
with the set `found`. -/
def collectMatches (unicodeLower : String → String) (term : String) :
    List Node → JSSet → Except JSError JSSet
  | [], found => .ok found
  | node :: rest, found =>
    match nodeMatches unicodeLower node term with
    | .ok true => collectMatches unicodeLower term rest (found.add node.id)
    | .ok false => collectMatches unicodeLower term rest found
    | .error e => .error e

/-- The handler `handleSearch`. -/
def handleSearch (unicodeLower : String → String) (s : AppState) (term : String) :
    Completion AppState :=
  let s1 := { s with searchTerm := term }
  if trim term = "" then .normal { s1 with highlightedNodes := [] }
  else
    match collectMatches unicodeLower term s.data.nodes [] with
    | .ok found => .normal { s1 with highlightedNodes := found }
    | .error e => .throw e s1

/-! ## The graph effect: node emphasis -/

/-- The `filter` style of a node in the graph effect:
`highlightedNodes.size > 0 && !highlightedNodes.has(d.id) ? 'opacity(0.3)' : 'none'`. -/
def nodeFilterStyle (highlightedNodes : JSSet) (d : Node) : String :=
  if decide (highlightedNodes.size > 0) && !highlightedNodes.has d.id then "opacity(0.3)"
  else "none"

/-- The nodes the graph effect draws, each with its `filter` style.  The effect
draws nothing when `viewMode !== 'graph' || loading`. -/
def renderedNodeFilters (toStr : JSVal → String) (s : AppState) : List (Node × String) :=
  if s.viewMode ≠ "graph" || s.loading then []
  else (getFilteredData toStr s).nodes.map fun d => (d, nodeFilterStyle s.highlightedNodes d)

/-- The component showing the fallback data in the graph view. -/
def fallbackGraphState : AppState :=
  { fetchGraphData initialState (.failure "Failed to fetch") with viewMode := "graph" }

/-! ## Predicates used to state the search properties -/

/-- The value is a string. -/
def isString : JSVal → Bool
  | .str _ => true
  | _ => false

/-- The lower-cased `term` occurs in the lower-cased text `v`; a value that is not a
string contains nothing. -/
def textContains (unicodeLower : String → String) (v : JSVal) (term : String) : Bool :=
  match v with
  | .str s => includes (toLowerCase unicodeLower s) (toLowerCase unicodeLower term)
  | _ => false

/-- A populated attribute (present and not empty) whose lower-cased text contains the
lower-cased `term`. -/
def populatedContains (unicodeLower : String → String) (v : JSVal) (term : String) : Bool :=
  truthy v && textContains unicodeLower v term

/-- The match the search contract describes: the term occurs in the name or in a
populated bio, description, website, budget, category or connections. -/
def claimedSearchMatch (unicodeLower : String → String) (n : Node) (term : String) : Bool :=
  textContains unicodeLower n.name term ||
  populatedContains unicodeLower n.bio term ||
  populatedContains unicodeLower n.description term ||
  populatedContains unicodeLower n.website term ||
  populatedContains unicodeLower n.budget term ||
  populatedContains unicodeLower n.category term ||
  populatedContains unicodeLower n.connections term

/-- The fields `handleSearch` looks at: the term occurs in the name or in a populated
bio, description, methods or category. -/
def searchedMatch (unicodeLower : String → String) (n : Node) (term : String) : Bool :=
  textContains unicodeLower n.name term ||
  populatedContains unicodeLower n.bio term ||
  populatedContains unicodeLower n.description term ||
  populatedContains unicodeLower n.methods term ||
  populatedContains unicodeLower n.category term

/-- An optional text attribute: absent or otherwise falsy, or a string. -/
def optionalText (v : JSVal) : Bool := !truthy v || isString v

/-- A node whose searched fields have the types of the payload schema: `name` is a
string and `bio`, `description`, `methods`, `category` are optional texts. -/
def Node.searchable (n : Node) : Bool :=
  isString n.name && optionalText n.bio && optionalText n.description &&
  optionalText n.methods && optionalText n.category

/-- A state whose only data is one node that has an id and a type but no name. -/
def namelessNodeState : AppState :=
  { data := { nodes := [{ id := .str "N1", type := .str "People" }], links := [] } }

/-- The `ToString` passed in the closed examples, none of which uses a number or an
object as a property key. -/
def noToString : JSVal → String := fun _ => ""

/-- The lowering of non-ASCII strings passed in the closed examples, all of which are
ASCII. -/
def noUnicodeLower : String → String := fun s => s

/-! ## Predicates used to state the ingestion properties -/

/-- A number that is at least 0. -/
def nonNegative : JSVal → Bool
  | .num q => decide (0 ≤ q)
  | .inf negative => !negative
  | _ => false

/-- A required field that is absent (or `null`). -/
def isMissing (v : JSVal) : Bool := v == .undefined || v == .null

/-- No node lacks `id`, `name` or `type`, and every link has the id of a node of the
data set as its source and as its target. -/
def noMalformedRecord (d : GraphData) : Prop :=
  (∀ n ∈ d.nodes, isMissing n.id = false ∧ isMissing n.name = false ∧
      isMissing n.type = false) ∧
  ∀ l ∈ d.links, (∃ n ∈ d.nodes, n.id = l.source) ∧ (∃ n ∈ d.nodes, n.id = l.target)

instance (d : GraphData) : Decidable (noMalformedRecord d) := by
  unfold noMalformedRecord
  infer_instance

/-- The same condition on the payload, before ingestion. -/
def payloadNoMalformedRecord (p : GraphPayload) : Prop :=
  (∀ n ∈ p.nodes.getD [], isMissing n.id = false ∧ isMissing n.name = false ∧
      isMissing n.type = false) ∧
  ∀ l ∈ p.links.getD [],
    (∃ n ∈ p.nodes.getD [], n.id = l.source_id) ∧ (∃ n ∈ p.nodes.getD [], n.id = l.target_id)

instance (p : GraphPayload) : Decidable (payloadNoMalformedRecord p) := by
  unfold payloadNoMalformedRecord
  infer_instance

/-- A payload with one link that states the strength `q`. -/
def oneLinkPayload (q : ℚ) : GraphPayload :=
  { nodes := some [{ id := .str "P001", name := .str "Jakob Kukula", type := .str "People" },
                   { id := .str "PR001", name := .str "RiverSync", type := .str "Projects" }]
    links := some [{ source_id := .str "P001", target_id := .str "PR001",
                     relationship_type := .str "leads", strength := .num q }] }

/-- A payload with a node that has no name and a link to a node that does not exist. -/
def malformedPayload : GraphPayload :=
  { nodes := some [{ id := .str "P001", type := .str "People" }]
    links := some [{ source_id := .str "P001", target_id := .str "GHOST",
                     relationship_type := .str "leads" }] }

/-- A state whose data has one node of the type "Other", which is no filter type. -/
def otherTypeState : AppState :=
  { viewMode := "graph", loading := false
    data := { nodes := [{ id := .str "X1", name := .str "Archive", type := .str "Other" }]
              links := [] } }

/-- A state with the initial `visibleTypes` whose data has one node of the type
"constructor", a name every object inherits from `Object.prototype`. -/
def constructorTypeState : AppState :=
  { viewMode := "graph", loading := false
    data := { nodes := [{ id := .str "X1", name := .str "Builder", type := .str "constructor" }]
              links := [] } }

/-! ## The link force -/

/-- The `distance` accessor given to `d3.forceLink`: the `switch` on `d.relationship`. -/
def linkDistance (d : Link) : Nat :=
  if d.relationship = .str "leads" then 150
  else if d.relationship = .str "develops" then 180
  else if d.relationship = .str "applies" then 200
  else if d.relationship = .str "supports" then 220
  else 180

/-! ## Zoom

The scale of the view is the scale `k` of the zoom transform that d3-zoom keeps on the
`svg` element.  Scales are rationals; the factors 1.5 and 0.67 are `3 / 2` and
`67 / 100`. -/

/-- A d3 zoom behaviour as far as the component configures it: its scale extent.
`maxScale = none` is the upper bound `Infinity`. -/
structure ZoomBehavior where
  minScale : ℚ := 0
  maxScale : Option ℚ := none

/-- The call `d3.zoom()`: a new behaviour with the library's default scale extent,
from 0 to `Infinity`. -/
def d3Zoom : ZoomBehavior := {}

/-- The call `zoom.scaleExtent([lo, hi])`. -/
def ZoomBehavior.scaleExtent (_zoom : ZoomBehavior) (lo hi : ℚ) : ZoomBehavior :=
  { minScale := lo, maxScale := some hi }

/-- The scale after `zoom.scaleBy(selection, k)` on an element whose scale is `k0`:
`Math.max(scaleExtent[0], Math.min(scaleExtent[1], k0 * k))`. -/
def ZoomBehavior.scaleBy (zoom : ZoomBehavior) (k0 k : ℚ) : ℚ :=
  max zoom.minScale (match zoom.maxScale with
    | some hi => min hi (k0 * k)
    | none => k0 * k)

/-- The behaviour the graph effect attaches to the `svg`:
`d3.zoom().scaleExtent([0.1, 4])`. -/
def effectZoom : ZoomBehavior := d3Zoom.scaleExtent (1 / 10) 4

/-- The handler `handleZoom`, on the scale `k0` of the `svg`: it builds its own
`d3.zoom()` and calls `scaleBy` of that behaviour with 1.5 or 0.67. -/
def handleZoom (k0 : ℚ) (direction : String) : ℚ :=
  let zoom := d3Zoom
  if direction = "in" then zoom.scaleBy k0 (3 / 2) else zoom.scaleBy k0 (67 / 100)

/-! ## The simulation and the drag handlers -/

/-- A d3 force simulation as far as the component drives it: its `alphaTarget` and
whether its timer is active. -/
structure Simulation where
  alphaTarget : ℚ := 0
  ticking : Bool := true
  deriving DecidableEq

/-- The call `d3.forceSimulation(nodes)`: a new simulation, `alphaTarget` 0, timer started. -/
def forceSimulation : Simulation := {}

/-- The call `simulation.alphaTarget(a)`. -/
def Simulation.setAlphaTarget (simulation : Simulation) (a : ℚ) : Simulation :=
  { simulation with alphaTarget := a }

/-- The call `simulation.restart()`. -/
def Simulation.restart (simulation : Simulation) : Simulation :=
  { simulation with ticking := true }

/-- The call `simulation.stop()`. -/
def Simulation.stop (simulation : Simulation) : Simulation :=
  { simulation with ticking := false }

/-- The test `v == null` of the library: no value. -/
def isNullish (v : JSVal) : Bool := v == .undefined || v == .null

/-- The node has a pinned position: `fx` or `fy` holds a value. -/
def Node.pinned (n : Node) : Bool := !isNullish n.fx || !isNullish n.fy

/-- The fields of a d3-drag event that the handlers read. -/
structure DragEvent where
  active : Nat
  x : JSVal := .undefined
  y : JSVal := .undefined

/-! ## The scene: what the graph effect draws -/

/-- A `foreignObject` of the scene: its datum (the position in `data.nodes` of the node
object bound to it), its `filter` and `opacity` styles and the `transform` style of its
`div`.  A style that was never set is `none`. -/
structure NodeElement where
  datum : Nat
  filter : String
  opacity : Option String := none
  divTransform : Option String := none
  deriving DecidableEq

/-- A `line` of the scene: its datum (the link object, endpoints as the link force left
them), its `stroke-opacity` attribute and its `opacity` style. -/
structure LineElement where
  datum : Link
  strokeOpacity : String := "0.6"
  opacity : Option String := none
  deriving DecidableEq

/-- The scene built by one run of the graph effect: the simulation its handlers close
over (its position among all simulations built so far) and the elements drawn. -/
structure Scene where
  simulation : Nat
  nodes : List NodeElement
  lines : List LineElement
  deriving DecidableEq

/-- The comparison `a === b`. -/
def strictEquals (a b : JSVal) : Bool := a != .nan && a == b

/-- The read `v.id`: it throws on `null` and `undefined`, follows a node reference, is
`objectId ref` on any other object and `undefined` on a primitive value. -/
def readId (objectId : Nat → JSVal) (nodes : List Node) : JSVal → Except JSError JSVal
  | .undefined => .error .typeError
  | .null => .error .typeError
  | .node index => .ok (nodes.getD index {}).id
  | .obj ref => .ok (objectId ref)
  | _ => .ok .undefined

/-- The reads `l.source.id` and `l.target.id` of one link. -/
def linkEndIds (objectId : Nat → JSVal) (nodes : List Node) (l : Link) :
    Except JSError (JSVal × JSVal) :=
  match readId objectId nodes l.source with
  | .error e => .error e
  | .ok sourceId =>
    match readId objectId nodes l.target with
    | .error e => .error e
    | .ok targetId => .ok (sourceId, targetId)

/-- The reads `l.source.id`, `l.target.id` for every link in turn; the first read that
throws ends the handler. -/
def allLinkEndIds (objectId : Nat → JSVal) (nodes : List Node) :
    List Link → Except JSError (List (JSVal × JSVal))
  | [] => .ok []
  | l :: rest =>
    match linkEndIds objectId nodes l with
    | .error e => .error e
    | .ok ends =>
      match allLinkEndIds objectId nodes rest with
      | .error e => .error e
      | .ok more => .ok (ends :: more)

/-- The body of the `forEach` in the `mouseover` handler, on the ids of one link:
`if (l.source.id === d.id) connectedNodes.add(l.target.id);`
`if (l.target.id === d.id) connectedNodes.add(l.source.id);`. -/
def connectStep (dId : JSVal) (connectedNodes : JSSet) (ends : JSVal × JSVal) : JSSet :=
  let c1 := if strictEquals ends.1 dId then connectedNodes.add ends.2 else connectedNodes
  if strictEquals ends.2 dId then c1.add ends.1 else c1

/-- The `opacity` the `mouseover` handler gives a node `n`. -/
def hoverNodeOpacity (dId : JSVal) (connectedNodes : JSSet) (nId : JSVal) : String :=
  if strictEquals nId dId || connectedNodes.has nId then "1" else "0.3"

/-- The `opacity` the `mouseover` handler gives a line. -/
def hoverLineOpacity (dId : JSVal) (ends : JSVal × JSVal) : String :=
  if strictEquals ends.1 dId || strictEquals ends.2 dId then "1" else "0.1"

/-- The `mouseover` handler on the element at position `element` of the scene.  The
handler reads both ids of every link in the `forEach`, so it throws, before it sets
any opacity, exactly when one of these reads throws; the style callbacks repeat reads
that have succeeded. -/
def mouseover (objectId : Nat → JSVal) (nodes : List Node) (scene : Scene) (element : Nat) :
    Completion Scene :=
  match scene.nodes[element]? with
  | none => .normal scene
  | some this =>
    let d := nodes.getD this.datum {}
    let grown := scene.nodes.modify (fun e => { e with divTransform := some "scale(1.15)" }) element
    match allLinkEndIds objectId nodes (scene.lines.map fun line => line.datum) with
    | .error e => .throw e { scene with nodes := grown }
    | .ok ends =>
      let connectedNodes := ends.foldl (connectStep d.id) []
      let idOf := fun (e : NodeElement) => (nodes.getD e.datum {}).id
      let newNodes := grown.map fun e =>
        { e with opacity := some (hoverNodeOpacity d.id connectedNodes (idOf e)) }
      let newLines := (scene.lines.zip ends).map fun p =>
        { p.1 with opacity := some (hoverLineOpacity d.id p.2) }
      .normal { scene with nodes := newNodes, lines := newLines }

/-- The `mouseout` handler on the element at position `element` of the scene. -/
def mouseout (scene : Scene) (element : Nat) : Scene :=
  match scene.nodes[element]? with
  | none => scene
  | some _ =>
    let shrunk := scene.nodes.modify (fun e => { e with divTransform := some "scale(1)" }) element
    let newNodes := shrunk.map fun e => { e with opacity := some "1" }
    let newLines := scene.lines.map fun line => { line with opacity := some "0.6" }
    { scene with nodes := newNodes, lines := newLines }

/-! ## The component with its simulations: state and events

`World` adds to the React state what lives outside it: every simulation built so far,
the cleanup function React holds for the graph effect, the drawn scene and the drag
gestures in progress.  The library's own writes (positions and velocities at
initialisation and on ticks) are the event `positions`; the library never writes `fx`
or `fy`. -/

/-- A drag gesture in progress, as d3-drag keeps it: the pointer, the simulation of the
scene in which it started (each scene has its own drag behaviour and its own count of
active gestures) and the node object dragged, `none` once `data` has been replaced
and the object is no longer part of it. -/
structure Gesture where
  pointer : Nat
  simulation : Nat
  subject : Option Nat
  deriving DecidableEq

/-- The component and its simulations.  `cleanup = some k` is the function
`() => simulation.stop()` returned by the last run of the graph effect, for the
simulation at position `k`; `scene = none` is an `svg` that is empty or not mounted;
`crashed` is set when the graph effect has thrown and React has removed the component. -/
structure World where
  app : AppState := {}
  simulations : List Simulation := []
  cleanup : Option Nat := none
  scene : Option Scene := none
  gestures : List Gesture := []
  crashed : Bool := false

/-- The component as mounted: initial state, nothing built. -/
def initialWorld : World := {}

/-- An update of the simulation at position `k`. -/
def World.updateSimulation (w : World) (k : Nat) (f : Simulation → Simulation) : World :=
  { w with simulations := w.simulations.modify f k }

/-- An update of the node object `d`; a node object that is no longer in `data` is out
of reach. -/
def World.updateNode (w : World) (d : Option Nat) (f : Node → Node) : World :=
  match d with
  | none => w
  | some index =>
    let data := { w.app.data with nodes := w.app.data.nodes.modify f index }
    let app := { w.app with data := data }
    { w with app := app }

/-- The handler `dragstarted(event, d)` of the scene whose simulation is `simulation`. -/
def dragstarted (event : DragEvent) (simulation : Nat) (d : Option Nat) (w : World) : World :=
  let w1 :=
    if event.active = 0 then
      w.updateSimulation simulation fun sim => (sim.setAlphaTarget (3 / 10)).restart
    else w
  w1.updateNode d fun n => { n with fx := n.x, fy := n.y }

/-- The handler `dragged(event, d)`. -/
def dragged (event : DragEvent) (d : Option Nat) (w : World) : World :=
  w.updateNode d fun n => { n with fx := event.x, fy := event.y }

/-- The handler `dragended(event, d)` of the scene whose simulation is `simulation`. -/
def dragended (event : DragEvent) (simulation : Nat) (d : Option Nat) (w : World) : World :=
  let w1 :=
    if event.active = 0 then w.updateSimulation simulation fun sim => sim.setAlphaTarget 0
    else w
  w1.updateNode d fun n => { n with fx := .null, fy := .null }

/-- The nodes `getFilteredData` keeps, each with its position in `data.nodes`. -/
def filteredNodeEntries (toStr : JSVal → String) (s : AppState) : List (Nat × Node) :=
  s.data.nodes.enum.filter fun p =>
    truthy (s.visibleTypes.get (toPropertyKey toStr p.2.type))

/-- The lookup `nodeById.get(v)` of the link force: the last of the nodes with the id `v`. -/
def findNode (entries : List (Nat × Node)) (v : JSVal) : Option Nat :=
  (entries.reverse.find? fun p => p.2.id == v).map Prod.fst

/-- The test `typeof v === "object"`. -/
def isObjectType : JSVal → Bool
  | .null => true
  | .obj _ => true
  | .node _ => true
  | _ => false

/-- What the link force makes of an endpoint: an object stays, any other value is looked
up in `nodeById`, and a value that is not found raises "node not found". -/
def resolveEndpoint (entries : List (Nat × Node)) (v : JSVal) : Except JSError JSVal :=
  if isObjectType v then .ok v
  else
    match findNode entries v with
    | some index => .ok (.node index)
    | none => .error .nodeNotFound

/-- The link force on one link object: `source`, then `target`, are resolved in place,
then `link.source.index` and `link.target.index` are read, which throws on `null`. The
result is the link as it is left and the error thrown, if any. -/
def resolveLink (entries : List (Nat × Node)) (link : Link) : Link × Option JSError :=
  match resolveEndpoint entries link.source with
  | .error e => (link, some e)
  | .ok source =>
    let link1 := { link with source := source }
    match resolveEndpoint entries link.target with
    | .error e => (link1, some e)
    | .ok target =>
      let link2 := { link1 with target := target }
      if source = .null ∨ target = .null then (link2, some .typeError) else (link2, none)

/-- The link force on the links of `data.links` that passed the filter (`keep`), in
order, up to the first error. -/
def resolveLinks (keep : Link → Bool) (entries : List (Nat × Node)) :
    List Link → List Link × Option JSError
  | [] => ([], none)
  | link :: rest =>
    if keep link then
      match resolveLink entries link with
      | (link', some e) => (link' :: rest, some e)
      | (link', none) =>
        let r := resolveLinks keep entries rest
        (link' :: r.1, r.2)
    else
      let r := resolveLinks keep entries rest
      (link :: r.1, r.2)

/-- The body of the graph effect.  It returns early when `viewMode !== 'graph' || loading`
(the `svg` is then not mounted).  Otherwise it builds a simulation on the filtered
nodes, lets the link force resolve the filtered links in place, draws lines and nodes
and returns the cleanup that stops the simulation.  When the link force throws, the
simulation already runs, no cleanup is returned and React removes the component. -/
def graphEffect (toStr : JSVal → String) (w : World) : World :=
  if w.app.viewMode ≠ "graph" || w.app.loading then { w with cleanup := none, scene := none }
  else
    let entries := filteredNodeEntries toStr w.app
    let filteredNodeIds := JSSet.ofList (entries.map fun p => p.2.id)
    let keep := fun (link : Link) =>
      filteredNodeIds.has link.source && filteredNodeIds.has link.target
    let simulation := w.simulations.length
    let simulations := w.simulations ++ [forceSimulation]
    let resolved := resolveLinks keep entries w.app.data.links
    let data := { w.app.data with links := resolved.1 }
    let app := { w.app with data := data }
    match resolved.2 with
    | some _ =>
      { w with app := app, simulations := simulations, cleanup := none, scene := none,
               crashed := true }
    | none =>
      let drawn := (w.app.data.links.zip resolved.1).filter fun p => keep p.1
      let lines := drawn.map fun p => ({ datum := p.2 } : LineElement)
      let nodes := entries.map fun p =>
        ({ datum := p.1, filter := nodeFilterStyle w.app.highlightedNodes p.2 } : NodeElement)
      let scene : Scene := { simulation := simulation, nodes := nodes, lines := lines }
      { w with app := app, simulations := simulations, cleanup := some simulation,
               scene := some scene }

/-- React calls the cleanup of the previous run of the effect, if it returned one. -/
def runCleanup (w : World) : World :=
  match w.cleanup with
  | some k => w.updateSimulation k Simulation.stop
  | none => w

/-- A dependency of the graph effect has changed: React runs the cleanup of the previous
run, then the effect. -/
def rerunEffect (toStr : JSVal → String) (w : World) : World :=
  graphEffect toStr (runCleanup w)

/-- What can happen to the component.  `pointerDown`, `pointerMove`, `pointerUp` are
what d3-drag turns into `start`, `drag` and `end`; `element` is a position among the
drawn nodes; `positions` is a write of the library to `x`, `y`, `vx`, `vy`. -/
inductive Event where
  | pointerDown (pointer element : Nat)
  | pointerMove (pointer : Nat) (x y : JSVal)
  | pointerUp (pointer : Nat)
  | mouseover (element : Nat)
  | mouseout (element : Nat)
  | click (element : Nat)
  | search (term : String)
  | toggle (type : JSVal)
  | switchView
  | refresh
  | fetched (r : FetchOutcome)
  | positions (f : Nat → JSVal × JSVal × JSVal × JSVal)

/-- The number of gestures in progress of the drag behaviour of the scene `simulation`. -/
def activeGestures (gestures : List Gesture) (simulation : Nat) : Nat :=
  (gestures.filter fun g => g.simulation == simulation).length

/-- The gesture of a pointer, if it has one. -/
def gestureOf (gestures : List Gesture) (pointer : Nat) : Option Gesture :=
  gestures.find? fun g => g.pointer == pointer

/-- One event.  An event on an element that is not drawn, or of a pointer without a
gesture, does not occur; nothing occurs once the component has crashed. -/
def step (objectId : Nat → JSVal) (unicodeLower : String → String) (toStr : JSVal → String)
    (w : World) : Event → World
  | .pointerDown pointer element =>
    if w.crashed then w else
    match w.scene with
    | none => w
    | some scene =>
      match scene.nodes[element]?, gestureOf w.gestures pointer with
      | some this, none =>
        let event : DragEvent := { active := activeGestures w.gestures scene.simulation }
        let w1 := dragstarted event scene.simulation (some this.datum) w
        let gesture : Gesture :=
          { pointer := pointer, simulation := scene.simulation, subject := some this.datum }
        { w1 with gestures := w1.gestures ++ [gesture] }
      | _, _ => w
  | .pointerMove pointer x y =>
    if w.crashed then w else
    match gestureOf w.gestures pointer with
    | none => w
    | some g =>
      let event : DragEvent :=
        { active := activeGestures w.gestures g.simulation, x := x, y := y }
      dragged event g.subject w
  | .pointerUp pointer =>
    if w.crashed then w else
    match gestureOf w.gestures pointer with
    | none => w
    | some g =>
      let remaining := w.gestures.erase g
      let event : DragEvent := { active := activeGestures remaining g.simulation }
      dragended event g.simulation g.subject { w with gestures := remaining }
  | .mouseover element =>
    if w.crashed then w else
    match w.scene with
    | none => w
    | some scene =>
      match mouseover objectId w.app.data.nodes scene element with
      | .normal scene' => { w with scene := some scene' }
      | .throw _ scene' => { w with scene := some scene' }
  | .mouseout element =>
    if w.crashed then w else
    match w.scene with
    | none => w
    | some scene => { w with scene := some (mouseout scene element) }
  | .click element =>
    if w.crashed then w else
    match w.scene with
    | none => w
    | some scene =>
      match scene.nodes[element]? with
      | none => w
      | some this =>
        let app := { w.app with selectedNode := w.app.data.nodes[this.datum]? }
        { w with app := app }
  | .search term =>
    if w.crashed then w else
    match handleSearch unicodeLower w.app term with
    | .normal app => rerunEffect toStr { w with app := app }
    | .throw _ app => { w with app := app }
  | .toggle type =>
    if w.crashed then w else
    rerunEffect toStr { w with app := toggleNodeType toStr w.app type }
  | .switchView =>
    if w.crashed then w else
    let viewMode := if w.app.viewMode = "graph" then "simple" else "graph"
    let app := { w.app with viewMode := viewMode }
    rerunEffect toStr { w with app := app }
  | .refresh =>
    if w.crashed then w else
    let app := { w.app with loading := true, error := none }
    { w with app := app, scene := none }
  | .fetched r =>
    if w.crashed then w else
    let gestures := w.gestures.map fun g => { g with subject := none }
    rerunEffect toStr { w with app := fetchGraphData w.app r, gestures := gestures }
  | .positions f =>
    if w.crashed then w else
    let nodes := w.app.data.nodes.enum.map fun p =>
      { p.2 with x := (f p.1).1, y := (f p.1).2.1, vx := (f p.1).2.2.1, vy := (f p.1).2.2.2 }
    let data := { w.app.data with nodes := nodes }
    let app := { w.app with data := data }
    { w with app := app }

/-- A sequence of events. -/
def run (objectId : Nat → JSVal) (unicodeLower : String → String) (toStr : JSVal → String)
    (w : World) (events : List Event) : World :=
  events.foldl (step objectId unicodeLower toStr) w

/-- A drag gesture of one pointer on a drawn node: the start, the moves to the given
positions, the end. -/
def singleGesture (pointer element : Nat) (moves : List (JSVal × JSVal)) : List Event :=
  Event.pointerDown pointer element ::
    ((moves.map fun m => Event.pointerMove pointer m.1 m.2) ++ [Event.pointerUp pointer])

/-- An id as data from JSON has it when it is not `null`, an object or an array: a
string, a number (never `NaN`), a boolean, or no id at all. -/
def plainId : JSVal → Bool
  | .null => false
  | .nan => false
  | .obj _ => false
  | .node _ => false
  | _ => true

/-- The emphasis of a scene: the `opacity` of every node in effect (a style that was
never set is 1), and for every line its `opacity` in effect and its `stroke-opacity`. -/
def Scene.emphasis (scene : Scene) : List String × List (String × String) :=
  (scene.nodes.map fun e => e.opacity.getD "1",
   scene.lines.map fun line => (line.opacity.getD "1", line.strokeOpacity))

/-- The component showing the fallback data in the graph view, before the graph effect
has run. -/
def fallbackStart : World := { app := fallbackGraphState }

/-- The fallback data drawn: the graph effect has run once on `fallbackStart`. -/
def fallbackWorld : World := graphEffect noToString fallbackStart

/-- The reads of the closed examples find no object other than nodes. -/
def noObjectId : Nat → JSVal := fun _ => .undefined

/-- The fallback data drawn, once the library has placed every node at (100, 200) with
the velocity 0. -/
def placedFallbackWorld : World :=
  step noObjectId noUnicodeLower noToString fallbackWorld
    (.positions fun _ => (.num 100, .num 200, .num 0, .num 0))

/-- The events of an interaction: drag, hover, click, search and type toggle, and with
them the library's writes of positions and velocities; not a change of view, a refresh
or the arrival of new data. -/
def Event.isInteraction : Event → Bool
  | .switchView => false
  | .refresh => false
  | .fetched _ => false
  | _ => true

/-- The node on which the event starts a drag in the world `w`, if it starts one. -/
def dragStartOn (w : World) : Event → Option Nat
  | .pointerDown pointer element =>
    if w.crashed then none else
    match w.scene with
    | none => none
    | some scene =>
      match scene.nodes[element]?, gestureOf w.gestures pointer with
      | some this, none => some this.datum
      | _, _ => none
  | _ => none

/-- No event of the sequence, run from `w`, starts a drag on the node at position `i`. -/
def noDragStartsOn (objectId : Nat → JSVal) (unicodeLower : String → String)
    (toStr : JSVal → String) (i : Nat) : World → List Event → Prop
  | _, [] => True
  | w, e :: rest =>
    dragStartOn w e ≠ some i ∧
      noDragStartsOn objectId unicodeLower toStr i (step objectId unicodeLower toStr w e) rest

/-- Every pinned node is the subject of a drag gesture in progress. -/
def PinnedOnlyInGesture (w : World) : Prop :=
  ∀ i n, w.app.data.nodes[i]? = some n → n.pinned = true →
    ∃ g ∈ w.gestures, g.subject = some i

/-- No drag gesture in progress has the node at position `i` as its subject. -/
def NoGestureOn (i : Nat) (w : World) : Prop :=
  ∀ g ∈ w.gestures, g.subject ≠ some i

/-- The simulations are in order: every simulation but the newest is stopped; the cleanup
React holds is for the newest simulation, which ticks; a drawn scene belongs to that
simulation; and when React holds no cleanup, no simulation ticks, unless the effect
has thrown. -/
def SimulationsInOrder (w : World) : Prop :=
  (∀ (j : Nat) (sim : Simulation), w.simulations[j]? = some sim →
    j + 1 < w.simulations.length → sim.ticking = false) ∧
  (∀ k : Nat, w.cleanup = some k →
    k + 1 = w.simulations.length ∧
      ∃ sim : Simulation, w.simulations[k]? = some sim ∧ sim.ticking = true) ∧
  (∀ scene : Scene, w.scene = some scene → w.cleanup = some scene.simulation) ∧
  (w.crashed = false → w.cleanup = none →
    ∀ (j : Nat) (sim : Simulation), w.simulations[j]? = some sim → sim.ticking = false)

/-- Every simulation of `old` is still there in `new`, and stopped if it was stopped. -/
def KeepsStopped (old new : List Simulation) : Prop :=
  ∀ (j : Nat) (sim : Simulation), old[j]? = some sim →
    ∃ sim' : Simulation, new[j]? = some sim' ∧ (sim.ticking = false → sim'.ticking = false)

/-! ## Cooling: the `alpha` of a force simulation

The component builds its simulation with `d3.forceSimulation(currentData.nodes)` and
sets none of `alpha`, `alphaMin`, `alphaDecay`, `alphaTarget`: they have the defaults
of d3-force.  Numbers are rationals here, not doubles. -/

/-- The default `alphaDecay` of d3-force, `1 - Math.pow(0.001, 1 / 300)`, as the double
this expression evaluates to: 0.02276277904418933. -/
def d3AlphaDecay : ℚ := 6407152701333 / 281474976710656

/-- What `tick` of a d3 force simulation reads and writes: the four cooling parameters
and the nodes. -/
structure Cooling where
  alpha : ℚ := 1
  alphaMin : ℚ := 1 / 1000
  alphaDecay : ℚ := d3AlphaDecay
  alphaTarget : ℚ := 0
  nodes : List Node := []

/-- One `simulation.tick()`: `alpha += (alphaTarget - alpha) * alphaDecay`, then the
forces and the integration of velocities move the nodes; `forces` is all of that, as a
function of the new `alpha`. -/
def Cooling.tick (forces : ℚ → List Node → List Node) (s : Cooling) : Cooling :=
  let alpha := s.alpha + (s.alphaTarget - s.alpha) * s.alphaDecay
  { s with alpha := alpha, nodes := forces alpha s.nodes }

/-- The timer of the simulation: its callback `step` calls `tick()` and stops the timer
when `alpha < alphaMin`.  The result is the number of ticks made and the state at the
stop, or `none` when the timer is still running after `fuel` ticks. -/
def Cooling.runTimer (forces : ℚ → List Node → List Node) :
    Nat → Cooling → Option (Nat × Cooling)
  | 0, _ => none
  | fuel + 1, s =>
    let s1 := s.tick forces
    if s1.alpha < s1.alphaMin then some (1, s1)
    else (Cooling.runTimer forces fuel s1).map fun r => (r.1 + 1, r.2)

/-! ## Predicates and examples for toggling and for refining a search -/

/-- What `visibleTypes` is in every state the component reaches: an object that holds
each property name once, with a boolean under each of the four filter types. -/
def FilterFlags (o : JSObject) : Prop :=
  (o.map Prod.fst).Nodup ∧
    ∀ t ∈ ["People", "Institutions", "Projects", "Methods"], ∃ b : Bool, (t, JSVal.bool b) ∈ o

/-- The values of `String.prototype.toLowerCase` on the three Greek strings of the
example below.  A capital sigma that follows a letter and ends the word lowers to the
final sigma, any other capital sigma to the plain one (the rule `Final_Sigma` of Unicode,
which the language adopts): "Σ" lowers to "σ", "ΟΣ" to "ος" and "Νίκος" to "νίκος". -/
def greekLower (s : String) : String :=
  if s = "Σ" then "σ"
  else if s = "ΟΣ" then "ος"
  else if s = "Νίκος" then "νίκος"
  else s

/-- A state whose only data is one node, a person called "Νίκος". -/
def greekNameState : AppState :=
  { data := { nodes := [{ id := .str "P100", name := .str "Νίκος", type := .str "People" }],
              links := [] } }

/-! ## Lemmas on sets and objects -/

theorem JSSet.mem_add (s : JSSet) (v x : JSVal) : x ∈ s.add v ↔ x ∈ s ∨ x = v := by
  unfold JSSet.add
  by_cases h : v ∈ s
  · simp only [h, if_true]
    constructor
    · exact Or.inl
    · rintro (hx | rfl)
      · exact hx
      · exact h
  · simp [h]

theorem JSSet.mem_foldl_add (vs : List JSVal) (acc : JSSet) (x : JSVal) :
    x ∈ vs.foldl JSSet.add acc ↔ x ∈ acc ∨ x ∈ vs := by
  induction vs generalizing acc with
  | nil => simp
  | cons v rest ih =>
    rw [List.foldl_cons, ih, JSSet.mem_add, List.mem_cons]
    tauto

theorem JSSet.mem_ofList (vs : List JSVal) (x : JSVal) : x ∈ JSSet.ofList vs ↔ x ∈ vs := by
  simp [JSSet.ofList, JSSet.mem_foldl_add]

theorem JSSet.has_ofList_ids (nodes : List Node) (v : JSVal) :
    (JSSet.ofList (nodes.map fun n => n.id)).has v = true ↔ ∃ n ∈ nodes, n.id = v := by
  simp [JSSet.has, JSSet.mem_ofList]

/-! ## Filtering: closure and characterisation -/

theorem getFilteredData_links (toStr : JSVal → String) (s : AppState) :
    (getFilteredData toStr s).links =
      s.data.links.filter (fun link =>
        (JSSet.ofList ((getFilteredData toStr s).nodes.map fun n => n.id)).has link.source &&
        (JSSet.ofList ((getFilteredData toStr s).nodes.map fun n => n.id)).has link.target) :=
  rfl

/-- Claim C1 (filter closure): every link returned by `getFilteredData` has its source
and its target equal to the id of a node returned by the same call. -/
theorem getFilteredData_links_closed (toStr : JSVal → String) (s : AppState) :
    ∀ l ∈ (getFilteredData toStr s).links,
      (∃ n ∈ (getFilteredData toStr s).nodes, n.id = l.source) ∧
      (∃ n ∈ (getFilteredData toStr s).nodes, n.id = l.target) := by
  intro l hl
  rw [getFilteredData_links] at hl
  simp only [List.mem_filter, Bool.and_eq_true, JSSet.has_ofList_ids] at hl
  exact hl.2

/-- Witness for C1: the link from P001 to PR001 of the fallback data, all types visible. -/
theorem getFilteredData_links_closed_witness :
    ({ source := .str "P001", target := .str "PR001", relationship := .str "leads",
       strength := .num 1 } : Link) ∈ (getFilteredData noToString fallbackGraphState).links ∧
    (∃ n ∈ (getFilteredData noToString fallbackGraphState).nodes, n.id = .str "P001") ∧
    (∃ n ∈ (getFilteredData noToString fallbackGraphState).nodes, n.id = .str "PR001") :=
  ⟨by decide,
    getFilteredData_links_closed noToString fallbackGraphState
      { source := .str "P001", target := .str "PR001", relationship := .str "leads",
        strength := .num 1 } (by decide)⟩

/-- Counterexample to C2 as stated: with the initial `visibleTypes`, which has no flag
"constructor", so no flag that is true for it, `getFilteredData` returns the node of
the type "constructor": the read `visibleTypes["constructor"]` gives the inherited
function, which is truthy. The nodes whose flag is `true` are none. -/
theorem getFilteredData_returns_unflagged :
    constructorTypeState.visibleTypes =
      [("People", .bool true), ("Institutions", .bool true), ("Projects", .bool true),
       ("Methods", .bool true)] ∧
    List.lookup "constructor" constructorTypeState.visibleTypes = none ∧
    constructorTypeState.visibleTypes.get "constructor" ≠ .bool true ∧
    constructorTypeState.data.nodes.filter (fun n =>
      decide (constructorTypeState.visibleTypes.get (toPropertyKey noToString n.type) =
        .bool true)) = [] ∧
    (getFilteredData noToString constructorTypeState).nodes =
      [{ id := .str "X1", name := .str "Builder", type := .str "constructor" }] := by
  decide

/-- Claim C2 (amended): `getFilteredData` returns the nodes of `data.nodes` for which
the property read `visibleTypes[node.type]` is truthy. These are the nodes whose type
has a flag in `visibleTypes` that is truthy (`true`, for a boolean flag) and the nodes
whose type has no flag there but names a property every object inherits from
`Object.prototype`. It returns the links of `data.links` whose source and target are both
ids of returned nodes. Both are filtered sublists, so the original order is kept and
nothing is added. -/
theorem getFilteredData_eq_filter (toStr : JSVal → String) (s : AppState) :
    (getFilteredData toStr s).nodes =
        s.data.nodes.filter
          (fun n => truthy (s.visibleTypes.get (toPropertyKey toStr n.type))) ∧
    (∀ n : Node, n ∈ (getFilteredData toStr s).nodes ↔
      n ∈ s.data.nodes ∧
        ((∃ v, List.lookup (toPropertyKey toStr n.type) s.visibleTypes = some v ∧
            truthy v = true) ∨
          (List.lookup (toPropertyKey toStr n.type) s.visibleTypes = none ∧
            toPropertyKey toStr n.type ∈ objectPrototypeKeys))) ∧
    (getFilteredData toStr s).links =
        s.data.links.filter (fun l =>
          decide (∃ n ∈ (getFilteredData toStr s).nodes, n.id = l.source) &&
          decide (∃ n ∈ (getFilteredData toStr s).nodes, n.id = l.target)) ∧
    List.Sublist (getFilteredData toStr s).nodes s.data.nodes ∧
    List.Sublist (getFilteredData toStr s).links s.data.links := by
  refine ⟨rfl, ?_, ?_, List.filter_sublist _, List.filter_sublist _⟩
  · intro n
    show n ∈ s.data.nodes.filter
      (fun n => truthy (s.visibleTypes.get (toPropertyKey toStr n.type))) ↔ _
    rw [List.mem_filter]
    apply and_congr_right
    intro _
    unfold JSObject.get
    cases hl : List.lookup (toPropertyKey toStr n.type) s.visibleTypes with
    | some v => simp
    | none =>
      by_cases hk : toPropertyKey toStr n.type ∈ objectPrototypeKeys
      · simp [hk, truthy]
      · simp [hk, truthy]
  conv_lhs => rw [getFilteredData_links]
  apply List.filter_congr
  intro l _
  rw [Bool.eq_iff_iff]
  simp only [Bool.and_eq_true, JSSet.has_ofList_ids, decide_eq_true_eq]

/-! ## Search -/

theorem trim_eq_empty_iff (s : String) :
    trim s = "" ↔ ∀ c ∈ s.data, isWhiteSpace c = true := by
  unfold trim
  have h0 : ∀ l : List Char, String.mk l = "" ↔ l = [] := by
    intro l
    constructor
    · intro h
      have := congrArg String.data h
      simpa using this
    · rintro rfl
      rfl
  rw [h0, List.reverse_eq_nil_iff, List.dropWhile_eq_nil_iff]
  constructor
  · intro h
    have hnil : s.data.dropWhile isWhiteSpace = [] := by
      by_contra hne
      have h1 := List.head_dropWhile_not isWhiteSpace s.data hne
      have h2 := h _ (List.mem_reverse.mpr (List.head_mem hne))
      rw [h2] at h1
      exact absurd h1 (by simp)
    exact List.dropWhile_eq_nil_iff.mp hnil
  · intro h
    have hnil : s.data.dropWhile isWhiteSpace = [] := List.dropWhile_eq_nil_iff.mpr h
    simp [hnil]

theorem handleSearch_of_blank (unicodeLower : String → String) (s : AppState) (term : String)
    (h : ∀ c ∈ term.data, isWhiteSpace c = true) :
    handleSearch unicodeLower s term =
      .normal { s with searchTerm := term, highlightedNodes := [] } := by
  have ht : trim term = "" := (trim_eq_empty_iff term).mpr h
  simp [handleSearch, ht]

theorem handleSearch_of_not_blank (unicodeLower : String → String) (s : AppState)
    (term : String) (h : ∃ c ∈ term.data, isWhiteSpace c = false) :
    handleSearch unicodeLower s term =
      match collectMatches unicodeLower term s.data.nodes [] with
      | .ok found => .normal { s with searchTerm := term, highlightedNodes := found }
      | .error e => .throw e { s with searchTerm := term } := by
  have ht : trim term ≠ "" := by
    intro h0
    obtain ⟨c, hc, hw⟩ := h
    have := (trim_eq_empty_iff term).mp h0 c hc
    rw [hw] at this
    exact absurd this (by simp)
  simp [handleSearch, ht]

theorem lowerIncludes_of_isString (unicodeLower : String → String) (v : JSVal) (term : String)
    (h : isString v = true) :
    lowerIncludes unicodeLower v term = .ok (textContains unicodeLower v term) := by
  cases v <;> simp_all [isString, lowerIncludes, textContains]

theorem guardedIncludes_of_optionalText (unicodeLower : String → String) (v : JSVal)
    (term : String) (h : optionalText v = true) :
    guardedIncludes unicodeLower v term = .ok (populatedContains unicodeLower v term) := by
  unfold guardedIncludes populatedContains
  by_cases ht : truthy v = true
  · have hs : isString v = true := by simpa [optionalText, ht] using h
    simp [ht, lowerIncludes_of_isString unicodeLower v term hs]
  · simp [ht]

theorem orElse_ok (a : Bool) (b : Unit → Except JSError Bool) (c : Bool) (hb : b () = .ok c) :
    orElse (.ok a) b = .ok (a || c) := by
  cases a <;> simp [orElse, hb]

theorem nodeMatches_of_searchable (unicodeLower : String → String) (n : Node) (term : String)
    (h : n.searchable = true) :
    nodeMatches unicodeLower n term = .ok (searchedMatch unicodeLower n term) := by
  simp only [Node.searchable, Bool.and_eq_true] at h
  obtain ⟨⟨⟨⟨hn, hb⟩, hd⟩, hm⟩, hc⟩ := h
  unfold nodeMatches searchedMatch
  rw [lowerIncludes_of_isString _ _ _ hn, guardedIncludes_of_optionalText _ _ _ hb,
    guardedIncludes_of_optionalText _ _ _ hd, guardedIncludes_of_optionalText _ _ _ hm,
    guardedIncludes_of_optionalText _ _ _ hc]
  have h4 := orElse_ok (populatedContains unicodeLower n.methods term)
    (fun _ => Except.ok (populatedContains unicodeLower n.category term)) _ rfl
  have h3 := orElse_ok (populatedContains unicodeLower n.description term) (fun _ => _) _ h4
  have h2 := orElse_ok (populatedContains unicodeLower n.bio term) (fun _ => _) _ h3
  have h1 := orElse_ok (textContains unicodeLower n.name term) (fun _ => _) _ h2
  rw [h1]
  simp [Bool.or_assoc]

theorem collectMatches_of_searchable (unicodeLower : String → String) (term : String)
    (nodes : List Node) (found : JSSet) (h : ∀ n ∈ nodes, n.searchable = true) :
    ∃ result, collectMatches unicodeLower term nodes found = .ok result ∧
      ∀ v, v ∈ result ↔
        v ∈ found ∨ ∃ n ∈ nodes, n.id = v ∧ searchedMatch unicodeLower n term = true := by
  induction nodes generalizing found with
  | nil => exact ⟨found, rfl, by simp⟩
  | cons node rest ih =>
    have hnode := nodeMatches_of_searchable unicodeLower node term (h node (by simp))
    have hrest : ∀ n ∈ rest, n.searchable = true := fun n hn => h n (by simp [hn])
    by_cases hm : searchedMatch unicodeLower node term = true
    · obtain ⟨result, hres, hmem⟩ := ih (found.add node.id) hrest
      refine ⟨result, ?_, ?_⟩
      · simp only [collectMatches, hnode, hm]
        exact hres
      · intro v
        rw [hmem, JSSet.mem_add]
        simp only [List.mem_cons, exists_eq_or_imp, hm, and_true]
        constructor
        · rintro ((hf | rfl) | hr)
          · exact Or.inl hf
          · exact Or.inr (Or.inl rfl)
          · exact Or.inr (Or.inr hr)
        · rintro (hf | h1 | hr)
          · exact Or.inl (Or.inl hf)
          · exact Or.inl (Or.inr h1.symm)
          · exact Or.inr hr
    · obtain ⟨result, hres, hmem⟩ := ih found hrest
      have hm0 : searchedMatch unicodeLower node term = false := by simpa using hm
      refine ⟨result, ?_, ?_⟩
      · simp only [collectMatches, hnode, hm0]
        exact hres
      · intro v
        rw [hmem]
        simp [hm0]

/-- Claim C3 (amended): for a non-blank term and nodes whose name is a string and whose
bio, description, methods and category are each absent, empty or a string, `handleSearch`
completes and sets `highlightedNodes` to exactly the ids of the nodes for which the
lower-cased term occurs in the lower-cased name or in the lower-cased value of a populated
bio, description, methods or category. -/
theorem handleSearch_highlights_searched (unicodeLower : String → String) (s : AppState)
    (term : String) (hterm : ∃ c ∈ term.data, isWhiteSpace c = false)
    (hnodes : ∀ n ∈ s.data.nodes, n.searchable = true) :
    ∃ s', handleSearch unicodeLower s term = .normal s' ∧ s'.searchTerm = term ∧
      ∀ v, v ∈ s'.highlightedNodes ↔
        ∃ n ∈ s.data.nodes, n.id = v ∧ searchedMatch unicodeLower n term = true := by
  obtain ⟨result, hres, hmem⟩ :=
    collectMatches_of_searchable unicodeLower term s.data.nodes [] hnodes
  refine ⟨{ s with searchTerm := term, highlightedNodes := result }, ?_, rfl, ?_⟩
  · rw [handleSearch_of_not_blank unicodeLower s term hterm, hres]
  · intro v
    rw [hmem v]
    simp

/-- Witness for C3 (amended): the search for "forest" on the fallback data. -/
theorem handleSearch_highlights_searched_witness :
    (∃ c ∈ "forest".data, isWhiteSpace c = false) ∧
    (∀ n ∈ fallbackGraphState.data.nodes, n.searchable = true) ∧
    ∃ s', handleSearch noUnicodeLower fallbackGraphState "forest" = .normal s' ∧
      s'.searchTerm = "forest" ∧
      ∀ v, v ∈ s'.highlightedNodes ↔
        ∃ n ∈ fallbackGraphState.data.nodes,
          n.id = v ∧ searchedMatch noUnicodeLower n "forest" = true :=
  ⟨by decide, by decide,
    handleSearch_highlights_searched noUnicodeLower fallbackGraphState "forest"
      (by decide) (by decide)⟩

/-- Counterexample to C3 as stated: on the fallback data the term "waag" occurs in the
`connections` of P001 and P002 and in the name of I001, so the claim describes the set
of P001, P002 and I001, but `handleSearch` highlights I001 only; and on a node without a
name `handleSearch` raises a `TypeError` and sets no highlight set. -/
theorem handleSearch_skips_connections :
    (∃ s', handleSearch noUnicodeLower fallbackGraphState "waag" = .normal s' ∧
      s'.highlightedNodes = [.str "I001"]) ∧
    (fallbackGraphState.data.nodes.filter
        (fun n => claimedSearchMatch noUnicodeLower n "waag")).map (fun n => n.id) =
      [.str "P001", .str "P002", .str "I001"] ∧
    handleSearch noUnicodeLower namelessNodeState "a" =
      .throw .typeError { namelessNodeState with searchTerm := "a" } :=
  ⟨⟨_, rfl, by decide⟩, by decide, rfl⟩

/-- Claim C5: with an empty term or a term made only of whitespace (every character of
the term is one `trim` removes, which holds of the empty term), `handleSearch` completes
and sets `highlightedNodes` to the empty set, whatever the nodes contain. -/
theorem handleSearch_blank_clears (unicodeLower : String → String) (s : AppState)
    (term : String) (h : ∀ c ∈ term.data, isWhiteSpace c = true) :
    handleSearch unicodeLower s term =
      .normal { s with searchTerm := term, highlightedNodes := [] } := by
  have ht : trim term = "" := (trim_eq_empty_iff term).mpr h
  unfold handleSearch
  simp only [ht, if_true]

/-- Witness for C5: three blanks typed over a state whose only node has no name. -/
theorem handleSearch_blank_clears_witness :
    (∀ c ∈ "   ".data, isWhiteSpace c = true) ∧
    handleSearch noUnicodeLower namelessNodeState "   " =
      .normal { namelessNodeState with searchTerm := "   ", highlightedNodes := [] } :=
  ⟨by decide, handleSearch_blank_clears noUnicodeLower namelessNodeState "   " (by decide)⟩

/-! ## Node emphasis under search -/

theorem nodeFilterStyle_nil (d : Node) : nodeFilterStyle [] d = "none" := by
  simp [nodeFilterStyle, JSSet.size]

theorem nodeFilterStyle_of_ne_nil (highlightedNodes : JSSet) (d : Node)
    (h : highlightedNodes ≠ []) :
    nodeFilterStyle highlightedNodes d =
      if d.id ∈ highlightedNodes then "none" else "opacity(0.3)" := by
  have hpos : 0 < highlightedNodes.length := List.length_pos.mpr h
  by_cases hm : d.id ∈ highlightedNodes <;>
    simp [nodeFilterStyle, JSSet.size, JSSet.has, hpos, hm]

theorem renderedNodeFilters_none_of_nil (toStr : JSVal → String) (s : AppState)
    (h : s.highlightedNodes = []) : ∀ p ∈ renderedNodeFilters toStr s, p.2 = "none" := by
  intro p hp
  unfold renderedNodeFilters at hp
  split at hp
  · simp at hp
  · rw [h] at hp
    obtain ⟨d, _, rfl⟩ := List.mem_map.mp hp
    exact nodeFilterStyle_nil d

/-- Claim C4 (amended): when a non-blank term matches no node, `handleSearch` leaves the
empty highlight set and the graph effect dims no node: every drawn node gets the filter
'none', and the drawn nodes and filters are those of the state with no search. -/
theorem no_match_search_dims_nothing (unicodeLower : String → String)
    (toStr : JSVal → String) (s s' : AppState) (term : String)
    (hterm : ∃ c ∈ term.data, isWhiteSpace c = false)
    (h : handleSearch unicodeLower s term = .normal s')
    (hempty : s'.highlightedNodes = []) :
    (∀ p ∈ renderedNodeFilters toStr s', p.2 = "none") ∧
    renderedNodeFilters toStr s' =
      renderedNodeFilters toStr { s with searchTerm := "", highlightedNodes := [] } := by
  refine ⟨renderedNodeFilters_none_of_nil toStr s' hempty, ?_⟩
  rw [handleSearch_of_not_blank unicodeLower s term hterm] at h
  split at h
  · injection h with h
    subst h
    simp only at hempty
    simp only [renderedNodeFilters, getFilteredData, hempty]
  · exact absurd h (by simp)

/-- Witness for C4 (amended): the search for "xyz-none" on the fallback data. -/
theorem no_match_search_dims_nothing_witness :
    (∀ p ∈ renderedNodeFilters noToString
        { fallbackGraphState with searchTerm := "xyz-none", highlightedNodes := [] },
      p.2 = "none") ∧
    renderedNodeFilters noToString
        { fallbackGraphState with searchTerm := "xyz-none", highlightedNodes := [] } =
      renderedNodeFilters noToString
        { fallbackGraphState with searchTerm := "", highlightedNodes := [] } :=
  no_match_search_dims_nothing noUnicodeLower noToString fallbackGraphState
    { fallbackGraphState with searchTerm := "xyz-none", highlightedNodes := [] } "xyz-none"
    (by decide) rfl rfl

/-- Counterexample to C4 as stated: on the fallback data in the graph view the term
"xyz-none" matches nothing, `handleSearch` leaves the empty set, and each of the five
drawn nodes gets the filter 'none', not 'opacity(0.3)'. -/
theorem xyz_none_dims_no_fallback_node :
    ∃ s', handleSearch noUnicodeLower fallbackGraphState "xyz-none" = .normal s' ∧
      s'.highlightedNodes = [] ∧
      (renderedNodeFilters noToString s').map (fun p => (p.1.id, p.2)) =
        [(.str "P001", "none"), (.str "P002", "none"), (.str "I001", "none"),
         (.str "PR001", "none"), (.str "M001", "none")] :=
  ⟨_, rfl, rfl, by decide⟩

/-- Claim C6: after a blank term (no search active) the graph effect gives every drawn
node the filter 'none'; and when `highlightedNodes` is not empty a drawn node gets
'opacity(0.3)' if and only if its id is not in `highlightedNodes`, and 'none' otherwise. -/
theorem nodeFilter_dims_iff_not_highlighted (unicodeLower : String → String)
    (toStr : JSVal → String) (s : AppState) :
    (∀ term s', (∀ c ∈ term.data, isWhiteSpace c = true) →
      handleSearch unicodeLower s term = .normal s' →
      s'.highlightedNodes = [] ∧ ∀ p ∈ renderedNodeFilters toStr s', p.2 = "none") ∧
    (s.highlightedNodes ≠ [] →
      ∀ p ∈ renderedNodeFilters toStr s,
        (p.2 = "opacity(0.3)" ↔ p.1.id ∉ s.highlightedNodes) ∧
        (p.2 = "none" ↔ p.1.id ∈ s.highlightedNodes)) := by
  constructor
  · intro term s' hblank h
    rw [handleSearch_of_blank unicodeLower s term hblank] at h
    injection h with h
    subst h
    exact ⟨rfl, renderedNodeFilters_none_of_nil toStr _ rfl⟩
  · intro hne p hp
    unfold renderedNodeFilters at hp
    split at hp
    · simp at hp
    · obtain ⟨d, _, rfl⟩ := List.mem_map.mp hp
      simp only
      rw [nodeFilterStyle_of_ne_nil _ d hne]
      by_cases hm : d.id ∈ s.highlightedNodes <;> simp [hm]

/-- Witness for C6: the fallback data in the graph view, first after a blank term, then
with M001 highlighted. -/
theorem nodeFilter_dims_iff_not_highlighted_witness :
    (renderedNodeFilters noToString fallbackGraphState).length = 5 ∧
    (∀ p ∈ renderedNodeFilters noToString
        { fallbackGraphState with searchTerm := " ", highlightedNodes := [] }, p.2 = "none") ∧
    (∀ p ∈ renderedNodeFilters noToString
        { fallbackGraphState with highlightedNodes := [.str "M001"] },
      (p.2 = "opacity(0.3)" ↔ p.1.id ∉ [JSVal.str "M001"]) ∧
      (p.2 = "none" ↔ p.1.id ∈ [JSVal.str "M001"])) :=
  ⟨by decide,
   ((nodeFilter_dims_iff_not_highlighted noUnicodeLower noToString fallbackGraphState).1
      " " _ (by decide) rfl).2,
   (nodeFilter_dims_iff_not_highlighted noUnicodeLower noToString
      { fallbackGraphState with highlightedNodes := [.str "M001"] }).2 (by decide)⟩

/-! ## Ingestion -/

theorem transformLink_fields (link : PayloadLink) :
    (transformLink link).source = link.source_id ∧
    (transformLink link).target = link.target_id ∧
    (transformLink link).relationship = link.relationship_type :=
  ⟨rfl, rfl, rfl⟩

theorem transformLink_strength_of_truthy (link : PayloadLink)
    (h : truthy link.strength = true) : (transformLink link).strength = link.strength := by
  simp [transformLink, jsOr, h]

theorem transformLink_strength_of_falsy (link : PayloadLink)
    (h : truthy link.strength = false) : (transformLink link).strength = .num 1 := by
  simp [transformLink, jsOr, h]

/-- Claim C7 (the code at the failing input): a payload link that states the strength 0
is ingested with the strength 1; the source, target and relationship are renamed as the
claim says. -/
theorem transformedData_zero_strength :
    transformedData (oneLinkPayload 0) =
      { nodes := [{ id := .str "P001", name := .str "Jakob Kukula", type := .str "People" },
                  { id := .str "PR001", name := .str "RiverSync", type := .str "Projects" }]
        links := [{ source := .str "P001", target := .str "PR001",
                    relationship := .str "leads", strength := .num 1 }] } := by
  decide

/-- Claim C8 (amended): when every payload link states no strength or a number that is at
least 0, every ingested link has a strength that is a number at least 0; and ingestion
does not clamp: a payload strength below 0 is kept as it is. -/
theorem transformedData_strength_nonNegative (graphData : GraphPayload)
    (h : ∀ l ∈ graphData.links.getD [],
      l.strength = .undefined ∨ nonNegative l.strength = true) :
    (∀ l ∈ (transformedData graphData).links, nonNegative l.strength = true) ∧
    ∀ (link : PayloadLink) (q : ℚ), link.strength = .num q → q < 0 →
      (transformLink link).strength = .num q := by
  constructor
  · intro l hl
    simp only [transformedData, List.mem_map] at hl
    obtain ⟨pl, hpl, rfl⟩ := hl
    by_cases ht : truthy pl.strength = true
    · rw [transformLink_strength_of_truthy pl ht]
      rcases h pl hpl with hu | hn
      · rw [hu] at ht
        exact absurd ht (by simp [truthy])
      · exact hn
    · rw [transformLink_strength_of_falsy pl (by simpa using ht)]
      simp [nonNegative]
  · intro link q hq hneg
    apply (transformLink_strength_of_truthy link _).trans hq
    rw [hq]
    simp [truthy, ne_of_lt hneg]

/-- Witness for C8 (amended): a payload whose one link states the strength 7/10. -/
theorem transformedData_strength_nonNegative_witness :
    (∀ l ∈ (oneLinkPayload (7 / 10)).links.getD [],
      l.strength = .undefined ∨ nonNegative l.strength = true) ∧
    (∀ l ∈ (transformedData (oneLinkPayload (7 / 10))).links,
      nonNegative l.strength = true) ∧
    ∀ (link : PayloadLink) (q : ℚ), link.strength = .num q → q < 0 →
      (transformLink link).strength = .num q :=
  have h : ∀ l ∈ (oneLinkPayload (7 / 10)).links.getD [],
      l.strength = .undefined ∨ nonNegative l.strength = true := by
    intro l hl
    simp only [oneLinkPayload, Option.getD_some, List.mem_singleton] at hl
    subst hl
    right
    simp only [nonNegative, decide_eq_true_eq]
    norm_num
  ⟨h, transformedData_strength_nonNegative (oneLinkPayload (7 / 10)) h⟩

/-- Counterexample to C8 as stated: a payload link that states the strength -1 is
ingested with the strength -1, which is below 0. -/
theorem transformedData_keeps_negative_strength :
    (transformedData (oneLinkPayload (-1))).links =
      [{ source := .str "P001", target := .str "PR001", relationship := .str "leads",
         strength := .num (-1) }] ∧
    nonNegative (.num (-1)) = false := by
  decide

theorem transformedData_nodes (graphData : GraphPayload) :
    (transformedData graphData).nodes = graphData.nodes.getD [] :=
  rfl

theorem transformedData_links (graphData : GraphPayload) :
    (transformedData graphData).links = (graphData.links.getD []).map transformLink :=
  rfl

/-- Claim C9 (amended): ingestion drops nothing. It keeps every payload node as it is and
turns the payload links one-to-one into links with the same endpoints, so the ingested
data set contains no malformed record exactly when the payload contains none. -/
theorem transformedData_drops_nothing (graphData : GraphPayload) :
    (transformedData graphData).nodes = graphData.nodes.getD [] ∧
    (transformedData graphData).links.map (fun l => (l.source, l.target)) =
      (graphData.links.getD []).map (fun l => (l.source_id, l.target_id)) ∧
    (noMalformedRecord (transformedData graphData) ↔ payloadNoMalformedRecord graphData) := by
  refine ⟨rfl, ?_, ?_⟩
  · rw [transformedData_links, List.map_map]
    rfl
  · unfold noMalformedRecord payloadNoMalformedRecord
    rw [transformedData_nodes, transformedData_links]
    constructor
    · rintro ⟨hn, hl⟩
      refine ⟨hn, fun l hmem => ?_⟩
      exact hl (transformLink l) (List.mem_map_of_mem _ hmem)
    · rintro ⟨hn, hl⟩
      refine ⟨hn, fun l hmem => ?_⟩
      obtain ⟨pl, hpl, rfl⟩ := List.mem_map.mp hmem
      exact hl pl hpl

/-- Counterexample to C9 as stated: a payload with a node that has no name and a link to
a node that does not exist is ingested with both records kept. -/
theorem transformedData_keeps_malformed :
    transformedData malformedPayload =
      { nodes := [{ id := .str "P001", type := .str "People" }]
        links := [{ source := .str "P001", target := .str "GHOST",
                    relationship := .str "leads", strength := .num 1 }] } ∧
    ¬ noMalformedRecord (transformedData malformedPayload) := by
  decide

/-! ## Toggling a type that is no filter type -/

theorem JSObject.lookup_map_ne (o : JSObject) (k k' : String) (v : JSVal) (h : k' ≠ k) :
    List.lookup k' (o.map (fun p => if p.1 = k then (k, v) else p)) = List.lookup k' o := by
  have hbeq : (k' == k) = false := by simpa using h
  induction o with
  | nil => rfl
  | cons p rest ih =>
    obtain ⟨a, b⟩ := p
    by_cases ha : a = k
    · subst ha
      simp only [List.map_cons, if_true, List.lookup_cons, hbeq]
      exact ih
    · simp only [List.map_cons, ha, if_false, List.lookup_cons]
      rw [ih]

theorem JSObject.lookup_append_ne (o : JSObject) (k k' : String) (v : JSVal) (h : k' ≠ k) :
    List.lookup k' (o ++ [(k, v)]) = List.lookup k' o := by
  have hbeq : (k' == k) = false := by simpa using h
  induction o with
  | nil => simp [List.lookup, hbeq]
  | cons p rest ih =>
    obtain ⟨a, b⟩ := p
    simp only [List.cons_append, List.lookup_cons]
    rw [ih]

theorem JSObject.lookup_set_ne (o : JSObject) (k k' : String) (v : JSVal) (h : k' ≠ k) :
    List.lookup k' (JSObject.set o k v) = List.lookup k' o := by
  unfold JSObject.set
  split
  · exact JSObject.lookup_map_ne o k k' v h
  · exact JSObject.lookup_append_ne o k k' v h

theorem JSObject.get_set_ne (o : JSObject) (k k' : String) (v : JSVal) (h : k' ≠ k) :
    (JSObject.set o k v).get k' = o.get k' := by
  unfold JSObject.get
  rw [JSObject.lookup_set_ne o k k' v h]

theorem getFilteredData_congr (toStr : JSVal → String) (s t : AppState)
    (hdata : t.data = s.data)
    (hvis : ∀ n ∈ s.data.nodes,
      truthy (t.visibleTypes.get (toPropertyKey toStr n.type)) =
        truthy (s.visibleTypes.get (toPropertyKey toStr n.type))) :
    getFilteredData toStr t = getFilteredData toStr s := by
  have hnodes : (getFilteredData toStr t).nodes = (getFilteredData toStr s).nodes := by
    simp only [getFilteredData, hdata]
    exact List.filter_congr hvis
  have hlinks : (getFilteredData toStr t).links = (getFilteredData toStr s).links := by
    rw [getFilteredData_links, getFilteredData_links, hnodes, hdata]
  calc getFilteredData toStr t
      = ⟨(getFilteredData toStr t).nodes, (getFilteredData toStr t).links⟩ := rfl
    _ = ⟨(getFilteredData toStr s).nodes, (getFilteredData toStr s).links⟩ := by
        rw [hnodes, hlinks]
    _ = getFilteredData toStr s := rfl

/-- Claim C10 (amended): for a type key outside the four filter types and a data set in
which no node has that key as its type, `getFilteredData` returns the same nodes and
links after `toggleNodeType(key)` as before it, and the flags of the four filter types
read as before. -/
theorem toggle_unrecognized_keeps_filtered (toStr : JSVal → String) (s : AppState)
    (key : String) (hkey : key ∉ ["People", "Institutions", "Projects", "Methods"])
    (hnodes : ∀ n ∈ s.data.nodes, toPropertyKey toStr n.type ≠ key) :
    getFilteredData toStr (toggleNodeType toStr s (.str key)) = getFilteredData toStr s ∧
    ∀ t ∈ ["People", "Institutions", "Projects", "Methods"],
      (toggleNodeType toStr s (.str key)).visibleTypes.get t = s.visibleTypes.get t := by
  constructor
  · apply getFilteredData_congr toStr s (toggleNodeType toStr s (.str key)) rfl
    intro n hn
    show truthy ((JSObject.set s.visibleTypes key _).get (toPropertyKey toStr n.type)) = _
    rw [JSObject.get_set_ne _ _ _ _ (hnodes n hn)]
  · intro t ht
    have hne : t ≠ key := fun h => hkey (h ▸ ht)
    show (JSObject.set s.visibleTypes key _).get t = _
    rw [JSObject.get_set_ne _ _ _ _ hne]

/-- Witness for C10 (amended): toggling "Other" over the fallback data. -/
theorem toggle_unrecognized_keeps_filtered_witness :
    "Other" ∉ ["People", "Institutions", "Projects", "Methods"] ∧
    (∀ n ∈ fallbackGraphState.data.nodes, toPropertyKey noToString n.type ≠ "Other") ∧
    getFilteredData noToString (toggleNodeType noToString fallbackGraphState (.str "Other")) =
      getFilteredData noToString fallbackGraphState ∧
    ∀ t ∈ ["People", "Institutions", "Projects", "Methods"],
      (toggleNodeType noToString fallbackGraphState (.str "Other")).visibleTypes.get t =
        fallbackGraphState.visibleTypes.get t :=
  ⟨by decide, by decide,
    toggle_unrecognized_keeps_filtered noToString fallbackGraphState "Other"
      (by decide) (by decide)⟩

/-- Counterexample to C10 as stated: with a node of the type "Other" in the data,
`getFilteredData` returns no node before `toggleNodeType("Other")` and that node after
it. -/
theorem toggle_other_shows_node :
    "Other" ∉ ["People", "Institutions", "Projects", "Methods"] ∧
    (getFilteredData noToString otherTypeState).nodes = [] ∧
    (getFilteredData noToString (toggleNodeType noToString otherTypeState (.str "Other"))).nodes
      = [{ id := .str "X1", name := .str "Archive", type := .str "Other" }] := by
  decide

/-! ## Scenarios on the fallback data -/

/-- Claim C11: on the fallback data with all types visible `getFilteredData` returns the
whole data set; after `toggleNodeType('People')` it returns exactly the nodes I001, PR001,
M001 and the one link from PR001 to M001 with the relationship 'applies'. The nodes left
out are the two People nodes P001 and P002, and the three links of the data that touch
them (one 'leads', two 'mentored_by') are left out with them. -/
theorem toggle_People_on_fallback (toStr : JSVal → String) :
    getFilteredData toStr fallbackGraphState = getFallbackData ∧
    getFilteredData toStr (toggleNodeType toStr fallbackGraphState (.str "People")) =
      { nodes := [
          { id := .str "I001", name := .str "Waag Futurelab", type := .str "Institutions",
            bio := .str "Research institute for technology and society...",
            website := .str "https://waag.org/" },
          { id := .str "PR001", name := .str "RiverSync", type := .str "Projects",
            description := .str "Transdisciplinary artistic intervention...",
            budget := .str "12,000 Euros" },
          { id := .str "M001", name := .str "Forest Walking Method", type := .str "Methods",
            description := .str "Immersive, participatory approach...",
            category := .str "Environmental" } ]
        links := [
          { source := .str "PR001", target := .str "M001", relationship := .str "applies",
            strength := .num (9 / 10) } ] } ∧
    (getFallbackData.nodes.filter (fun n =>
        decide (n ∉ (getFilteredData toStr
          (toggleNodeType toStr fallbackGraphState (.str "People"))).nodes))).map
      (fun n => (n.id, n.type)) =
      [(.str "P001", .str "People"), (.str "P002", .str "People")] ∧
    (getFallbackData.links.filter (fun l =>
        decide (l.source ∈ [JSVal.str "P001", .str "P002"] ∨
          l.target ∈ [JSVal.str "P001", .str "P002"]))).map
      (fun l => (l.source, l.target, l.relationship)) =
      [(.str "P001", .str "PR001", .str "leads"),
       (.str "P001", .str "I001", .str "mentored_by"),
       (.str "P002", .str "I001", .str "mentored_by")] := by
  refine ⟨rfl, rfl, rfl, ?_⟩
  decide

/-- Claim C12: on the fallback data `handleSearch('forest')` sets `highlightedNodes` to
the set of M001 alone, and `handleSearch('xyz-none')` sets it to the empty set. -/
theorem search_forest_on_fallback (unicodeLower : String → String) :
    handleSearch unicodeLower fallbackGraphState "forest" =
      .normal { fallbackGraphState with
                  searchTerm := "forest", highlightedNodes := [.str "M001"] } ∧
    handleSearch unicodeLower fallbackGraphState "xyz-none" =
      .normal { fallbackGraphState with searchTerm := "xyz-none", highlightedNodes := [] } := by
  constructor
  · rfl
  · rfl

/-! ## The link distance -/

/-- Claim C13: the link distance is a total function of the relationship: 'leads' gives
150, 'develops' 180, 'applies' 200, 'supports' 220, every other value (so 'mentored_by'
and a missing relationship) gives 180, and the result is always one of 150, 180, 200,
220. -/
theorem linkDistance_table :
    (∀ d : Link, d.relationship = .str "leads" → linkDistance d = 150) ∧
    (∀ d : Link, d.relationship = .str "develops" → linkDistance d = 180) ∧
    (∀ d : Link, d.relationship = .str "applies" → linkDistance d = 200) ∧
    (∀ d : Link, d.relationship = .str "supports" → linkDistance d = 220) ∧
    (∀ d : Link, d.relationship ∉ [JSVal.str "leads", .str "develops", .str "applies",
        .str "supports"] → linkDistance d = 180) ∧
    (∀ d : Link, d.relationship = .str "mentored_by" → linkDistance d = 180) ∧
    (∀ d : Link, d.relationship = .undefined → linkDistance d = 180) ∧
    ∀ d : Link, linkDistance d ∈ [150, 180, 200, 220] := by
  refine ⟨?_, ?_, ?_, ?_, ?_, ?_, ?_, ?_⟩
  · intro d h
    simp [linkDistance, h]
  · intro d h
    simp [linkDistance, h]
  · intro d h
    simp [linkDistance, h]
  · intro d h
    simp [linkDistance, h]
  · intro d h
    simp only [List.mem_cons, List.mem_singleton, List.not_mem_nil, or_false, not_or] at h
    simp [linkDistance, h.1, h.2.1, h.2.2.1, h.2.2.2]
  · intro d h
    simp [linkDistance, h]
  · intro d h
    simp [linkDistance, h]
  · intro d
    unfold linkDistance
    split_ifs <;> simp

/-- Witness for C13: the four links of the fallback data have the distances 150, 180,
180 and 200. -/
theorem linkDistance_table_witness :
    getFallbackData.links.map linkDistance = [150, 180, 180, 200] ∧
    linkDistance { relationship := .str "mentored_by" } = 180 :=
  ⟨by decide, linkDistance_table.2.2.2.2.2.1 _ rfl⟩

/-! ## Drag: what the handlers write -/

@[simp] theorem World.updateSimulation_app (w : World) (k : Nat) (f : Simulation → Simulation) :
    (w.updateSimulation k f).app = w.app := rfl

@[simp] theorem World.updateSimulation_simulations (w : World) (k : Nat)
    (f : Simulation → Simulation) :
    (w.updateSimulation k f).simulations = w.simulations.modify f k := rfl

@[simp] theorem World.updateSimulation_cleanup (w : World) (k : Nat)
    (f : Simulation → Simulation) : (w.updateSimulation k f).cleanup = w.cleanup := rfl

@[simp] theorem World.updateSimulation_scene (w : World) (k : Nat)
    (f : Simulation → Simulation) : (w.updateSimulation k f).scene = w.scene := rfl

@[simp] theorem World.updateSimulation_gestures (w : World) (k : Nat)
    (f : Simulation → Simulation) : (w.updateSimulation k f).gestures = w.gestures := rfl

@[simp] theorem World.updateSimulation_crashed (w : World) (k : Nat)
    (f : Simulation → Simulation) : (w.updateSimulation k f).crashed = w.crashed := rfl

@[simp] theorem World.updateNode_nodes (w : World) (i : Nat) (f : Node → Node) :
    (w.updateNode (some i) f).app.data.nodes = w.app.data.nodes.modify f i := rfl

@[simp] theorem World.updateNode_none (w : World) (f : Node → Node) :
    w.updateNode none f = w := rfl

@[simp] theorem World.updateNode_links (w : World) (d : Option Nat) (f : Node → Node) :
    (w.updateNode d f).app.data.links = w.app.data.links := by
  cases d <;> rfl

@[simp] theorem World.updateNode_simulations (w : World) (d : Option Nat) (f : Node → Node) :
    (w.updateNode d f).simulations = w.simulations := by
  cases d <;> rfl

@[simp] theorem World.updateNode_cleanup (w : World) (d : Option Nat) (f : Node → Node) :
    (w.updateNode d f).cleanup = w.cleanup := by
  cases d <;> rfl

@[simp] theorem World.updateNode_scene (w : World) (d : Option Nat) (f : Node → Node) :
    (w.updateNode d f).scene = w.scene := by
  cases d <;> rfl

@[simp] theorem World.updateNode_gestures (w : World) (d : Option Nat) (f : Node → Node) :
    (w.updateNode d f).gestures = w.gestures := by
  cases d <;> rfl

@[simp] theorem World.updateNode_crashed (w : World) (d : Option Nat) (f : Node → Node) :
    (w.updateNode d f).crashed = w.crashed := by
  cases d <;> rfl

/-- The React state apart from the node objects: everything but `data.nodes`. -/
theorem World.updateNode_app (w : World) (d : Option Nat) (f : Node → Node) :
    (w.updateNode d f).app =
      { w.app with data := { w.app.data with nodes := (w.updateNode d f).app.data.nodes } } := by
  cases d <;> rfl

theorem step_pointerDown (objectId : Nat → JSVal) (unicodeLower : String → String)
    (toStr : JSVal → String) (w : World) (pointer element : Nat) (scene : Scene)
    (this : NodeElement) (hlive : w.crashed = false) (hscene : w.scene = some scene)
    (hel : scene.nodes[element]? = some this) (hfree : gestureOf w.gestures pointer = none) :
    step objectId unicodeLower toStr w (.pointerDown pointer element) =
      { dragstarted { active := activeGestures w.gestures scene.simulation }
          scene.simulation (some this.datum) w with
        gestures := w.gestures ++
          [{ pointer := pointer, simulation := scene.simulation, subject := some this.datum }] } := by
  have hg : (dragstarted { active := activeGestures w.gestures scene.simulation }
      scene.simulation (some this.datum) w).gestures = w.gestures := by
    unfold dragstarted
    split <;> rfl
  simp only [step, hlive, hscene, hel, hfree, Bool.false_eq_true, if_false, hg]

theorem dragstarted_nodes (event : DragEvent) (simulation i : Nat) (w : World) :
    (dragstarted event simulation (some i) w).app.data.nodes =
      w.app.data.nodes.modify (fun n => { n with fx := n.x, fy := n.y }) i := by
  unfold dragstarted
  split <;> rfl

theorem dragstarted_simulations (event : DragEvent) (simulation : Nat) (d : Option Nat)
    (w : World) :
    (dragstarted event simulation d w).simulations =
      if event.active = 0 then
        w.simulations.modify (fun sim => (sim.setAlphaTarget (3 / 10)).restart) simulation
      else w.simulations := by
  unfold dragstarted
  split <;> simp

/-- Claim C16: a drag start on the node `d` (the datum of a drawn element, by a pointer
that has no gesture yet) sets `d.fx = d.x` and `d.fy = d.y` and leaves every other field
of `d` as it is; it sets `alphaTarget` of the scene's simulation to 0.3 and restarts it
when no other gesture of the scene is active, and leaves all simulations as they are
otherwise; and it writes nothing else: `x`, `y`, `vx`, `vy` of every node, every other
node object, every other simulation, the links, the rest of the React state, the scene
and the effect's cleanup are unchanged. -/
theorem dragstart_writes_only_pin (objectId : Nat → JSVal) (unicodeLower : String → String)
    (toStr : JSVal → String) (w : World) (pointer element : Nat) (scene : Scene)
    (this : NodeElement) (hlive : w.crashed = false) (hscene : w.scene = some scene)
    (hel : scene.nodes[element]? = some this) (hfree : gestureOf w.gestures pointer = none) :
    (∀ d, w.app.data.nodes[this.datum]? = some d →
      (step objectId unicodeLower toStr w (.pointerDown pointer element)).app.data.nodes[
        this.datum]? = some { d with fx := d.x, fy := d.y }) ∧
    (activeGestures w.gestures scene.simulation = 0 →
      ∀ sim, w.simulations[scene.simulation]? = some sim →
        (step objectId unicodeLower toStr w (.pointerDown pointer element)).simulations[
          scene.simulation]? = some { sim with alphaTarget := 3 / 10, ticking := true }) ∧
    (activeGestures w.gestures scene.simulation ≠ 0 →
      (step objectId unicodeLower toStr w (.pointerDown pointer element)).simulations =
        w.simulations) ∧
    (step objectId unicodeLower toStr w (.pointerDown pointer element)).app.data.nodes.map
        (fun n => (n.x, n.y, n.vx, n.vy)) =
      w.app.data.nodes.map (fun n => (n.x, n.y, n.vx, n.vy)) ∧
    (∀ j, j ≠ this.datum →
      (step objectId unicodeLower toStr w (.pointerDown pointer element)).app.data.nodes[j]? =
        w.app.data.nodes[j]?) ∧
    (∀ k, k ≠ scene.simulation →
      (step objectId unicodeLower toStr w (.pointerDown pointer element)).simulations[k]? =
        w.simulations[k]?) ∧
    (step objectId unicodeLower toStr w (.pointerDown pointer element)).app =
      { w.app with data := { w.app.data with nodes :=
          (step objectId unicodeLower toStr w (.pointerDown pointer element)).app.data.nodes } } ∧
    (step objectId unicodeLower toStr w (.pointerDown pointer element)).scene = w.scene ∧
    (step objectId unicodeLower toStr w (.pointerDown pointer element)).cleanup = w.cleanup := by
  rw [step_pointerDown objectId unicodeLower toStr w pointer element scene this hlive hscene
    hel hfree]
  refine ⟨?_, ?_, ?_, ?_, ?_, ?_, ?_, ?_, ?_⟩
  · intro d hd
    simp only [dragstarted_nodes, List.getElem?_modify_eq, hd]
    rfl
  · intro h0 sim hsim
    simp only [dragstarted_simulations, h0, if_true, List.getElem?_modify_eq, hsim]
    rfl
  · intro h0
    simp only [dragstarted_simulations, h0, if_false]
  · simp only [dragstarted_nodes]
    apply List.ext_getElem?
    intro j
    by_cases hj : j = this.datum
    · subst hj
      simp only [List.getElem?_map, List.getElem?_modify_eq]
      cases w.app.data.nodes[this.datum]? <;> rfl
    · simp only [List.getElem?_map, List.getElem?_modify_ne _ _ (Ne.symm hj)]
  · intro j hj
    simp only [dragstarted_nodes, List.getElem?_modify_ne _ _ (Ne.symm hj)]
  · intro k hk
    simp only [dragstarted_simulations]
    split
    · rw [List.getElem?_modify_ne _ _ (Ne.symm hk)]
    · rfl
  · unfold dragstarted
    split <;> rfl
  · unfold dragstarted
    split <;> rfl
  · unfold dragstarted
    split <;> rfl

theorem step_pointerMove (objectId : Nat → JSVal) (unicodeLower : String → String)
    (toStr : JSVal → String) (w : World) (pointer : Nat) (x y : JSVal) (g : Gesture)
    (hlive : w.crashed = false) (hg : gestureOf w.gestures pointer = some g) :
    step objectId unicodeLower toStr w (.pointerMove pointer x y) =
      dragged { active := activeGestures w.gestures g.simulation, x := x, y := y }
        g.subject w := by
  simp only [step, hlive, hg, Bool.false_eq_true, if_false]

theorem step_pointerUp (objectId : Nat → JSVal) (unicodeLower : String → String)
    (toStr : JSVal → String) (w : World) (pointer : Nat) (g : Gesture)
    (hlive : w.crashed = false) (hg : gestureOf w.gestures pointer = some g) :
    step objectId unicodeLower toStr w (.pointerUp pointer) =
      dragended { active := activeGestures (w.gestures.erase g) g.simulation }
        g.simulation g.subject { w with gestures := w.gestures.erase g } := by
  simp only [step, hlive, hg, Bool.false_eq_true, if_false]

theorem gestureOf_singleton (g : Gesture) : gestureOf [g] g.pointer = some g := by
  simp [gestureOf]

theorem run_pointerMoves (objectId : Nat → JSVal) (unicodeLower : String → String)
    (toStr : JSVal → String) (g : Gesture) (i : Nat) (hs : g.subject = some i)
    (moves : List (JSVal × JSVal)) (v : World) (hlive : v.crashed = false)
    (hg : v.gestures = [g]) :
    (run objectId unicodeLower toStr v
        (moves.map fun m => Event.pointerMove g.pointer m.1 m.2)).crashed = false ∧
    (run objectId unicodeLower toStr v
        (moves.map fun m => Event.pointerMove g.pointer m.1 m.2)).gestures = [g] ∧
    (run objectId unicodeLower toStr v
        (moves.map fun m => Event.pointerMove g.pointer m.1 m.2)).simulations =
      v.simulations ∧
    ∀ d, v.app.data.nodes[i]? = some d →
      ∃ a b, (run objectId unicodeLower toStr v
          (moves.map fun m => Event.pointerMove g.pointer m.1 m.2)).app.data.nodes[i]? =
        some { d with fx := a, fy := b } := by
  induction moves generalizing v with
  | nil =>
    refine ⟨hlive, hg, rfl, fun d hd => ⟨d.fx, d.fy, ?_⟩⟩
    simpa [run] using hd
  | cons m rest ih =>
    have hgo : gestureOf v.gestures g.pointer = some g := by
      rw [hg]
      exact gestureOf_singleton g
    have hstep := step_pointerMove objectId unicodeLower toStr v g.pointer m.1 m.2 g hlive hgo
    have hrun : run objectId unicodeLower toStr v
        ((m :: rest).map fun m => Event.pointerMove g.pointer m.1 m.2) =
        run objectId unicodeLower toStr
          (step objectId unicodeLower toStr v (.pointerMove g.pointer m.1 m.2))
          (rest.map fun m => Event.pointerMove g.pointer m.1 m.2) := rfl
    rw [hrun, hstep, hs]
    generalize ({ active := activeGestures v.gestures g.simulation, x := m.1, y := m.2 } :
      DragEvent) = ev
    have h1 := ih (dragged ev (some i) v) (by simpa [dragged] using hlive)
      (by simpa [dragged] using hg)
    refine ⟨h1.1, h1.2.1, ?_, ?_⟩
    · rw [h1.2.2.1]
      simp [dragged]
    · intro d hd
      have hd' : (dragged ev (some i) v).app.data.nodes[i]? =
          some { d with fx := ev.x, fy := ev.y } := by
        simp only [dragged, World.updateNode_nodes, List.getElem?_modify_eq, hd]
        rfl
      obtain ⟨a, b, hab⟩ := h1.2.2.2 _ hd'
      exact ⟨a, b, hab⟩

/-- Claim C15: after a drag gesture of a single pointer on a drawn node (drag start, any
number of drag moves, drag end; no other gesture in progress) the node has
`fx = fy = null`, every other field as before the gesture, so it is not pinned, and the
scene's simulation has `alphaTarget` 0. -/
theorem single_gesture_releases (objectId : Nat → JSVal) (unicodeLower : String → String)
    (toStr : JSVal → String) (w : World) (pointer element : Nat)
    (moves : List (JSVal × JSVal)) (scene : Scene) (this : NodeElement)
    (hlive : w.crashed = false) (hscene : w.scene = some scene)
    (hel : scene.nodes[element]? = some this) (hnone : w.gestures = []) :
    (∀ d, w.app.data.nodes[this.datum]? = some d →
      (run objectId unicodeLower toStr w
          (singleGesture pointer element moves)).app.data.nodes[this.datum]? =
        some { d with fx := .null, fy := .null }) ∧
    (∀ n, (run objectId unicodeLower toStr w
          (singleGesture pointer element moves)).app.data.nodes[this.datum]? = some n →
      n.fx = .null ∧ n.fy = .null ∧ n.pinned = false) ∧
    (∀ sim, w.simulations[scene.simulation]? = some sim →
      (run objectId unicodeLower toStr w
          (singleGesture pointer element moves)).simulations[scene.simulation]? =
        some { sim with alphaTarget := 0, ticking := true }) ∧
    (run objectId unicodeLower toStr w (singleGesture pointer element moves)).gestures = [] := by
  have hfree : gestureOf w.gestures pointer = none := by simp [hnone, gestureOf]
  have hact : activeGestures w.gestures scene.simulation = 0 := by
    simp [hnone, activeGestures]
  have hdown := step_pointerDown objectId unicodeLower toStr w pointer element scene this
    hlive hscene hel hfree
  rw [hnone, List.nil_append] at hdown
  generalize hg : Gesture.mk pointer scene.simulation (some this.datum) = g at hdown
  have hgp : g.pointer = pointer := by rw [← hg]
  have hgs : g.subject = some this.datum := by rw [← hg]
  have hgk : g.simulation = scene.simulation := by rw [← hg]
  generalize hw1 : step objectId unicodeLower toStr w (.pointerDown pointer element) = w1
    at hdown
  have hw1live : w1.crashed = false := by
    rw [hdown]
    simp only [dragstarted]
    split <;> simpa using hlive
  have hw1g : w1.gestures = [g] := by rw [hdown]
  have hw1sims : w1.simulations =
      w.simulations.modify (fun sim => (sim.setAlphaTarget (3 / 10)).restart)
        scene.simulation := by
    rw [hdown]
    show (dragstarted _ _ _ w).simulations = _
    rw [dragstarted_simulations]
    simp only [hnone] at hact ⊢
    simp [activeGestures]
  have hw1nodes : w1.app.data.nodes =
      w.app.data.nodes.modify (fun n => { n with fx := n.x, fy := n.y }) this.datum := by
    rw [hdown]
    show (dragstarted _ _ _ w).app.data.nodes = _
    rw [dragstarted_nodes]
  have hmoves := run_pointerMoves objectId unicodeLower toStr g this.datum hgs moves w1
    hw1live hw1g
  rw [hgp] at hmoves
  generalize hw2 : run objectId unicodeLower toStr w1
    (moves.map fun m => Event.pointerMove pointer m.1 m.2) = w2 at hmoves
  obtain ⟨hw2live, hw2g, hw2sims, hw2nodes⟩ := hmoves
  have hrun : run objectId unicodeLower toStr w (singleGesture pointer element moves) =
      step objectId unicodeLower toStr w2 (.pointerUp pointer) := by
    simp only [run, singleGesture, List.foldl_cons, List.foldl_append, List.foldl_nil] at hw2 ⊢
    rw [hw1, hw2]
  have hgo : gestureOf w2.gestures pointer = some g := by
    rw [hw2g, ← hgp]
    exact gestureOf_singleton g
  have hup := step_pointerUp objectId unicodeLower toStr w2 pointer g hw2live hgo
  have herase : w2.gestures.erase g = [] := by simp [hw2g]
  rw [herase, hgs, hgk] at hup
  have hfinal_nodes : (run objectId unicodeLower toStr w
      (singleGesture pointer element moves)).app.data.nodes =
      w2.app.data.nodes.modify (fun n => { n with fx := .null, fy := .null }) this.datum := by
    rw [hrun, hup]
    simp [dragended, activeGestures]
  have hfinal_sims : (run objectId unicodeLower toStr w
      (singleGesture pointer element moves)).simulations =
      w2.simulations.modify (fun sim => sim.setAlphaTarget 0) scene.simulation := by
    rw [hrun, hup]
    simp [dragended, activeGestures]
  have hnode : ∀ d, w.app.data.nodes[this.datum]? = some d →
      (run objectId unicodeLower toStr w
          (singleGesture pointer element moves)).app.data.nodes[this.datum]? =
        some { d with fx := .null, fy := .null } := by
    intro d hd
    have hd1 : w1.app.data.nodes[this.datum]? = some { d with fx := d.x, fy := d.y } := by
      rw [hw1nodes, List.getElem?_modify_eq, hd]
      rfl
    obtain ⟨a, b, hab⟩ := hw2nodes _ hd1
    rw [hfinal_nodes, List.getElem?_modify_eq, hab]
    rfl
  refine ⟨hnode, ?_, ?_, ?_⟩
  · intro n hn
    rw [hfinal_nodes, List.getElem?_modify_eq] at hn
    cases hq : w2.app.data.nodes[this.datum]? with
    | none => simp [hq] at hn
    | some m =>
      rw [hq] at hn
      have hn' : some ({ m with fx := .null, fy := .null } : Node) = some n := hn
      injection hn' with hn'
      subst hn'
      exact ⟨rfl, rfl, rfl⟩
  · intro sim hsim
    rw [hfinal_sims, hw2sims, hw1sims, List.getElem?_modify_eq, List.getElem?_modify_eq, hsim]
    rfl
  · rw [hrun, hup]
    simp [dragended, activeGestures]

/-! ## Hover: the connected set -/

theorem strictEquals_iff (a b : JSVal) (hb : b ≠ .nan) : strictEquals a b = true ↔ a = b := by
  unfold strictEquals
  constructor
  · intro h
    simp only [Bool.and_eq_true, beq_iff_eq] at h
    exact h.2
  · rintro rfl
    simp [hb]

theorem mem_foldl_connectStep (dId : JSVal) (ends : List (JSVal × JSVal)) (c : JSSet)
    (x : JSVal) :
    x ∈ ends.foldl (connectStep dId) c ↔
      x ∈ c ∨ ∃ p ∈ ends, (strictEquals p.1 dId = true ∧ x = p.2) ∨
        (strictEquals p.2 dId = true ∧ x = p.1) := by
  induction ends generalizing c with
  | nil => simp
  | cons p rest ih =>
    rw [List.foldl_cons, ih]
    have hstep : x ∈ connectStep dId c p ↔
        x ∈ c ∨ (strictEquals p.1 dId = true ∧ x = p.2) ∨
          (strictEquals p.2 dId = true ∧ x = p.1) := by
      unfold connectStep
      by_cases h1 : strictEquals p.1 dId = true <;> by_cases h2 : strictEquals p.2 dId = true <;>
        simp [h1, h2, JSSet.mem_add, or_assoc]
    rw [hstep]
    simp only [List.mem_cons, exists_eq_or_imp, or_assoc]

theorem hoverNodeOpacity_eq_one (dId : JSVal) (connectedNodes : JSSet) (nId : JSVal) :
    hoverNodeOpacity dId connectedNodes nId = "1" ↔
      strictEquals nId dId = true ∨ nId ∈ connectedNodes := by
  unfold hoverNodeOpacity
  by_cases h : (strictEquals nId dId || connectedNodes.has nId) = true
  · simp only [h, if_true, true_iff]
    simpa [JSSet.has] using h
  · simp only [h]
    simp only [Bool.or_eq_true, JSSet.has, decide_eq_true_eq] at h
    simp [h]

theorem hoverNodeOpacity_cases (dId : JSVal) (connectedNodes : JSSet) (nId : JSVal) :
    hoverNodeOpacity dId connectedNodes nId = "1" ∨
      hoverNodeOpacity dId connectedNodes nId = "0.3" := by
  unfold hoverNodeOpacity
  split
  · exact Or.inl rfl
  · exact Or.inr rfl

theorem mouseover_of_ends (objectId : Nat → JSVal) (nodes : List Node) (scene : Scene)
    (element : Nat) (this : NodeElement) (ends : List (JSVal × JSVal))
    (hel : scene.nodes[element]? = some this)
    (hends : allLinkEndIds objectId nodes (scene.lines.map fun line => line.datum) = .ok ends) :
    ∃ scene', mouseover objectId nodes scene element = .normal scene' ∧
      scene'.simulation = scene.simulation ∧
      scene'.nodes = (scene.nodes.modify
          (fun e => { e with divTransform := some "scale(1.15)" }) element).map (fun e =>
        { e with opacity := some (hoverNodeOpacity (nodes.getD this.datum {}).id
            (ends.foldl (connectStep (nodes.getD this.datum {}).id) [])
            (nodes.getD e.datum {}).id) }) ∧
      scene'.lines = (scene.lines.zip ends).map (fun p =>
        { p.1 with opacity := some (hoverLineOpacity (nodes.getD this.datum {}).id p.2) }) := by
  unfold mouseover
  simp only [hel, hends]
  exact ⟨_, rfl, rfl, rfl, rfl⟩
/-! ## The graph effect: what it builds -/

theorem filteredNodeEntries_map_snd (toStr : JSVal → String) (s : AppState) :
    (filteredNodeEntries toStr s).map Prod.snd = (getFilteredData toStr s).nodes := by
  unfold filteredNodeEntries
  have h := List.filter_map (f := Prod.snd)
    (p := fun n : Node => truthy (s.visibleTypes.get (toPropertyKey toStr n.type)))
    (l := s.data.nodes.enum)
  rw [List.enum_map_snd] at h
  exact h.symm

theorem getElem?_of_mem_filteredNodeEntries (toStr : JSVal → String) (s : AppState)
    (p : Nat × Node) (h : p ∈ filteredNodeEntries toStr s) : s.data.nodes[p.1]? = some p.2 := by
  unfold filteredNodeEntries at h
  exact List.mem_enum_iff_getElem?.mp (List.mem_filter.mp h).1

theorem findNode_of_mem (entries : List (Nat × Node)) (v : JSVal)
    (h : ∃ p ∈ entries, p.2.id = v) :
    ∃ p ∈ entries, findNode entries v = some p.1 ∧ p.2.id = v := by
  unfold findNode
  have hsome : (entries.reverse.find? fun p => p.2.id == v).isSome = true := by
    rw [List.find?_isSome]
    obtain ⟨p, hp, hv⟩ := h
    exact ⟨p, List.mem_reverse.mpr hp, by simpa using hv⟩
  obtain ⟨q, hq⟩ := Option.isSome_iff_exists.mp hsome
  refine ⟨q, List.mem_reverse.mp (List.mem_of_find?_eq_some hq), ?_, ?_⟩
  · rw [hq]
    rfl
  · simpa using List.find?_some hq

theorem resolveLink_of_found (entries : List (Nat × Node)) (l : Link) (i j : Nat)
    (hs : isObjectType l.source = false) (ht : isObjectType l.target = false)
    (hi : findNode entries l.source = some i) (hj : findNode entries l.target = some j) :
    resolveLink entries l = ({ l with source := .node i, target := .node j }, none) := by
  simp [resolveLink, resolveEndpoint, hs, ht, hi, hj]

theorem linkEndIds_resolved (objectId : Nat → JSVal) (nodes : List Node) (l : Link)
    (i j : Nat) :
    linkEndIds objectId nodes { l with source := .node i, target := .node j } =
      .ok ((nodes.getD i {}).id, (nodes.getD j {}).id) := by
  simp [linkEndIds, readId]

theorem resolveLinks_of_found (objectId : Nat → JSVal) (nodes : List Node)
    (keep : Link → Bool) (entries : List (Nat × Node)) (links : List Link)
    (hres : ∀ l ∈ links, keep l = true → ∃ i j,
      isObjectType l.source = false ∧ isObjectType l.target = false ∧
      findNode entries l.source = some i ∧ findNode entries l.target = some j ∧
      (nodes.getD i {}).id = l.source ∧ (nodes.getD j {}).id = l.target) :
    (resolveLinks keep entries links).2 = none ∧
    allLinkEndIds objectId nodes
        (((links.zip (resolveLinks keep entries links).1).filter fun p => keep p.1).map
          fun p => p.2) =
      .ok ((links.filter keep).map fun l => (l.source, l.target)) := by
  induction links with
  | nil => exact ⟨rfl, rfl⟩
  | cons l rest ih =>
    have ih' := ih (fun l' hl' => hres l' (List.mem_cons_of_mem _ hl'))
    by_cases hk : keep l = true
    · obtain ⟨i, j, hs, ht, hi, hj, hsi, htj⟩ := hres l (List.mem_cons_self _ _) hk
      have hl := resolveLink_of_found entries l i j hs ht hi hj
      have hstep : resolveLinks keep entries (l :: rest) =
          ({ l with source := .node i, target := .node j } ::
            (resolveLinks keep entries rest).1, (resolveLinks keep entries rest).2) := by
        simp only [resolveLinks, hk, if_true, hl]
      rw [hstep]
      refine ⟨ih'.1, ?_⟩
      simp only [List.zip_cons_cons, List.filter_cons, hk, if_true, List.map_cons,
        allLinkEndIds, linkEndIds_resolved, ih'.2, hsi, htj]
    · have hk' : keep l = false := by simpa using hk
      have hstep : resolveLinks keep entries (l :: rest) =
          (l :: (resolveLinks keep entries rest).1, (resolveLinks keep entries rest).2) := by
        simp only [resolveLinks, hk']
        rfl
      rw [hstep]
      refine ⟨ih'.1, ?_⟩
      simp only [List.zip_cons_cons, List.filter_cons, hk']
      exact ih'.2
theorem isObjectType_of_plainId (v : JSVal) (h : plainId v = true) : isObjectType v = false := by
  cases v <;> simp_all [plainId, isObjectType]

theorem ne_nan_of_plainId (v : JSVal) (h : plainId v = true) : v ≠ .nan := by
  rintro rfl
  simp [plainId] at h

theorem filteredNodeEntries_ids (toStr : JSVal → String) (s : AppState) :
    (filteredNodeEntries toStr s).map (fun p => p.2.id) =
      (getFilteredData toStr s).nodes.map fun n => n.id := by
  rw [← filteredNodeEntries_map_snd, List.map_map]
  rfl

theorem graphEffect_links_filter (toStr : JSVal → String) (s : AppState) :
    s.data.links.filter (fun link =>
        (JSSet.ofList ((filteredNodeEntries toStr s).map fun p => p.2.id)).has link.source &&
        (JSSet.ofList ((filteredNodeEntries toStr s).map fun p => p.2.id)).has link.target) =
      (getFilteredData toStr s).links := by
  rw [filteredNodeEntries_ids, getFilteredData_links]

theorem resolvable_of_plain (toStr : JSVal → String) (s : AppState)
    (hids : ∀ n ∈ s.data.nodes, plainId n.id = true) (v : JSVal)
    (hv : (JSSet.ofList ((filteredNodeEntries toStr s).map fun p => p.2.id)).has v = true) :
    ∃ i, isObjectType v = false ∧ findNode (filteredNodeEntries toStr s) v = some i ∧
      (s.data.nodes.getD i {}).id = v := by
  have hmem : v ∈ (filteredNodeEntries toStr s).map fun p => p.2.id := by
    simpa [JSSet.has, JSSet.mem_ofList] using hv
  obtain ⟨p, hp, hpv⟩ := List.mem_map.mp hmem
  obtain ⟨q, hq, hfind, hqv⟩ := findNode_of_mem (filteredNodeEntries toStr s) v ⟨p, hp, hpv⟩
  have hget := getElem?_of_mem_filteredNodeEntries toStr s q hq
  have hqmem : q.2 ∈ s.data.nodes := List.getElem?_mem hget
  refine ⟨q.1, ?_, hfind, ?_⟩
  · rw [← hqv]
    exact isObjectType_of_plainId _ (hids _ hqmem)
  · rw [List.getD_eq_getElem?_getD, hget]
    exact hqv

theorem graphEffect_builds (objectId : Nat → JSVal) (toStr : JSVal → String) (w : World)
    (hview : w.app.viewMode = "graph") (hload : w.app.loading = false)
    (hids : ∀ n ∈ w.app.data.nodes, plainId n.id = true) :
    ∃ scene, (graphEffect toStr w).scene = some scene ∧
      (graphEffect toStr w).crashed = w.crashed ∧
      (graphEffect toStr w).app.data.nodes = w.app.data.nodes ∧
      scene.simulation = w.simulations.length ∧
      scene.nodes.map (fun e => e.datum) = (filteredNodeEntries toStr w.app).map Prod.fst ∧
      allLinkEndIds objectId w.app.data.nodes (scene.lines.map fun line => line.datum) =
        .ok ((getFilteredData toStr w.app).links.map fun l => (l.source, l.target)) := by
  have hres := resolveLinks_of_found objectId w.app.data.nodes
    (fun link =>
      (JSSet.ofList ((filteredNodeEntries toStr w.app).map fun p => p.2.id)).has link.source &&
      (JSSet.ofList ((filteredNodeEntries toStr w.app).map fun p => p.2.id)).has link.target)
    (filteredNodeEntries toStr w.app) w.app.data.links (by
      intro l _ hk
      simp only [Bool.and_eq_true] at hk
      obtain ⟨i, hsi, hfi, hgi⟩ := resolvable_of_plain toStr w.app hids l.source hk.1
      obtain ⟨j, hsj, hfj, hgj⟩ := resolvable_of_plain toStr w.app hids l.target hk.2
      exact ⟨i, j, hsi, hsj, hfi, hfj, hgi, hgj⟩)
  rw [graphEffect_links_filter] at hres
  unfold graphEffect
  simp only [hview, hload, ne_eq, not_true_eq_false, decide_False, Bool.or_self,
    Bool.false_eq_true, if_false, hres.1]
  refine ⟨_, rfl, trivial, trivial, rfl, ?_, ?_⟩
  · simp only [List.map_map]
    rfl
  · simp only [List.map_map]
    have h2 := hres.2
    simp only [List.map_map] at h2 ⊢
    exact h2
theorem map_datum_modify (l : List NodeElement) (i : Nat) (f : NodeElement → NodeElement)
    (hf : ∀ e, (f e).datum = e.datum) :
    (l.modify f i).map (fun e => e.datum) = l.map fun e => e.datum := by
  apply List.ext_getElem?
  intro j
  simp only [List.getElem?_map, List.getElem?_modify]
  cases l[j]? with
  | none => rfl
  | some e =>
    by_cases hij : i = j
    · simp [hij, hf]
    · simp [hij]

theorem connected_iff (dId nId : JSVal) (hd : dId ≠ .nan) (links : List Link) :
    (strictEquals nId dId = true ∨
      nId ∈ (links.map fun l => (l.source, l.target)).foldl (connectStep dId) []) ↔
    (nId = dId ∨ ∃ l ∈ links, (l.source = dId ∧ l.target = nId) ∨
      (l.target = dId ∧ l.source = nId)) := by
  rw [strictEquals_iff _ _ hd, mem_foldl_connectStep]
  simp only [List.not_mem_nil, false_or, List.mem_map, Prod.exists, Prod.mk.injEq]
  constructor
  · rintro (h | ⟨a, b, ⟨l, hl, rfl, rfl⟩, h⟩)
    · exact Or.inl h
    · right
      refine ⟨l, hl, ?_⟩
      rcases h with ⟨h1, h2⟩ | ⟨h1, h2⟩
      · exact Or.inl ⟨(strictEquals_iff _ _ hd).mp h1, h2.symm⟩
      · exact Or.inr ⟨(strictEquals_iff _ _ hd).mp h1, h2.symm⟩
  · rintro (h | ⟨l, hl, h⟩)
    · exact Or.inl h
    · right
      refine ⟨l.source, l.target, ⟨l, hl, rfl, rfl⟩, ?_⟩
      rcases h with ⟨h1, h2⟩ | ⟨h1, h2⟩
      · exact Or.inl ⟨(strictEquals_iff _ _ hd).mpr h1, h2.symm⟩
      · exact Or.inr ⟨(strictEquals_iff _ _ hd).mpr h1, h2.symm⟩

/-- Claim C17: let the graph effect draw a state in the graph view whose node ids are
plain (strings, numbers, booleans or absent). The drawn nodes are the nodes
`getFilteredData` returns. Hover enter on a drawn node `d` completes, removes no node
element, and gives each drawn node `n` the opacity 1 if and only if `n.id = d.id` or
some link returned by `getFilteredData` has `d` at one endpoint and `n` at the other, in
either direction; every other drawn node gets the opacity 0.3. -/
theorem hover_emphasises_connected (objectId : Nat → JSVal) (toStr : JSVal → String)
    (w : World) (hview : w.app.viewMode = "graph") (hload : w.app.loading = false)
    (hids : ∀ n ∈ w.app.data.nodes, plainId n.id = true) :
    ∃ scene, (graphEffect toStr w).scene = some scene ∧
      (graphEffect toStr w).app.data.nodes = w.app.data.nodes ∧
      scene.nodes.map (fun e => w.app.data.nodes.getD e.datum {}) =
        (getFilteredData toStr w.app).nodes ∧
      ∀ element this, scene.nodes[element]? = some this →
        ∃ scene', mouseover objectId w.app.data.nodes scene element = .normal scene' ∧
          scene'.nodes.map (fun e => e.datum) = scene.nodes.map (fun e => e.datum) ∧
          ∀ e ∈ scene'.nodes,
            (e.opacity = some "1" ↔
              ((w.app.data.nodes.getD e.datum {}).id =
                  (w.app.data.nodes.getD this.datum {}).id ∨
                ∃ l ∈ (getFilteredData toStr w.app).links,
                  (l.source = (w.app.data.nodes.getD this.datum {}).id ∧
                    l.target = (w.app.data.nodes.getD e.datum {}).id) ∨
                  (l.target = (w.app.data.nodes.getD this.datum {}).id ∧
                    l.source = (w.app.data.nodes.getD e.datum {}).id))) ∧
            (e.opacity = some "1" ∨ e.opacity = some "0.3") := by
  obtain ⟨scene, hscene, _, hnodes, _, hdatum, hends⟩ :=
    graphEffect_builds objectId toStr w hview hload hids
  have hentry : ∀ p ∈ filteredNodeEntries toStr w.app, w.app.data.nodes.getD p.1 {} = p.2 := by
    intro p hp
    rw [List.getD_eq_getElem?_getD, getElem?_of_mem_filteredNodeEntries toStr w.app p hp]
    rfl
  refine ⟨scene, hscene, hnodes, ?_, ?_⟩
  · have h1 : scene.nodes.map (fun e => w.app.data.nodes.getD e.datum {}) =
        (scene.nodes.map fun e => e.datum).map fun i => w.app.data.nodes.getD i {} := by
      rw [List.map_map]
      rfl
    rw [h1, hdatum, List.map_map, ← filteredNodeEntries_map_snd]
    exact List.map_congr_left hentry
  · intro element this hel
    obtain ⟨scene', hover, _, hn', _⟩ :=
      mouseover_of_ends objectId w.app.data.nodes scene element this _ hel hends
    have hthis : this.datum ∈ (filteredNodeEntries toStr w.app).map Prod.fst := by
      rw [← hdatum]
      exact List.mem_map_of_mem _ (List.getElem?_mem hel)
    obtain ⟨p, hp, hp1⟩ := List.mem_map.mp hthis
    have hget := getElem?_of_mem_filteredNodeEntries toStr w.app p hp
    have hd : (w.app.data.nodes.getD this.datum {}).id ≠ .nan := by
      rw [← hp1, hentry p hp]
      exact ne_nan_of_plainId _ (hids _ (List.getElem?_mem hget))
    refine ⟨scene', hover, ?_, ?_⟩
    · rw [hn', List.map_map]
      exact map_datum_modify scene.nodes element _ (fun _ => rfl)
    · intro e he
      rw [hn'] at he
      obtain ⟨e0, _, rfl⟩ := List.mem_map.mp he
      constructor
      · show some _ = some "1" ↔ _
        rw [Option.some.injEq, hoverNodeOpacity_eq_one]
        exact connected_iff _ _ hd _
      · rcases hoverNodeOpacity_cases (w.app.data.nodes.getD this.datum {}).id
          ((((getFilteredData toStr w.app).links.map fun l => (l.source, l.target)).foldl
            (connectStep (w.app.data.nodes.getD this.datum {}).id) []))
          (w.app.data.nodes.getD e0.datum {}).id with h | h
        · exact Or.inl (congrArg some h)
        · exact Or.inr (congrArg some h)

/-- Witness for C17: hover on the fallback data. -/
theorem hover_emphasises_connected_witness :
    fallbackStart.app.viewMode = "graph" ∧ fallbackStart.app.loading = false ∧
    (∀ n ∈ fallbackStart.app.data.nodes, plainId n.id = true) ∧
    ∃ scene, (graphEffect noToString fallbackStart).scene = some scene ∧
      (graphEffect noToString fallbackStart).app.data.nodes = fallbackStart.app.data.nodes ∧
      scene.nodes.map (fun e => fallbackStart.app.data.nodes.getD e.datum {}) =
        (getFilteredData noToString fallbackStart.app).nodes ∧
      ∀ element this, scene.nodes[element]? = some this →
        ∃ scene', mouseover noObjectId fallbackStart.app.data.nodes scene element =
            .normal scene' ∧
          scene'.nodes.map (fun e => e.datum) = scene.nodes.map (fun e => e.datum) ∧
          ∀ e ∈ scene'.nodes,
            (e.opacity = some "1" ↔
              ((fallbackStart.app.data.nodes.getD e.datum {}).id =
                  (fallbackStart.app.data.nodes.getD this.datum {}).id ∨
                ∃ l ∈ (getFilteredData noToString fallbackStart.app).links,
                  (l.source = (fallbackStart.app.data.nodes.getD this.datum {}).id ∧
                    l.target = (fallbackStart.app.data.nodes.getD e.datum {}).id) ∨
                  (l.target = (fallbackStart.app.data.nodes.getD this.datum {}).id ∧
                    l.source = (fallbackStart.app.data.nodes.getD e.datum {}).id))) ∧
            (e.opacity = some "1" ∨ e.opacity = some "0.3") :=
  ⟨rfl, rfl, by decide,
    hover_emphasises_connected noObjectId noToString fallbackStart rfl rfl (by decide)⟩

/-! ## Hover leave -/

/-- Claim C18 (the code at the failing input): on the fallback data as first drawn every
node and every line has the opacity 1 in effect and every line the `stroke-opacity`
0.6. Hover enter on P001 gives the nodes the opacities 1, 0.3, 1, 1, 0.3 and the lines
1, 1, 0.1, 0.1. Hover leave then gives every node the opacity 1 but every line the
opacity 0.6, on top of the `stroke-opacity` 0.6 it still has: the lines are not
restored. -/
theorem hover_leave_dims_lines :
    fallbackWorld.scene.map Scene.emphasis =
      some (["1", "1", "1", "1", "1"],
        [("1", "0.6"), ("1", "0.6"), ("1", "0.6"), ("1", "0.6")]) ∧
    (run noObjectId noUnicodeLower noToString fallbackWorld [.mouseover 0]).scene.map
        Scene.emphasis =
      some (["1", "0.3", "1", "1", "0.3"],
        [("1", "0.6"), ("1", "0.6"), ("0.1", "0.6"), ("0.1", "0.6")]) ∧
    (run noObjectId noUnicodeLower noToString fallbackWorld
        [.mouseover 0, .mouseout 0]).scene.map Scene.emphasis =
      some (["1", "1", "1", "1", "1"],
        [("0.6", "0.6"), ("0.6", "0.6"), ("0.6", "0.6"), ("0.6", "0.6")]) := by
  decide

/-! ## Drag: closed examples on the fallback data -/

/-- Witness for C16: a drag start on the first drawn node of the fallback data. -/
theorem dragstart_writes_only_pin_witness :
    placedFallbackWorld.crashed = false ∧
    (placedFallbackWorld.scene.map fun scene => scene.nodes.map fun e => e.datum) =
      some [0, 1, 2, 3, 4] ∧
    gestureOf placedFallbackWorld.gestures 0 = none ∧
    (step noObjectId noUnicodeLower noToString placedFallbackWorld
        (.pointerDown 0 0)).simulations[0]? = some { alphaTarget := 3 / 10, ticking := true } ∧
    (step noObjectId noUnicodeLower noToString placedFallbackWorld
        (.pointerDown 0 0)).app.data.nodes[0]? =
      some { id := .str "P001", name := .str "Jakob Kukula", type := .str "People",
             bio := .str "Multidisciplinary creator working in art, design and music...",
             website := .str "https://www.spreeberlin.de/",
             connections := .str "Waag (Lead Mentor)",
             x := .num 100, y := .num 200, vx := .num 0, vy := .num 0,
             fx := .num 100, fy := .num 200 } ∧
    (step noObjectId noUnicodeLower noToString placedFallbackWorld (.pointerDown 0 0)).scene =
      placedFallbackWorld.scene ∧
    (step noObjectId noUnicodeLower noToString placedFallbackWorld (.pointerDown 0 0)).cleanup =
      placedFallbackWorld.cleanup :=
  have h := dragstart_writes_only_pin noObjectId noUnicodeLower noToString placedFallbackWorld 0 0
    (placedFallbackWorld.scene.getD ⟨0, [], []⟩) ⟨0, "none", none, none⟩ rfl rfl rfl rfl
  ⟨rfl, by decide, rfl, h.2.1 rfl _ rfl, h.1 _ rfl, h.2.2.2.2.2.2.2.1, h.2.2.2.2.2.2.2.2⟩

/-- Witness for C15: a drag of the first drawn node of the fallback data through two
positions. -/
theorem single_gesture_releases_witness :
    placedFallbackWorld.crashed = false ∧ placedFallbackWorld.gestures = [] ∧
    (∀ n, (run noObjectId noUnicodeLower noToString placedFallbackWorld
          (singleGesture 0 0 [(.num 10, .num 20), (.num 30, .num 40)])).app.data.nodes[0]? =
        some n → n.fx = .null ∧ n.fy = .null ∧ n.pinned = false) ∧
    (run noObjectId noUnicodeLower noToString placedFallbackWorld
        (singleGesture 0 0 [(.num 10, .num 20), (.num 30, .num 40)])).simulations[0]? =
      some { alphaTarget := 0, ticking := true } ∧
    (run noObjectId noUnicodeLower noToString placedFallbackWorld
        (singleGesture 0 0 [(.num 10, .num 20), (.num 30, .num 40)])).gestures = [] :=
  have h := single_gesture_releases noObjectId noUnicodeLower noToString placedFallbackWorld 0 0
    [(.num 10, .num 20), (.num 30, .num 40)]
    (placedFallbackWorld.scene.getD ⟨0, [], []⟩) ⟨0, "none", none, none⟩ rfl rfl rfl rfl
  ⟨rfl, rfl, h.2.1, h.2.2.1 _ rfl, h.2.2.2⟩

/-! ## Zoom -/

theorem effectZoom_scaleBy_bounds (k0 k : ℚ) :
    1 / 10 ≤ effectZoom.scaleBy k0 k ∧ effectZoom.scaleBy k0 k ≤ 4 := by
  simp only [effectZoom, ZoomBehavior.scaleExtent, ZoomBehavior.scaleBy]
  constructor
  · exact le_max_left _ _
  · apply max_le
    · norm_num
    · exact min_le_left _ _

/-- Claim C19 (the code at the failing input): `handleZoom` multiplies the scale by 1.5
or by 0.67 and does not clamp it. From the scale 1, four calls of `handleZoom('in')` give
81/16, which is above 4; from 4 one call gives 6; from 1, six calls of `handleZoom('out')`
give a scale below 0.1. The zoom behaviour of the graph effect, which has the scale
extent [0.1, 4], keeps every `scaleBy` within [0.1, 4]. -/
theorem handleZoom_leaves_extent :
    (["in", "in", "in", "in"].foldl handleZoom 1 = 81 / 16 ∧ (4 : ℚ) < 81 / 16) ∧
    handleZoom 4 "in" = 6 ∧
    (["out", "out", "out", "out", "out", "out"].foldl handleZoom 1 < 1 / 10) ∧
    (∀ k0 : ℚ, 0 ≤ k0 → handleZoom k0 "in" = k0 * (3 / 2) ∧
      handleZoom k0 "out" = k0 * (67 / 100)) ∧
    ∀ k0 k : ℚ, 1 / 10 ≤ effectZoom.scaleBy k0 k ∧ effectZoom.scaleBy k0 k ≤ 4 := by
  have hz : ∀ k0 : ℚ, 0 ≤ k0 → handleZoom k0 "in" = k0 * (3 / 2) ∧
      handleZoom k0 "out" = k0 * (67 / 100) := by
    intro k0 hk
    constructor
    · simp only [handleZoom, d3Zoom, ZoomBehavior.scaleBy, if_true]
      exact max_eq_right (by positivity)
    · have hne : ¬ ("out" = "in") := by decide
      simp only [handleZoom, d3Zoom, ZoomBehavior.scaleBy, hne, if_false]
      exact max_eq_right (by positivity)
  have hin : ∀ k0 : ℚ, handleZoom k0 "in" = max 0 (k0 * (3 / 2)) := fun _ => by
    simp only [handleZoom, d3Zoom, ZoomBehavior.scaleBy, if_true]
  have hout : ∀ k0 : ℚ, handleZoom k0 "out" = max 0 (k0 * (67 / 100)) := fun _ => by
    have hne : ¬ ("out" = "in") := by decide
    simp only [handleZoom, d3Zoom, ZoomBehavior.scaleBy, hne, if_false]
  refine ⟨⟨?_, by norm_num⟩, ?_, ?_, hz, effectZoom_scaleBy_bounds⟩
  · simp only [List.foldl_cons, List.foldl_nil, hin]
    norm_num
  · rw [hin]
    norm_num
  · simp only [List.foldl_cons, List.foldl_nil, hout]
    norm_num

/-! ## Pinned positions over sequences of events -/

theorem runCleanup_app (w : World) : (runCleanup w).app = w.app := by
  unfold runCleanup
  split <;> rfl

theorem runCleanup_gestures (w : World) : (runCleanup w).gestures = w.gestures := by
  unfold runCleanup
  split <;> rfl

theorem graphEffect_nodes (toStr : JSVal → String) (w : World) :
    (graphEffect toStr w).app.data.nodes = w.app.data.nodes := by
  unfold graphEffect
  split
  · rfl
  · dsimp only
    split <;> rfl

theorem graphEffect_gestures (toStr : JSVal → String) (w : World) :
    (graphEffect toStr w).gestures = w.gestures := by
  unfold graphEffect
  split
  · rfl
  · dsimp only
    split <;> rfl

theorem rerunEffect_nodes (toStr : JSVal → String) (w : World) :
    (rerunEffect toStr w).app.data.nodes = w.app.data.nodes := by
  unfold rerunEffect
  rw [graphEffect_nodes, runCleanup_app]

theorem rerunEffect_gestures (toStr : JSVal → String) (w : World) :
    (rerunEffect toStr w).gestures = w.gestures := by
  unfold rerunEffect
  rw [graphEffect_gestures, runCleanup_gestures]

theorem handleSearch_data (unicodeLower : String → String) (s : AppState) (term : String) :
    (∀ s', handleSearch unicodeLower s term = .normal s' → s'.data = s.data) ∧
    (∀ e s', handleSearch unicodeLower s term = .throw e s' → s'.data = s.data) := by
  unfold handleSearch
  constructor
  · intro s' h
    split at h
    · injection h with h
      rw [← h]
    · split at h
      · injection h with h
        rw [← h]
      · exact absurd h (by simp)
  · intro e s' h
    split at h
    · exact absurd h (by simp)
    · split at h
      · exact absurd h (by simp)
      · injection h with _ h
        rw [← h]

theorem step_pointerDown_cases (objectId : Nat → JSVal) (unicodeLower : String → String)
    (toStr : JSVal → String) (w : World) (pointer element : Nat) :
    (step objectId unicodeLower toStr w (.pointerDown pointer element) = w ∧
      dragStartOn w (.pointerDown pointer element) = none) ∨
    ∃ scene this, w.crashed = false ∧ w.scene = some scene ∧
      scene.nodes[element]? = some this ∧ gestureOf w.gestures pointer = none ∧
      dragStartOn w (.pointerDown pointer element) = some this.datum := by
  by_cases hc : w.crashed = true
  · left
    simp [step, dragStartOn, hc]
  · have hc' : w.crashed = false := by simpa using hc
    cases hs : w.scene with
    | none =>
      left
      simp [step, dragStartOn, hc', hs]
    | some scene =>
      cases hel : scene.nodes[element]? with
      | none =>
        left
        simp [step, dragStartOn, hc', hs, hel]
      | some this =>
        cases hg : gestureOf w.gestures pointer with
        | some g =>
          left
          simp [step, dragStartOn, hc', hs, hel, hg]
        | none =>
          right
          exact ⟨scene, this, hc', rfl, hel, rfl, by simp [dragStartOn, hc', hs, hel, hg]⟩

theorem step_pointer_cases (w : World) (pointer : Nat) :
    (w.crashed = true ∨ gestureOf w.gestures pointer = none) ∨
    ∃ g, w.crashed = false ∧ gestureOf w.gestures pointer = some g ∧ g ∈ w.gestures := by
  by_cases hc : w.crashed = true
  · exact Or.inl (Or.inl hc)
  · cases hg : gestureOf w.gestures pointer with
    | none => exact Or.inl (Or.inr rfl)
    | some g =>
      right
      exact ⟨g, by simpa using hc, rfl, List.mem_of_find?_eq_some hg⟩

theorem step_pointerMove_idle (objectId : Nat → JSVal) (unicodeLower : String → String)
    (toStr : JSVal → String) (w : World) (pointer : Nat) (x y : JSVal)
    (h : w.crashed = true ∨ gestureOf w.gestures pointer = none) :
    step objectId unicodeLower toStr w (.pointerMove pointer x y) = w := by
  rcases h with h | h
  · simp [step, h]
  · by_cases hc : w.crashed = true
    · simp [step, hc]
    · simp [step, hc, h]

theorem step_pointerUp_idle (objectId : Nat → JSVal) (unicodeLower : String → String)
    (toStr : JSVal → String) (w : World) (pointer : Nat)
    (h : w.crashed = true ∨ gestureOf w.gestures pointer = none) :
    step objectId unicodeLower toStr w (.pointerUp pointer) = w := by
  rcases h with h | h
  · simp [step, h]
  · by_cases hc : w.crashed = true
    · simp [step, hc]
    · simp [step, hc, h]

theorem dragged_gestures (event : DragEvent) (d : Option Nat) (w : World) :
    (dragged event d w).gestures = w.gestures := by
  simp [dragged]

theorem dragended_gestures (event : DragEvent) (simulation : Nat) (d : Option Nat) (w : World) :
    (dragended event simulation d w).gestures = w.gestures := by
  unfold dragended
  split <;> simp

theorem dragended_nodes (event : DragEvent) (simulation : Nat) (d : Option Nat) (w : World) :
    (dragended event simulation d w).app.data.nodes =
      (w.updateNode d fun n => { n with fx := .null, fy := .null }).app.data.nodes := by
  unfold dragended
  split
  · cases d <;> rfl
  · rfl

theorem step_quiet (objectId : Nat → JSVal) (unicodeLower : String → String)
    (toStr : JSVal → String) (w : World) (e : Event)
    (he : (∃ element, e = .mouseover element) ∨ (∃ element, e = .mouseout element) ∨
      (∃ element, e = .click element) ∨ (∃ term, e = .search term) ∨
      (∃ type, e = .toggle type) ∨ e = .switchView ∨ e = .refresh) :
    (step objectId unicodeLower toStr w e).app.data.nodes = w.app.data.nodes ∧
    (step objectId unicodeLower toStr w e).gestures = w.gestures := by
  rcases he with ⟨el, rfl⟩ | ⟨el, rfl⟩ | ⟨el, rfl⟩ | ⟨term, rfl⟩ | ⟨type, rfl⟩ | rfl | rfl
  · simp only [step]
    split
    · exact ⟨rfl, rfl⟩
    · split
      · exact ⟨rfl, rfl⟩
      · split <;> exact ⟨rfl, rfl⟩
  · simp only [step]
    split
    · exact ⟨rfl, rfl⟩
    · split <;> exact ⟨rfl, rfl⟩
  · simp only [step]
    split
    · exact ⟨rfl, rfl⟩
    · split
      · exact ⟨rfl, rfl⟩
      · split <;> exact ⟨rfl, rfl⟩
  · simp only [step]
    split
    · exact ⟨rfl, rfl⟩
    · have hd := handleSearch_data unicodeLower w.app term
      split
      · next app happ =>
        rw [rerunEffect_nodes, rerunEffect_gestures]
        exact ⟨congrArg GraphData.nodes (hd.1 app happ), rfl⟩
      · next err app happ =>
        exact ⟨congrArg GraphData.nodes (hd.2 err app happ), rfl⟩
  · simp only [step]
    split
    · exact ⟨rfl, rfl⟩
    · rw [rerunEffect_nodes, rerunEffect_gestures]
      exact ⟨rfl, rfl⟩
  · simp only [step]
    split
    · exact ⟨rfl, rfl⟩
    · rw [rerunEffect_nodes, rerunEffect_gestures]
      exact ⟨rfl, rfl⟩
  · simp only [step]
    split <;> exact ⟨rfl, rfl⟩

theorem step_positions (objectId : Nat → JSVal) (unicodeLower : String → String)
    (toStr : JSVal → String) (w : World) (f : Nat → JSVal × JSVal × JSVal × JSVal) :
    (step objectId unicodeLower toStr w (.positions f)).gestures = w.gestures ∧
    ∀ (i : Nat) (n' : Node),
      (step objectId unicodeLower toStr w (.positions f)).app.data.nodes[i]? = some n' →
      ∃ n : Node, w.app.data.nodes[i]? = some n ∧ n'.fx = n.fx ∧ n'.fy = n.fy := by
  simp only [step]
  split
  · exact ⟨rfl, fun i n' h => ⟨n', h, rfl, rfl⟩⟩
  · refine ⟨rfl, fun i n' h => ?_⟩
    simp only [List.getElem?_map, List.getElem?_enum] at h
    cases hq : w.app.data.nodes[i]? with
    | none => simp [hq] at h
    | some n =>
      rw [hq] at h
      simp only [Option.map_some', Option.some.injEq] at h
      exact ⟨n, rfl, by rw [← h], by rw [← h]⟩

theorem pinned_congr (n n' : Node) (hx : n'.fx = n.fx) (hy : n'.fy = n.fy) :
    n'.pinned = n.pinned := by
  simp [Node.pinned, hx, hy]

theorem PinnedOnlyInGesture.of_frame (w w' : World) (hg : w'.gestures = w.gestures)
    (hn : ∀ (i : Nat) (n' : Node), w'.app.data.nodes[i]? = some n' → n'.pinned = true →
      ∃ n : Node, w.app.data.nodes[i]? = some n ∧ n.pinned = true)
    (hP : PinnedOnlyInGesture w) : PinnedOnlyInGesture w' := by
  intro i n' hn' hp
  obtain ⟨n, hn0, hp0⟩ := hn i n' hn' hp
  rw [hg]
  exact hP i n hn0 hp0

theorem step_preserves_pinned (objectId : Nat → JSVal) (unicodeLower : String → String)
    (toStr : JSVal → String) (w : World) (e : Event) (he : e.isInteraction = true)
    (hP : PinnedOnlyInGesture w) :
    PinnedOnlyInGesture (step objectId unicodeLower toStr w e) := by
  cases e with
  | pointerDown pointer element =>
    rcases step_pointerDown_cases objectId unicodeLower toStr w pointer element with
      ⟨h, _⟩ | ⟨scene, this, hc, hs, hel, hfree, _⟩
    · rw [h]
      exact hP
    · rw [step_pointerDown objectId unicodeLower toStr w pointer element scene this hc hs hel
        hfree]
      intro i n hn hp
      by_cases hi : i = this.datum
      · exact ⟨_, List.mem_append_right _ (List.mem_singleton_self _), by rw [hi]⟩
      · have hn0 : w.app.data.nodes[i]? = some n := by
          have : (dragstarted { active := activeGestures w.gestures scene.simulation }
              scene.simulation (some this.datum) w).app.data.nodes[i]? = some n := hn
          rwa [dragstarted_nodes, List.getElem?_modify_ne _ _ (Ne.symm hi)] at this
        obtain ⟨g, hg, hsub⟩ := hP i n hn0 hp
        exact ⟨g, List.mem_append_left _ hg, hsub⟩
  | pointerMove pointer x y =>
    rcases step_pointer_cases w pointer with h | ⟨g, hc, hg, hmem⟩
    · rw [step_pointerMove_idle objectId unicodeLower toStr w pointer x y h]
      exact hP
    · rw [step_pointerMove objectId unicodeLower toStr w pointer x y g hc hg]
      intro i n hn hp
      rw [dragged_gestures]
      cases hsub : g.subject with
      | none =>
        rw [hsub] at hn
        exact hP i n hn hp
      | some j =>
        by_cases hi : i = j
        · exact ⟨g, hmem, by rw [hsub, hi]⟩
        · rw [hsub] at hn
          have hn0 : w.app.data.nodes[i]? = some n := by
            simpa [dragged, List.getElem?_modify_ne _ _ (Ne.symm hi)] using hn
          exact hP i n hn0 hp
  | pointerUp pointer =>
    rcases step_pointer_cases w pointer with h | ⟨g, hc, hg, _⟩
    · rw [step_pointerUp_idle objectId unicodeLower toStr w pointer h]
      exact hP
    · rw [step_pointerUp objectId unicodeLower toStr w pointer g hc hg]
      intro i n hn hp
      rw [dragended_gestures]
      rw [dragended_nodes] at hn
      cases hsub : g.subject with
      | none =>
        rw [hsub] at hn
        obtain ⟨g', hg', hs'⟩ := hP i n hn hp
        have hne : g' ≠ g := by
          rintro rfl
          rw [hsub] at hs'
          exact absurd hs' (by simp)
        exact ⟨g', (List.mem_erase_of_ne hne).mpr hg', hs'⟩
      | some j =>
        rw [hsub] at hn
        by_cases hi : i = j
        · subst hi
          exfalso
          have hn1 : (w.app.data.nodes.modify (fun n => { n with fx := .null, fy := .null })
              i)[i]? = some n := hn
          rw [List.getElem?_modify_eq] at hn1
          cases hq : w.app.data.nodes[i]? with
          | none => simp [hq] at hn1
          | some m =>
            rw [hq] at hn1
            have hn2 : some ({ m with fx := .null, fy := .null } : Node) = some n := hn1
            injection hn2 with hn2
            rw [← hn2] at hp
            simp [Node.pinned, isNullish] at hp
        · have hn0 : w.app.data.nodes[i]? = some n := by
            have hn1 : (w.app.data.nodes.modify (fun n => { n with fx := .null, fy := .null })
                j)[i]? = some n := hn
            rwa [List.getElem?_modify_ne _ _ (Ne.symm hi)] at hn1
          obtain ⟨g', hg', hs'⟩ := hP i n hn0 hp
          have hne : g' ≠ g := by
            rintro rfl
            rw [hsub] at hs'
            injection hs' with hs'
            exact hi hs'.symm
          exact ⟨g', (List.mem_erase_of_ne hne).mpr hg', hs'⟩
  | mouseover element =>
    have h := step_quiet objectId unicodeLower toStr w (.mouseover element) (Or.inl ⟨_, rfl⟩)
    exact PinnedOnlyInGesture.of_frame w _ h.2 (fun i n' hn' hp => ⟨n', by rwa [h.1] at hn', hp⟩)
      hP
  | mouseout element =>
    have h := step_quiet objectId unicodeLower toStr w (.mouseout element)
      (Or.inr (Or.inl ⟨_, rfl⟩))
    exact PinnedOnlyInGesture.of_frame w _ h.2 (fun i n' hn' hp => ⟨n', by rwa [h.1] at hn', hp⟩)
      hP
  | click element =>
    have h := step_quiet objectId unicodeLower toStr w (.click element)
      (Or.inr (Or.inr (Or.inl ⟨_, rfl⟩)))
    exact PinnedOnlyInGesture.of_frame w _ h.2 (fun i n' hn' hp => ⟨n', by rwa [h.1] at hn', hp⟩)
      hP
  | search term =>
    have h := step_quiet objectId unicodeLower toStr w (.search term)
      (Or.inr (Or.inr (Or.inr (Or.inl ⟨_, rfl⟩))))
    exact PinnedOnlyInGesture.of_frame w _ h.2 (fun i n' hn' hp => ⟨n', by rwa [h.1] at hn', hp⟩)
      hP
  | toggle type =>
    have h := step_quiet objectId unicodeLower toStr w (.toggle type)
      (Or.inr (Or.inr (Or.inr (Or.inr (Or.inl ⟨_, rfl⟩)))))
    exact PinnedOnlyInGesture.of_frame w _ h.2 (fun i n' hn' hp => ⟨n', by rwa [h.1] at hn', hp⟩)
      hP
  | switchView => exact absurd he (by simp [Event.isInteraction])
  | refresh => exact absurd he (by simp [Event.isInteraction])
  | fetched r => exact absurd he (by simp [Event.isInteraction])
  | positions f =>
    have h := step_positions objectId unicodeLower toStr w f
    refine PinnedOnlyInGesture.of_frame w _ h.1 (fun i n' hn' hp => ?_) hP
    obtain ⟨n, hn, hx, hy⟩ := h.2 i n' hn'
    exact ⟨n, hn, by rw [← pinned_congr n n' hx hy]; exact hp⟩
theorem step_preserves_noGesture (objectId : Nat → JSVal) (unicodeLower : String → String)
    (toStr : JSVal → String) (w : World) (e : Event) (i : Nat)
    (hno : dragStartOn w e ≠ some i) (hQ : NoGestureOn i w) :
    NoGestureOn i (step objectId unicodeLower toStr w e) := by
  cases e with
  | pointerDown pointer element =>
    rcases step_pointerDown_cases objectId unicodeLower toStr w pointer element with
      ⟨h, _⟩ | ⟨scene, this, hc, hs, hel, hfree, hstart⟩
    · rw [h]
      exact hQ
    · rw [step_pointerDown objectId unicodeLower toStr w pointer element scene this hc hs hel
        hfree]
      intro g hg
      rcases List.mem_append.mp hg with hg | hg
      · exact hQ g hg
      · rw [List.mem_singleton.mp hg]
        rw [hstart] at hno
        exact hno
  | pointerMove pointer x y =>
    rcases step_pointer_cases w pointer with h | ⟨g, hc, hg, _⟩
    · rw [step_pointerMove_idle objectId unicodeLower toStr w pointer x y h]
      exact hQ
    · rw [step_pointerMove objectId unicodeLower toStr w pointer x y g hc hg]
      intro g' hg'
      rw [dragged_gestures] at hg'
      exact hQ g' hg'
  | pointerUp pointer =>
    rcases step_pointer_cases w pointer with h | ⟨g, hc, hg, _⟩
    · rw [step_pointerUp_idle objectId unicodeLower toStr w pointer h]
      exact hQ
    · rw [step_pointerUp objectId unicodeLower toStr w pointer g hc hg]
      intro g' hg'
      rw [dragended_gestures] at hg'
      exact hQ g' (List.mem_of_mem_erase hg')
  | mouseover element =>
    intro g hg
    rw [(step_quiet objectId unicodeLower toStr w (.mouseover element)
      (Or.inl ⟨_, rfl⟩)).2] at hg
    exact hQ g hg
  | mouseout element =>
    intro g hg
    rw [(step_quiet objectId unicodeLower toStr w (.mouseout element)
      (Or.inr (Or.inl ⟨_, rfl⟩))).2] at hg
    exact hQ g hg
  | click element =>
    intro g hg
    rw [(step_quiet objectId unicodeLower toStr w (.click element)
      (Or.inr (Or.inr (Or.inl ⟨_, rfl⟩)))).2] at hg
    exact hQ g hg
  | search term =>
    intro g hg
    rw [(step_quiet objectId unicodeLower toStr w (.search term)
      (Or.inr (Or.inr (Or.inr (Or.inl ⟨_, rfl⟩))))).2] at hg
    exact hQ g hg
  | toggle type =>
    intro g hg
    rw [(step_quiet objectId unicodeLower toStr w (.toggle type)
      (Or.inr (Or.inr (Or.inr (Or.inr (Or.inl ⟨_, rfl⟩)))))).2] at hg
    exact hQ g hg
  | switchView =>
    intro g hg
    rw [(step_quiet objectId unicodeLower toStr w .switchView
      (Or.inr (Or.inr (Or.inr (Or.inr (Or.inr (Or.inl rfl))))))).2] at hg
    exact hQ g hg
  | refresh =>
    intro g hg
    rw [(step_quiet objectId unicodeLower toStr w .refresh
      (Or.inr (Or.inr (Or.inr (Or.inr (Or.inr (Or.inr rfl))))))).2] at hg
    exact hQ g hg
  | fetched r =>
    intro g hg
    simp only [step] at hg
    split at hg
    · exact hQ g hg
    · rw [rerunEffect_gestures] at hg
      obtain ⟨g0, _, rfl⟩ := List.mem_map.mp hg
      simp
  | positions f =>
    intro g hg
    rw [(step_positions objectId unicodeLower toStr w f).1] at hg
    exact hQ g hg

theorem run_cons (objectId : Nat → JSVal) (unicodeLower : String → String)
    (toStr : JSVal → String) (w : World) (e : Event) (rest : List Event) :
    run objectId unicodeLower toStr w (e :: rest) =
      run objectId unicodeLower toStr (step objectId unicodeLower toStr w e) rest := rfl

theorem run_preserves_pinned (objectId : Nat → JSVal) (unicodeLower : String → String)
    (toStr : JSVal → String) (events : List Event) (w : World)
    (hevents : ∀ e ∈ events, e.isInteraction = true) (hP : PinnedOnlyInGesture w) :
    PinnedOnlyInGesture (run objectId unicodeLower toStr w events) := by
  induction events generalizing w with
  | nil => exact hP
  | cons e rest ih =>
    rw [run_cons]
    exact ih _ (fun e' he' => hevents e' (List.mem_cons_of_mem _ he'))
      (step_preserves_pinned objectId unicodeLower toStr w e
        (hevents e (List.mem_cons_self _ _)) hP)

theorem run_preserves_noGesture (objectId : Nat → JSVal) (unicodeLower : String → String)
    (toStr : JSVal → String) (i : Nat) (events : List Event) (w : World)
    (hno : noDragStartsOn objectId unicodeLower toStr i w events) (hQ : NoGestureOn i w) :
    NoGestureOn i (run objectId unicodeLower toStr w events) := by
  induction events generalizing w with
  | nil => exact hQ
  | cons e rest ih =>
    rw [run_cons]
    exact ih _ hno.2 (step_preserves_noGesture objectId unicodeLower toStr w e i hno.1 hQ)

/-- Claim C14: start from nodes without a pinned position and no drag gesture in
progress, and let any sequence of interaction events happen (drag start, move and end
of any pointers, hover enter and leave, click, search, type toggle, and writes of
positions and velocities by the library). Then a node that has a pinned position is the
subject of a drag gesture in progress, that is, one started on it and not yet ended;
and a node on which no event of the sequence started a drag has no pinned position. -/
theorem pinned_only_while_dragged (objectId : Nat → JSVal) (unicodeLower : String → String)
    (toStr : JSVal → String) (w : World) (events : List Event)
    (hunpinned : ∀ n ∈ w.app.data.nodes, n.pinned = false) (hnone : w.gestures = [])
    (hevents : ∀ e ∈ events, e.isInteraction = true) :
    (∀ (i : Nat) (n : Node),
      (run objectId unicodeLower toStr w events).app.data.nodes[i]? = some n →
      n.pinned = true →
      ∃ g ∈ (run objectId unicodeLower toStr w events).gestures, g.subject = some i) ∧
    ∀ i : Nat, noDragStartsOn objectId unicodeLower toStr i w events →
      ∀ n : Node, (run objectId unicodeLower toStr w events).app.data.nodes[i]? = some n →
        n.pinned = false := by
  have hP : PinnedOnlyInGesture w := by
    intro i n hn hp
    rw [hunpinned n (List.getElem?_mem hn)] at hp
    exact absurd hp (by simp)
  have hrun := run_preserves_pinned objectId unicodeLower toStr events w hevents hP
  refine ⟨hrun, ?_⟩
  intro i hno n hn
  have hQ : NoGestureOn i w := by
    intro g hg
    rw [hnone] at hg
    exact absurd hg (List.not_mem_nil _)
  have hQ' := run_preserves_noGesture objectId unicodeLower toStr i events w hno hQ
  by_contra hp
  obtain ⟨g, hg, hsub⟩ := hrun i n hn (by simpa using hp)
  exact hQ' g hg hsub
/-- Witness for C14: on the placed fallback data a drag is started on the first drawn
node, moved, and a search is made while it lasts. The first node is then pinned and is
the subject of the gesture; the second node, on which no drag was started, is not
pinned. -/
theorem pinned_only_while_dragged_witness :
    (∀ n ∈ placedFallbackWorld.app.data.nodes, n.pinned = false) ∧
    placedFallbackWorld.gestures = [] ∧
    (∀ (i : Nat) (n : Node),
      (run noObjectId noUnicodeLower noToString placedFallbackWorld
        [.pointerDown 0 0, .pointerMove 0 (.num 5) (.num 6),
          .search "forest"]).app.data.nodes[i]? = some n →
      n.pinned = true →
      ∃ g ∈ (run noObjectId noUnicodeLower noToString placedFallbackWorld
        [.pointerDown 0 0, .pointerMove 0 (.num 5) (.num 6), .search "forest"]).gestures,
        g.subject = some i) ∧
    (∀ n : Node, (run noObjectId noUnicodeLower noToString placedFallbackWorld
        [.pointerDown 0 0, .pointerMove 0 (.num 5) (.num 6),
          .search "forest"]).app.data.nodes[1]? = some n → n.pinned = false) ∧
    ((run noObjectId noUnicodeLower noToString placedFallbackWorld
        [.pointerDown 0 0, .pointerMove 0 (.num 5) (.num 6),
          .search "forest"]).app.data.nodes.map fun n => (n.fx, n.fy)) =
      [(.num 5, .num 6), (.undefined, .undefined), (.undefined, .undefined),
       (.undefined, .undefined), (.undefined, .undefined)] :=
  have h := pinned_only_while_dragged noObjectId noUnicodeLower noToString
    placedFallbackWorld
    [.pointerDown 0 0, .pointerMove 0 (.num 5) (.num 6), .search "forest"]
    (by decide) rfl (by
      intro e he
      simp only [List.mem_cons, List.mem_singleton, List.not_mem_nil, or_false] at he
      rcases he with rfl | rfl | rfl <;> rfl)
  ⟨by decide, rfl, h.1, h.2 1 ⟨by decide, by decide, by decide, trivial⟩, by decide⟩

/-! ## One simulation at a time -/

theorem KeepsStopped.refl (sims : List Simulation) : KeepsStopped sims sims :=
  fun _ sim h => ⟨sim, h, id⟩

theorem KeepsStopped.trans {a b c : List Simulation} (hab : KeepsStopped a b)
    (hbc : KeepsStopped b c) : KeepsStopped a c := by
  intro j sim h
  obtain ⟨sim1, h1, ht1⟩ := hab j sim h
  obtain ⟨sim2, h2, ht2⟩ := hbc j sim1 h1
  exact ⟨sim2, h2, fun ht => ht2 (ht1 ht)⟩

theorem KeepsStopped.append (sims : List Simulation) (sim : Simulation) :
    KeepsStopped sims (sims ++ [sim]) := by
  intro j s h
  refine ⟨s, ?_, id⟩
  have hj : j < sims.length := (List.getElem?_eq_some.mp h).1
  rw [List.getElem?_append_left hj]
  exact h

theorem getElem?_modify_ticking (sims : List Simulation) (f : Simulation → Simulation)
    (k j : Nat) (sim' : Simulation) (hf : ∀ s, k = j → sims[j]? = some s →
      (f s).ticking = s.ticking)
    (h : (sims.modify f k)[j]? = some sim') :
    ∃ sim, sims[j]? = some sim ∧ sim'.ticking = sim.ticking := by
  rw [List.getElem?_modify] at h
  cases hq : sims[j]? with
  | none => simp [hq] at h
  | some s =>
    rw [hq] at h
    by_cases hkj : k = j
    · simp only [hkj, if_true] at h
      have h' : some (f s) = some sim' := h
      injection h' with h'
      refine ⟨s, rfl, ?_⟩
      rw [← h']
      exact hf s hkj hq
    · simp only [hkj, if_false] at h
      have h' : some s = some sim' := h
      injection h' with h'
      exact ⟨s, rfl, by rw [h']⟩

/-- A write to the simulations that leaves every `ticking` as it is keeps the order. -/
theorem SimulationsInOrder.of_same_ticking (w w' : World)
    (hlen : w'.simulations.length = w.simulations.length)
    (hsim : ∀ (j : Nat) (sim' : Simulation), w'.simulations[j]? = some sim' →
      ∃ sim, w.simulations[j]? = some sim ∧ sim'.ticking = sim.ticking)
    (hback : ∀ (j : Nat) (sim : Simulation), w.simulations[j]? = some sim →
      ∃ sim', w'.simulations[j]? = some sim' ∧ sim'.ticking = sim.ticking)
    (hcleanup : w'.cleanup = w.cleanup)
    (hscene : ∀ scene' : Scene, w'.scene = some scene' →
      ∃ scene : Scene, w.scene = some scene ∧ scene'.simulation = scene.simulation)
    (hcrashed : w'.crashed = w.crashed) (h : SimulationsInOrder w) :
    SimulationsInOrder w' ∧ KeepsStopped w.simulations w'.simulations := by
  obtain ⟨h1, h2, h3, h4⟩ := h
  refine ⟨⟨?_, ?_, ?_, ?_⟩, ?_⟩
  · intro j sim' hj hlt
    obtain ⟨sim, hs, ht⟩ := hsim j sim' hj
    rw [ht]
    exact h1 j sim hs (by rwa [hlen] at hlt)
  · intro k hk
    rw [hcleanup] at hk
    obtain ⟨hk1, sim, hs, ht⟩ := h2 k hk
    obtain ⟨sim', hs', ht'⟩ := hback k sim hs
    exact ⟨by rw [hlen]; exact hk1, sim', hs', by rw [ht']; exact ht⟩
  · intro scene' hs
    obtain ⟨scene, hsc, hsim⟩ := hscene scene' hs
    rw [hcleanup, hsim]
    exact h3 scene hsc
  · intro hc hn j sim' hj
    obtain ⟨sim, hs, ht⟩ := hsim j sim' hj
    rw [ht]
    exact h4 (by rw [← hcrashed]; exact hc) (by rw [← hcleanup]; exact hn) j sim hs
  · intro j sim hs
    obtain ⟨sim', hs', ht'⟩ := hback j sim hs
    exact ⟨sim', hs', fun ht => by rw [ht']; exact ht⟩

theorem SimulationsInOrder.of_same_engine (w w' : World)
    (hsims : w'.simulations = w.simulations) (hcleanup : w'.cleanup = w.cleanup)
    (hscene : ∀ scene' : Scene, w'.scene = some scene' →
      ∃ scene : Scene, w.scene = some scene ∧ scene'.simulation = scene.simulation)
    (hcrashed : w'.crashed = w.crashed) (h : SimulationsInOrder w) :
    SimulationsInOrder w' ∧ KeepsStopped w.simulations w'.simulations :=
  SimulationsInOrder.of_same_ticking w w' (by rw [hsims])
    (fun j sim' hj => ⟨sim', by rw [← hsims]; exact hj, rfl⟩)
    (fun j sim hj => ⟨sim, by rw [hsims]; exact hj, rfl⟩) hcleanup hscene hcrashed h

theorem graphEffect_engine (toStr : JSVal → String) (w : World) :
    ((graphEffect toStr w).simulations = w.simulations ∧
      (graphEffect toStr w).cleanup = none ∧ (graphEffect toStr w).scene = none ∧
      (graphEffect toStr w).crashed = w.crashed) ∨
    ((graphEffect toStr w).simulations = w.simulations ++ [forceSimulation] ∧
      (graphEffect toStr w).cleanup = none ∧ (graphEffect toStr w).scene = none ∧
      (graphEffect toStr w).crashed = true) ∨
    ((graphEffect toStr w).simulations = w.simulations ++ [forceSimulation] ∧
      (graphEffect toStr w).cleanup = some w.simulations.length ∧
      (∃ scene, (graphEffect toStr w).scene = some scene ∧
        scene.simulation = w.simulations.length) ∧
      (graphEffect toStr w).crashed = w.crashed) := by
  unfold graphEffect
  split
  · exact Or.inl ⟨rfl, rfl, rfl, rfl⟩
  · dsimp only
    split
    · exact Or.inr (Or.inl ⟨rfl, rfl, rfl, rfl⟩)
    · exact Or.inr (Or.inr ⟨rfl, rfl, ⟨_, rfl, rfl⟩, rfl⟩)

/-- Stop before replace: after the cleanup React runs before the effect, no simulation
ticks. -/
theorem runCleanup_stops (w : World) (hc : w.crashed = false) (h : SimulationsInOrder w) :
    (∀ (j : Nat) (sim : Simulation), (runCleanup w).simulations[j]? = some sim →
      sim.ticking = false) ∧
    (runCleanup w).simulations.length = w.simulations.length ∧
    KeepsStopped w.simulations (runCleanup w).simulations ∧
    (runCleanup w).crashed = w.crashed := by
  obtain ⟨h1, h2, _, h4⟩ := h
  unfold runCleanup
  cases hk : w.cleanup with
  | none =>
    exact ⟨h4 hc hk, rfl, KeepsStopped.refl _, rfl⟩
  | some k =>
    obtain ⟨hk1, _⟩ := h2 k hk
    refine ⟨?_, by simp, ?_, rfl⟩
    · intro j sim hj
      simp only [World.updateSimulation_simulations, List.getElem?_modify] at hj
      cases hq : w.simulations[j]? with
      | none => simp [hq] at hj
      | some s =>
        rw [hq] at hj
        by_cases hkj : k = j
        · simp only [hkj, if_true] at hj
          have hj' : some s.stop = some sim := hj
          injection hj' with hj'
          rw [← hj']
          rfl
        · simp only [hkj, if_false] at hj
          have hj' : some s = some sim := hj
          injection hj' with hj'
          rw [← hj']
          have hjlt : j < w.simulations.length := (List.getElem?_eq_some.mp hq).1
          exact h1 j s hq (by omega)
    · intro j sim hj
      simp only [World.updateSimulation_simulations, List.getElem?_modify, hj]
      by_cases hkj : k = j
      · exact ⟨sim.stop, by simp [hkj], fun _ => rfl⟩
      · exact ⟨sim, by simp [hkj], id⟩

theorem rerunEffect_inOrder (toStr : JSVal → String) (w : World) (hc : w.crashed = false)
    (h : SimulationsInOrder w) :
    SimulationsInOrder (rerunEffect toStr w) ∧
      KeepsStopped w.simulations (rerunEffect toStr w).simulations := by
  obtain ⟨hstop, hlen, hkeep, hcr⟩ := runCleanup_stops w hc h
  unfold rerunEffect
  rcases graphEffect_engine toStr (runCleanup w) with
    ⟨hs, hcl, hsc, hcrash⟩ | ⟨hs, hcl, hsc, hcrash⟩ | ⟨hs, hcl, ⟨scene, hsc, hsim⟩, hcrash⟩
  · refine ⟨⟨?_, ?_, ?_, ?_⟩, ?_⟩
    · intro j sim hj _
      rw [hs] at hj
      exact hstop j sim hj
    · intro k hk
      rw [hcl] at hk
      exact absurd hk (by simp)
    · intro scene hscene
      rw [hsc] at hscene
      exact absurd hscene (by simp)
    · intro _ _ j sim hj
      rw [hs] at hj
      exact hstop j sim hj
    · rw [hs]
      exact hkeep
  · refine ⟨⟨?_, ?_, ?_, ?_⟩, ?_⟩
    · intro j sim hj hlt
      rw [hs] at hj hlt
      simp only [List.length_append, List.length_singleton] at hlt
      rw [List.getElem?_append_left (by omega)] at hj
      exact hstop j sim hj
    · intro k hk
      rw [hcl] at hk
      exact absurd hk (by simp)
    · intro scene hscene
      rw [hsc] at hscene
      exact absurd hscene (by simp)
    · intro hfalse
      rw [hcrash] at hfalse
      exact absurd hfalse (by simp)
    · rw [hs]
      exact hkeep.trans (KeepsStopped.append _ _)
  · refine ⟨⟨?_, ?_, ?_, ?_⟩, ?_⟩
    · intro j sim hj hlt
      rw [hs] at hj hlt
      simp only [List.length_append, List.length_singleton] at hlt
      rw [List.getElem?_append_left (by omega)] at hj
      exact hstop j sim hj
    · intro k hk
      rw [hcl] at hk
      injection hk with hk
      subst hk
      rw [hs]
      refine ⟨by simp, forceSimulation, ?_, rfl⟩
      simp
    · intro scene' hscene
      rw [hsc] at hscene
      injection hscene with hscene
      rw [hcl, ← hscene, hsim]
    · intro _ hnone
      rw [hcl] at hnone
      exact absurd hnone (by simp)
    · rw [hs]
      exact hkeep.trans (KeepsStopped.append _ _)
theorem step_crashed (objectId : Nat → JSVal) (unicodeLower : String → String)
    (toStr : JSVal → String) (w : World) (e : Event) (hc : w.crashed = true) :
    step objectId unicodeLower toStr w e = w := by
  cases e <;> simp [step, hc]

theorem mouseover_simulation (objectId : Nat → JSVal) (nodes : List Node) (scene : Scene)
    (element : Nat) :
    (∀ scene', mouseover objectId nodes scene element = .normal scene' →
      scene'.simulation = scene.simulation) ∧
    (∀ e scene', mouseover objectId nodes scene element = .throw e scene' →
      scene'.simulation = scene.simulation) := by
  unfold mouseover
  constructor
  · intro scene' h
    split at h
    · injection h with h
      rw [← h]
    · dsimp only at h
      split at h
      · exact absurd h (by simp)
      · injection h with h
        rw [← h]
  · intro e scene' h
    split at h
    · exact absurd h (by simp)
    · dsimp only at h
      split at h
      · injection h with _ h
        rw [← h]
      · exact absurd h (by simp)

theorem mouseout_simulation (scene : Scene) (element : Nat) :
    (mouseout scene element).simulation = scene.simulation := by
  unfold mouseout
  split <;> rfl

theorem dragended_engine (event : DragEvent) (simulation : Nat) (d : Option Nat) (w : World) :
    (dragended event simulation d w).simulations =
      (if event.active = 0 then w.simulations.modify (fun sim => sim.setAlphaTarget 0) simulation
        else w.simulations) ∧
    (dragended event simulation d w).cleanup = w.cleanup ∧
    (dragended event simulation d w).scene = w.scene ∧
    (dragended event simulation d w).crashed = w.crashed := by
  unfold dragended
  split <;> simp

theorem dragstarted_engine (event : DragEvent) (simulation : Nat) (d : Option Nat) (w : World) :
    (dragstarted event simulation d w).cleanup = w.cleanup ∧
    (dragstarted event simulation d w).scene = w.scene ∧
    (dragstarted event simulation d w).crashed = w.crashed := by
  unfold dragstarted
  split <;> simp

theorem step_engine_same (objectId : Nat → JSVal) (unicodeLower : String → String)
    (toStr : JSVal → String) (w : World) (e : Event)
    (he : (∃ element, e = .mouseover element) ∨ (∃ element, e = .mouseout element) ∨
      (∃ element, e = .click element) ∨ e = .refresh ∨ (∃ f, e = .positions f)) :
    (step objectId unicodeLower toStr w e).simulations = w.simulations ∧
    (step objectId unicodeLower toStr w e).cleanup = w.cleanup ∧
    (step objectId unicodeLower toStr w e).crashed = w.crashed ∧
    ∀ scene' : Scene, (step objectId unicodeLower toStr w e).scene = some scene' →
      ∃ scene : Scene, w.scene = some scene ∧ scene'.simulation = scene.simulation := by
  have hsame : ∀ scene' : Scene, w.scene = some scene' →
      ∃ scene : Scene, w.scene = some scene ∧ scene'.simulation = scene.simulation :=
    fun scene' hs => ⟨scene', hs, rfl⟩
  rcases he with ⟨el, rfl⟩ | ⟨el, rfl⟩ | ⟨el, rfl⟩ | rfl | ⟨f, rfl⟩
  · simp only [step]
    split
    · exact ⟨rfl, rfl, rfl, hsame⟩
    · split
      · exact ⟨rfl, rfl, rfl, hsame⟩
      · next scene hs =>
        have hm := mouseover_simulation objectId w.app.data.nodes scene el
        split
        · next scene1 hover =>
          refine ⟨rfl, rfl, rfl, fun scene' h' => ⟨scene, hs, ?_⟩⟩
          have h2 : some scene1 = some scene' := h'
          injection h2 with h2
          rw [← h2]
          exact hm.1 scene1 hover
        · next err scene1 hover =>
          refine ⟨rfl, rfl, rfl, fun scene' h' => ⟨scene, hs, ?_⟩⟩
          have h2 : some scene1 = some scene' := h'
          injection h2 with h2
          rw [← h2]
          exact hm.2 err scene1 hover
  · simp only [step]
    split
    · exact ⟨rfl, rfl, rfl, hsame⟩
    · split
      · exact ⟨rfl, rfl, rfl, hsame⟩
      · next scene hs =>
        refine ⟨rfl, rfl, rfl, fun scene' h' => ⟨scene, hs, ?_⟩⟩
        have h2 : some (mouseout scene el) = some scene' := h'
        injection h2 with h2
        rw [← h2]
        exact mouseout_simulation scene el
  · simp only [step]
    split
    · exact ⟨rfl, rfl, rfl, hsame⟩
    · split
      · exact ⟨rfl, rfl, rfl, hsame⟩
      · split <;> exact ⟨rfl, rfl, rfl, hsame⟩
  · simp only [step]
    split
    · exact ⟨rfl, rfl, rfl, hsame⟩
    · exact ⟨rfl, rfl, rfl, fun scene' h' => absurd h' (by simp)⟩
  · simp only [step]
    split <;> exact ⟨rfl, rfl, rfl, hsame⟩

theorem step_inOrder (objectId : Nat → JSVal) (unicodeLower : String → String)
    (toStr : JSVal → String) (w : World) (e : Event) (h : SimulationsInOrder w) :
    SimulationsInOrder (step objectId unicodeLower toStr w e) ∧
      KeepsStopped w.simulations (step objectId unicodeLower toStr w e).simulations := by
  by_cases hc : w.crashed = true
  · rw [step_crashed objectId unicodeLower toStr w e hc]
    exact ⟨h, KeepsStopped.refl _⟩
  have hc' : w.crashed = false := by simpa using hc
  cases e with
  | pointerDown pointer element =>
    rcases step_pointerDown_cases objectId unicodeLower toStr w pointer element with
      ⟨hw, _⟩ | ⟨scene, this, _, hs, hel, hfree, _⟩
    · rw [hw]
      exact ⟨h, KeepsStopped.refl _⟩
    · rw [step_pointerDown objectId unicodeLower toStr w pointer element scene this hc' hs hel
        hfree]
      obtain ⟨_, sim0, hsim0, htick0⟩ := h.2.1 scene.simulation (h.2.2.1 scene hs)
      have heng := dragstarted_engine { active := activeGestures w.gestures scene.simulation }
        scene.simulation (some this.datum) w
      have hsims := dragstarted_simulations
        { active := activeGestures w.gestures scene.simulation } scene.simulation
        (some this.datum) w
      apply SimulationsInOrder.of_same_ticking w _ _ _ _ heng.1
        (fun scene' hs' => ⟨scene', by rw [← heng.2.1]; exact hs', rfl⟩) heng.2.2 h
      · show (dragstarted _ _ _ w).simulations.length = _
        rw [hsims]
        split <;> simp
      · intro j sim' hj
        have hj' : (dragstarted { active := activeGestures w.gestures scene.simulation }
            scene.simulation (some this.datum) w).simulations[j]? = some sim' := hj
        rw [hsims] at hj'
        split at hj'
        · refine getElem?_modify_ticking w.simulations _ scene.simulation j sim' ?_ hj'
          intro s hkj hs'
          rw [← hkj, hsim0] at hs'
          injection hs' with hs'
          rw [← hs']
          exact htick0.symm
        · exact ⟨sim', hj', rfl⟩
      · intro j sim hj
        show ∃ sim', (dragstarted _ _ _ w).simulations[j]? = some sim' ∧ _
        rw [hsims]
        split
        · rw [List.getElem?_modify, hj]
          by_cases hkj : scene.simulation = j
          · refine ⟨(sim.setAlphaTarget (3 / 10)).restart, by simp only [hkj, if_true]; rfl, ?_⟩
            rw [← hkj, hsim0] at hj
            injection hj with hj
            rw [← hj]
            exact htick0.symm
          · exact ⟨sim, by simp only [hkj, if_false]; rfl, rfl⟩
        · exact ⟨sim, hj, rfl⟩
  | pointerMove pointer x y =>
    rcases step_pointer_cases w pointer with hi | ⟨g, _, hg, _⟩
    · rw [step_pointerMove_idle objectId unicodeLower toStr w pointer x y hi]
      exact ⟨h, KeepsStopped.refl _⟩
    · rw [step_pointerMove objectId unicodeLower toStr w pointer x y g hc' hg]
      exact SimulationsInOrder.of_same_engine w _ (by simp [dragged]) (by simp [dragged])
        (fun scene' hs' => ⟨scene', by simpa [dragged] using hs', rfl⟩) (by simp [dragged]) h
  | pointerUp pointer =>
    rcases step_pointer_cases w pointer with hi | ⟨g, _, hg, _⟩
    · rw [step_pointerUp_idle objectId unicodeLower toStr w pointer hi]
      exact ⟨h, KeepsStopped.refl _⟩
    · rw [step_pointerUp objectId unicodeLower toStr w pointer g hc' hg]
      have heng := dragended_engine
        { active := activeGestures (w.gestures.erase g) g.simulation } g.simulation g.subject
        { w with gestures := w.gestures.erase g }
      apply SimulationsInOrder.of_same_ticking w _ _ _ _ heng.2.1
        (fun scene' hs' => ⟨scene', by rw [← heng.2.2.1]; exact hs', rfl⟩) heng.2.2.2 h
      · rw [heng.1]
        split <;> simp
      · intro j sim' hj
        rw [heng.1] at hj
        split at hj
        · have hj' : (w.simulations.modify (fun sim => sim.setAlphaTarget 0)
              g.simulation)[j]? = some sim' := hj
          exact getElem?_modify_ticking w.simulations (fun sim => sim.setAlphaTarget 0)
            g.simulation j sim' (fun _ _ _ => rfl) hj'
        · exact ⟨sim', hj, rfl⟩
      · intro j sim hj
        rw [heng.1]
        split
        · show ∃ sim', (w.simulations.modify (fun sim => sim.setAlphaTarget 0)
              g.simulation)[j]? = some sim' ∧ _
          rw [List.getElem?_modify, hj]
          by_cases hkj : g.simulation = j
          · exact ⟨sim.setAlphaTarget 0, by simp only [hkj, if_true]; rfl, rfl⟩
          · exact ⟨sim, by simp only [hkj, if_false]; rfl, rfl⟩
        · exact ⟨sim, hj, rfl⟩
  | mouseover element =>
    have he := step_engine_same objectId unicodeLower toStr w (.mouseover element)
      (Or.inl ⟨_, rfl⟩)
    exact SimulationsInOrder.of_same_engine w _ he.1 he.2.1 he.2.2.2 he.2.2.1 h
  | mouseout element =>
    have he := step_engine_same objectId unicodeLower toStr w (.mouseout element)
      (Or.inr (Or.inl ⟨_, rfl⟩))
    exact SimulationsInOrder.of_same_engine w _ he.1 he.2.1 he.2.2.2 he.2.2.1 h
  | click element =>
    have he := step_engine_same objectId unicodeLower toStr w (.click element)
      (Or.inr (Or.inr (Or.inl ⟨_, rfl⟩)))
    exact SimulationsInOrder.of_same_engine w _ he.1 he.2.1 he.2.2.2 he.2.2.1 h
  | search term =>
    simp only [step]
    rw [if_neg hc]
    split
    · next app _ => exact rerunEffect_inOrder toStr { w with app := app } hc' h
    · next err app _ =>
      exact SimulationsInOrder.of_same_engine w { w with app := app } rfl rfl
        (fun s' hs' => ⟨s', hs', rfl⟩) rfl h
  | toggle type =>
    simp only [step]
    rw [if_neg hc]
    exact rerunEffect_inOrder toStr { w with app := toggleNodeType toStr w.app type } hc' h
  | switchView =>
    simp only [step]
    rw [if_neg hc]
    exact rerunEffect_inOrder toStr _ hc' h
  | refresh =>
    have he := step_engine_same objectId unicodeLower toStr w .refresh
      (Or.inr (Or.inr (Or.inr (Or.inl rfl))))
    exact SimulationsInOrder.of_same_engine w _ he.1 he.2.1 he.2.2.2 he.2.2.1 h
  | fetched r =>
    simp only [step]
    rw [if_neg hc]
    exact rerunEffect_inOrder toStr _ hc' h
  | positions f =>
    have he := step_engine_same objectId unicodeLower toStr w (.positions f)
      (Or.inr (Or.inr (Or.inr (Or.inr ⟨_, rfl⟩))))
    exact SimulationsInOrder.of_same_engine w _ he.1 he.2.1 he.2.2.2 he.2.2.1 h
theorem initialWorld_inOrder : SimulationsInOrder initialWorld := by
  refine ⟨?_, ?_, ?_, ?_⟩
  · intro j sim h
    exact absurd h (by simp [initialWorld])
  · intro k h
    exact absurd h (by simp [initialWorld])
  · intro scene h
    exact absurd h (by simp [initialWorld])
  · intro _ _ j sim h
    exact absurd h (by simp [initialWorld])

theorem run_inOrder (objectId : Nat → JSVal) (unicodeLower : String → String)
    (toStr : JSVal → String) (events : List Event) (w : World) (h : SimulationsInOrder w) :
    SimulationsInOrder (run objectId unicodeLower toStr w events) ∧
      KeepsStopped w.simulations (run objectId unicodeLower toStr w events).simulations := by
  induction events generalizing w with
  | nil => exact ⟨h, KeepsStopped.refl _⟩
  | cons e rest ih =>
    rw [run_cons]
    have hstep := step_inOrder objectId unicodeLower toStr w e h
    have hrest := ih _ hstep.1
    exact ⟨hrest.1, hstep.2.trans hrest.2⟩

theorem run_append (objectId : Nat → JSVal) (unicodeLower : String → String)
    (toStr : JSVal → String) (w : World) (events more : List Event) :
    run objectId unicodeLower toStr w (events ++ more) =
      run objectId unicodeLower toStr (run objectId unicodeLower toStr w events) more := by
  simp [run, List.foldl_append]

/-- Claim C20: run any sequence of events from the mounted component (new data, type
toggles, searches, changes of view, refreshes and all interaction events). At every
point every simulation but the newest is stopped, so at most one simulation ticks; in
a component that has not crashed, once React has run the cleanup of the previous run
of the graph effect, which it does before the next run builds a simulation, no
simulation ticks; and a simulation that is stopped is still stopped after any further
events. -/
theorem one_simulation_at_a_time (objectId : Nat → JSVal) (unicodeLower : String → String)
    (toStr : JSVal → String) (events more : List Event) :
    (∀ (j : Nat) (sim : Simulation),
      (run objectId unicodeLower toStr initialWorld events).simulations[j]? = some sim →
      j + 1 < (run objectId unicodeLower toStr initialWorld events).simulations.length →
      sim.ticking = false) ∧
    (∀ (j k : Nat) (simj simk : Simulation),
      (run objectId unicodeLower toStr initialWorld events).simulations[j]? = some simj →
      (run objectId unicodeLower toStr initialWorld events).simulations[k]? = some simk →
      simj.ticking = true → simk.ticking = true → j = k) ∧
    ((run objectId unicodeLower toStr initialWorld events).crashed = false →
      ∀ (j : Nat) (sim : Simulation),
        (runCleanup (run objectId unicodeLower toStr initialWorld events)).simulations[j]? =
          some sim → sim.ticking = false) ∧
    (∀ (j : Nat) (sim : Simulation),
      (run objectId unicodeLower toStr initialWorld events).simulations[j]? = some sim →
      sim.ticking = false →
      ∃ sim' : Simulation,
        (run objectId unicodeLower toStr initialWorld (events ++ more)).simulations[j]? =
          some sim' ∧ sim'.ticking = false) := by
  have hrun := (run_inOrder objectId unicodeLower toStr events initialWorld
    initialWorld_inOrder).1
  have hnewest : ∀ (j : Nat) (sim : Simulation),
      (run objectId unicodeLower toStr initialWorld events).simulations[j]? = some sim →
      sim.ticking = true →
      j + 1 = (run objectId unicodeLower toStr initialWorld events).simulations.length := by
    intro j sim hj ht
    have hlt : j < (run objectId unicodeLower toStr initialWorld events).simulations.length :=
      (List.getElem?_eq_some.mp hj).1
    by_contra hne
    have := hrun.1 j sim hj (by omega)
    rw [this] at ht
    exact absurd ht (by simp)
  refine ⟨hrun.1, ?_, ?_, ?_⟩
  · intro j k simj simk hj hk htj htk
    have h1 := hnewest j simj hj htj
    have h2 := hnewest k simk hk htk
    omega
  · intro hc
    exact (runCleanup_stops _ hc hrun).1
  · intro j sim hj ht
    rw [run_append]
    obtain ⟨sim', hs', ht'⟩ := (run_inOrder objectId unicodeLower toStr more _ hrun).2 j sim hj
    exact ⟨sim', hs', ht' ht⟩

/-- Witness for C20: the fallback data arrives, the graph view is opened and a search is
made: the first simulation is stopped and the second one ticks. -/
theorem one_simulation_at_a_time_witness :
    (run noObjectId noUnicodeLower noToString initialWorld
        [.fetched (.failure "Failed to fetch"), .switchView, .search "forest"]).simulations =
      [{ alphaTarget := 0, ticking := false }, { alphaTarget := 0, ticking := true }] ∧
    ∀ (j : Nat) (sim : Simulation),
      (run noObjectId noUnicodeLower noToString initialWorld
        [.fetched (.failure "Failed to fetch"), .switchView,
          .search "forest"]).simulations[j]? = some sim →
      j + 1 < (run noObjectId noUnicodeLower noToString initialWorld
        [.fetched (.failure "Failed to fetch"), .switchView,
          .search "forest"]).simulations.length →
      sim.ticking = false :=
  ⟨by decide,
    (one_simulation_at_a_time noObjectId noUnicodeLower noToString
      [.fetched (.failure "Failed to fetch"), .switchView, .search "forest"] []).1⟩

/-! ## Cooling -/

theorem Cooling.iterate_tick_params (forces : ℚ → List Node → List Node) (n : Nat)
    (s : Cooling) :
    ((Cooling.tick forces)^[n] s).alphaDecay = s.alphaDecay ∧
      ((Cooling.tick forces)^[n] s).alphaTarget = s.alphaTarget ∧
      ((Cooling.tick forces)^[n] s).alphaMin = s.alphaMin := by
  induction n with
  | zero => exact ⟨rfl, rfl, rfl⟩
  | succ n ih =>
    rw [Function.iterate_succ_apply']
    exact ih

theorem Cooling.iterate_tick_alpha (forces : ℚ → List Node → List Node) (n : Nat)
    (s : Cooling) :
    ((Cooling.tick forces)^[n] s).alpha =
      s.alphaTarget + (s.alpha - s.alphaTarget) * (1 - s.alphaDecay) ^ n := by
  induction n with
  | zero => simp
  | succ n ih =>
    have hp := Cooling.iterate_tick_params forces n s
    rw [Function.iterate_succ_apply']
    show ((Cooling.tick forces)^[n] s).alpha +
      (((Cooling.tick forces)^[n] s).alphaTarget - ((Cooling.tick forces)^[n] s).alpha) *
        ((Cooling.tick forces)^[n] s).alphaDecay = _
    rw [ih, hp.1, hp.2.1]
    ring

theorem Cooling.runTimer_stops (forces : ℚ → List Node → List Node) (fuel : Nat) :
    ∀ (s : Cooling) (m : Nat), m < fuel →
      ((Cooling.tick forces)^[m + 1] s).alpha < s.alphaMin →
      ∃ n : Nat, n ≤ m ∧
        Cooling.runTimer forces fuel s = some (n + 1, (Cooling.tick forces)^[n + 1] s) ∧
        ((Cooling.tick forces)^[n + 1] s).alpha < s.alphaMin := by
  induction fuel with
  | zero =>
    intro s m hm
    exact absurd hm (Nat.not_lt_zero m)
  | succ fuel ih =>
    intro s m hm hbelow
    by_cases hnow : (s.tick forces).alpha < (s.tick forces).alphaMin
    · refine ⟨0, Nat.zero_le m, ?_, hnow⟩
      simp only [Cooling.runTimer, if_pos hnow]
      rfl
    · cases m with
      | zero => exact absurd hbelow hnow
      | succ m =>
        have hb : ((Cooling.tick forces)^[m + 1] (s.tick forces)).alpha <
            (s.tick forces).alphaMin := hbelow
        obtain ⟨n, hn, hrun, hlt⟩ := ih (s.tick forces) m (by omega) hb
        refine ⟨n + 1, by omega, ?_, hlt⟩
        simp only [Cooling.runTimer, if_neg hnow, hrun]
        rfl

theorem d3AlphaDecay_cools : (1 - d3AlphaDecay) ^ 300 < 1 / 1000 := by
  norm_num [d3AlphaDecay]

theorem alpha_below_of_rate (rate : ℚ) (hlo : d3AlphaDecay ≤ rate) (hhi : rate < 1)
    (n : Nat) (hn : 300 ≤ n) : (1 - rate) ^ n < 1 / 1000 := by
  have h0 : 0 ≤ 1 - rate := by linarith
  have h1 : 1 - rate ≤ 1 := by
    have : (0 : ℚ) ≤ d3AlphaDecay := by norm_num [d3AlphaDecay]
    linarith
  calc (1 - rate) ^ n ≤ (1 - rate) ^ 300 := pow_le_pow_of_le_one h0 h1 hn
    _ ≤ (1 - d3AlphaDecay) ^ 300 := pow_le_pow_left₀ h0 (by linarith) 300
    _ < 1 / 1000 := d3AlphaDecay_cools

/-- Claim C21: let a simulation start with `alpha = 1`, `alphaTarget = 0` and
`alphaMin = 0.001`, with a decay rate from the default of d3-force up to 1 (the rate
0.0228 of the claim is one), on any nodes and with any forces. Then every tick makes
`alpha` strictly smaller, `alpha` stays within [0, 1], `alpha` is below 0.001 after 300
ticks and after every later one, and the timer of the simulation stops after at most 300
ticks, with `alpha` below 0.001. -/
theorem alpha_cools_within_300 (forces : ℚ → List Node → List Node) (nodes : List Node)
    (rate : ℚ) (hlo : d3AlphaDecay ≤ rate) (hhi : rate < 1) :
    (∀ n : Nat,
      ((Cooling.tick forces)^[n + 1] { alphaDecay := rate, nodes := nodes }).alpha <
        ((Cooling.tick forces)^[n] { alphaDecay := rate, nodes := nodes }).alpha) ∧
    (∀ n : Nat,
      0 ≤ ((Cooling.tick forces)^[n] { alphaDecay := rate, nodes := nodes }).alpha ∧
        ((Cooling.tick forces)^[n] { alphaDecay := rate, nodes := nodes }).alpha ≤ 1) ∧
    (∀ n : Nat, 300 ≤ n →
      ((Cooling.tick forces)^[n] { alphaDecay := rate, nodes := nodes }).alpha < 1 / 1000) ∧
    (∀ fuel : Nat, 300 ≤ fuel →
      ∃ (n : Nat) (s : Cooling),
        Cooling.runTimer forces fuel { alphaDecay := rate, nodes := nodes } = some (n, s) ∧
          1 ≤ n ∧ n ≤ 300 ∧ s = (Cooling.tick forces)^[n] { alphaDecay := rate, nodes := nodes } ∧
          s.alpha < 1 / 1000) := by
  have hclosed : ∀ n : Nat,
      ((Cooling.tick forces)^[n] { alphaDecay := rate, nodes := nodes }).alpha =
        (1 - rate) ^ n := by
    intro n
    rw [Cooling.iterate_tick_alpha]
    simp
  have hpos : 0 < 1 - rate := by linarith
  have hle : 1 - rate ≤ 1 := by
    have : (0 : ℚ) ≤ d3AlphaDecay := by norm_num [d3AlphaDecay]
    linarith
  have hlt : 1 - rate < 1 := by
    have : (0 : ℚ) < d3AlphaDecay := by norm_num [d3AlphaDecay]
    linarith
  refine ⟨?_, ?_, ?_, ?_⟩
  · intro n
    rw [hclosed, hclosed, pow_succ]
    have hp : 0 < (1 - rate) ^ n := pow_pos hpos n
    nlinarith
  · intro n
    rw [hclosed]
    exact ⟨le_of_lt (pow_pos hpos n), pow_le_one₀ (le_of_lt hpos) hle⟩
  · intro n hn
    rw [hclosed]
    exact alpha_below_of_rate rate hlo hhi n hn
  · intro fuel hfuel
    have h300 := alpha_below_of_rate rate hlo hhi 300 (le_refl 300)
    rw [← hclosed 300] at h300
    have hbelow : ((Cooling.tick forces)^[299 + 1]
        ({ alphaDecay := rate, nodes := nodes } : Cooling)).alpha <
        ({ alphaDecay := rate, nodes := nodes } : Cooling).alphaMin := h300
    obtain ⟨n, hn, hrun, hlt'⟩ := Cooling.runTimer_stops forces fuel
      { alphaDecay := rate, nodes := nodes } 299 (by omega) hbelow
    exact ⟨n + 1, _, hrun, by omega, by omega, rfl, hlt'⟩

/-- Witness for C21: with the rate 0.0228 `alpha` is below 0.001 after 300 ticks, and
not yet after 299; the same holds with the default rate of d3-force. -/
theorem alpha_cools_within_300_witness :
    d3AlphaDecay ≤ 57 / 2500 ∧ (57 / 2500 : ℚ) < 1 ∧
    ((Cooling.tick fun _ nodes => nodes)^[300] { alphaDecay := 57 / 2500 }).alpha < 1 / 1000 ∧
    ¬ ((Cooling.tick fun _ nodes => nodes)^[299] { alphaDecay := 57 / 2500 }).alpha < 1 / 1000 ∧
    ((Cooling.tick fun _ nodes => nodes)^[300] {}).alpha < 1 / 1000 ∧
    ¬ ((Cooling.tick fun _ nodes => nodes)^[299] {}).alpha < 1 / 1000 := by
  refine ⟨by norm_num [d3AlphaDecay], by norm_num,
    (alpha_cools_within_300 (fun _ nodes => nodes) [] (57 / 2500)
      (by norm_num [d3AlphaDecay]) (by norm_num)).2.2.1 300 (le_refl 300), ?_, ?_, ?_⟩
  · rw [Cooling.iterate_tick_alpha]
    norm_num
  · rw [Cooling.iterate_tick_alpha]
    norm_num [d3AlphaDecay]
  · rw [Cooling.iterate_tick_alpha]
    norm_num [d3AlphaDecay]

/-! ## Search on a node without a name -/

theorem lowerIncludes_error (unicodeLower : String → String) (v : JSVal) (term : String)
    (e : JSError) (h : lowerIncludes unicodeLower v term = .error e) : e = .typeError := by
  unfold lowerIncludes at h
  split at h
  · exact absurd h (by simp)
  · injection h with h
    exact h.symm

theorem guardedIncludes_error (unicodeLower : String → String) (v : JSVal) (term : String)
    (e : JSError) (h : guardedIncludes unicodeLower v term = .error e) : e = .typeError := by
  unfold guardedIncludes at h
  split at h
  · exact lowerIncludes_error unicodeLower v term e h
  · exact absurd h (by simp)

theorem orElse_error (a : Except JSError Bool) (b : Unit → Except JSError Bool) (e : JSError)
    (ha : ∀ e', a = .error e' → e' = .typeError)
    (hb : ∀ e', b () = .error e' → e' = .typeError)
    (h : orElse a b = .error e) : e = .typeError := by
  unfold orElse at h
  split at h
  · exact absurd h (by simp)
  · exact hb e h
  · exact ha e h

theorem nodeMatches_error (unicodeLower : String → String) (node : Node) (term : String)
    (e : JSError) (h : nodeMatches unicodeLower node term = .error e) : e = .typeError := by
  unfold nodeMatches at h
  refine orElse_error _ _ e (fun e' => lowerIncludes_error unicodeLower _ term e') ?_ h
  intro e1 h1
  refine orElse_error _ _ e1 (fun e' => guardedIncludes_error unicodeLower _ term e') ?_ h1
  intro e2 h2
  refine orElse_error _ _ e2 (fun e' => guardedIncludes_error unicodeLower _ term e') ?_ h2
  intro e3 h3
  refine orElse_error _ _ e3 (fun e' => guardedIncludes_error unicodeLower _ term e') ?_ h3
  intro e4 h4
  exact guardedIncludes_error unicodeLower _ term e4 h4

theorem nodeMatches_of_not_string (unicodeLower : String → String) (node : Node)
    (term : String) (h : isString node.name = false) :
    nodeMatches unicodeLower node term = .error .typeError := by
  unfold nodeMatches lowerIncludes
  cases hn : node.name <;> simp_all [isString, orElse]

theorem collectMatches_error_of_not_string (unicodeLower : String → String) (term : String)
    (nodes : List Node) (h : ∃ n ∈ nodes, isString n.name = false) :
    ∀ found : JSSet, collectMatches unicodeLower term nodes found = .error .typeError := by
  induction nodes with
  | nil =>
    obtain ⟨n, hn, _⟩ := h
    exact absurd hn (List.not_mem_nil n)
  | cons node rest ih =>
    intro found
    unfold collectMatches
    by_cases hnode : isString node.name = false
    · rw [nodeMatches_of_not_string unicodeLower node term hnode]
    · have hrest : ∃ n ∈ rest, isString n.name = false := by
        obtain ⟨n, hn, hname⟩ := h
        rcases List.mem_cons.mp hn with rfl | hn
        · exact absurd hname hnode
        · exact ⟨n, hn, hname⟩
      cases hm : nodeMatches unicodeLower node term with
      | ok b =>
        cases b
        · exact ih hrest found
        · exact ih hrest (found.add node.id)
      | error e =>
        rw [nodeMatches_error unicodeLower node term e hm]

/-- Claim C22 (the code on a node without a name): when some node of the data has a
`name` that is not a string, as a node without a name has, `handleSearch` with a term
that is not blank raises a `TypeError`: it has set the search term and sets no
highlight set. -/
theorem handleSearch_throws_of_nameless (unicodeLower : String → String) (s : AppState)
    (term : String) (hterm : trim term ≠ "")
    (hname : ∃ n ∈ s.data.nodes, isString n.name = false) :
    handleSearch unicodeLower s term = .throw .typeError { s with searchTerm := term } := by
  unfold handleSearch
  simp only [hterm, if_false]
  rw [collectMatches_error_of_not_string unicodeLower term s.data.nodes hname]

/-- Witness for C22: the payload `malformedPayload` has a node with an id and a type and
no name; ingestion keeps it, and the search for "river" on the ingested data throws. -/
theorem handleSearch_throws_of_nameless_witness :
    (fetchGraphData initialState (.success malformedPayload)).data.nodes =
      [{ id := .str "P001", type := .str "People" }] ∧
    trim "river" ≠ "" ∧
    handleSearch noUnicodeLower (fetchGraphData initialState (.success malformedPayload))
        "river" =
      .throw .typeError
        { fetchGraphData initialState (.success malformedPayload) with
            searchTerm := "river" } :=
  ⟨rfl, by decide,
    handleSearch_throws_of_nameless noUnicodeLower
      (fetchGraphData initialState (.success malformedPayload)) "river" (by decide)
      ⟨{ id := .str "P001", type := .str "People" }, by decide, rfl⟩⟩

/-! ## Filtering after a build -/

theorem resolveLinks_not_kept (keep : Link → Bool) (entries : List (Nat × Node))
    (hnode : ∀ l : Link, (∃ i, l.source = .node i) → keep l = false)
    (links : List Link)
    (hres : ∀ l ∈ links, keep l = true →
      ∃ i j, isObjectType l.source = false ∧ isObjectType l.target = false ∧
        findNode entries l.source = some i ∧ findNode entries l.target = some j) :
    ∀ l ∈ (resolveLinks keep entries links).1, keep l = false := by
  induction links with
  | nil =>
    intro l hl
    exact absurd hl (by simp [resolveLinks])
  | cons link rest ih =>
    have hrest := ih fun l hl => hres l (List.mem_cons_of_mem link hl)
    intro l hl
    unfold resolveLinks at hl
    by_cases hk : keep link = true
    · obtain ⟨i, j, hs, ht, hi, hj⟩ := hres link (List.mem_cons_self link rest) hk
      rw [if_pos hk, resolveLink_of_found entries link i j hs ht hi hj] at hl
      rcases List.mem_cons.mp hl with rfl | hl
      · exact hnode _ ⟨i, rfl⟩
      · exact hrest l hl
    · rw [if_neg hk] at hl
      rcases List.mem_cons.mp hl with rfl | hl
      · simpa using hk
      · exact hrest l hl

/-- Claim C23 (the code after a build): let the graph effect build a simulation from a
state in the graph view whose node ids are plain. The build leaves the nodes and
`visibleTypes` as they are, but in `data.links` every link that `getFilteredData`
returned now holds node objects as its endpoints, and a second call of
`getFilteredData` returns the same nodes and no link at all. -/
theorem getFilteredData_after_build (toStr : JSVal → String) (w : World)
    (hview : w.app.viewMode = "graph") (hload : w.app.loading = false)
    (hids : ∀ n ∈ w.app.data.nodes, plainId n.id = true) :
    (graphEffect toStr w).app.visibleTypes = w.app.visibleTypes ∧
    (graphEffect toStr w).app.data.nodes = w.app.data.nodes ∧
    (getFilteredData toStr (graphEffect toStr w).app).nodes =
      (getFilteredData toStr w.app).nodes ∧
    (getFilteredData toStr (graphEffect toStr w).app).links = [] := by
  have hgate : (w.app.viewMode ≠ "graph" || w.app.loading) = false := by
    simp [hview, hload]
  have hplain : ∀ v, (JSSet.ofList ((filteredNodeEntries toStr w.app).map
      fun p => p.2.id)).has v = true → plainId v = true := by
    intro v hv
    rw [filteredNodeEntries_ids, JSSet.has_ofList_ids] at hv
    obtain ⟨n, hn, rfl⟩ := hv
    exact hids n (List.mem_of_mem_filter hn)
  have hnot := resolveLinks_not_kept
    (fun link : Link =>
      (JSSet.ofList ((filteredNodeEntries toStr w.app).map fun p => p.2.id)).has link.source &&
      (JSSet.ofList ((filteredNodeEntries toStr w.app).map fun p => p.2.id)).has link.target)
    (filteredNodeEntries toStr w.app)
    (by
      rintro l ⟨i, hi⟩
      cases hs : (JSSet.ofList ((filteredNodeEntries toStr w.app).map
          fun p => p.2.id)).has l.source with
      | false => simp [hs]
      | true =>
        have := hplain _ hs
        rw [hi] at this
        exact absurd this (by simp [plainId]))
    w.app.data.links
    (by
      intro l _ hk
      simp only [Bool.and_eq_true] at hk
      obtain ⟨i, hs, hi, _⟩ := resolvable_of_plain toStr w.app hids l.source hk.1
      obtain ⟨j, ht, hj, _⟩ := resolvable_of_plain toStr w.app hids l.target hk.2
      exact ⟨i, j, hs, ht, hi, hj⟩)
  have hvis : (graphEffect toStr w).app.visibleTypes = w.app.visibleTypes := by
    unfold graphEffect
    rw [hgate]
    simp only [Bool.false_eq_true, if_false]
    split <;> rfl
  have hnodes := graphEffect_nodes toStr w
  have hlinks : (graphEffect toStr w).app.data.links =
      (resolveLinks
        (fun link : Link =>
          (JSSet.ofList ((filteredNodeEntries toStr w.app).map
            fun p => p.2.id)).has link.source &&
          (JSSet.ofList ((filteredNodeEntries toStr w.app).map
            fun p => p.2.id)).has link.target)
        (filteredNodeEntries toStr w.app) w.app.data.links).1 := by
    unfold graphEffect
    rw [hgate]
    simp only [Bool.false_eq_true, if_false]
    split <;> rfl
  have hfn : (getFilteredData toStr (graphEffect toStr w).app).nodes =
      (getFilteredData toStr w.app).nodes := by
    simp only [getFilteredData, hvis, hnodes]
  refine ⟨hvis, hnodes, hfn, ?_⟩
  rw [getFilteredData_links, hfn, ← filteredNodeEntries_ids, hlinks]
  exact List.filter_eq_nil_iff.mpr fun l hl => by
    have h := hnot l hl
    simp only [] at h
    rw [h]
    simp

/-- Witness for C23: on the fallback data the first call returns the four links; the
build replaces their endpoints by node objects; the second call returns no link, and the
graph drawn again after a search has no line. -/
theorem getFilteredData_after_build_witness :
    (getFilteredData noToString fallbackStart.app).links.map (fun l => (l.source, l.target)) =
      [(.str "P001", .str "PR001"), (.str "P001", .str "I001"), (.str "P002", .str "I001"),
       (.str "PR001", .str "M001")] ∧
    fallbackWorld.app.data.links.map (fun l => (l.source, l.target)) =
      [(.node 0, .node 3), (.node 0, .node 2), (.node 1, .node 2), (.node 3, .node 4)] ∧
    (getFilteredData noToString fallbackWorld.app).links = [] ∧
    fallbackWorld.scene.map (fun scene => scene.lines.length) = some 4 ∧
    (run noObjectId noUnicodeLower noToString fallbackWorld [.search "forest"]).scene.map
      (fun scene => scene.lines.length) = some 0 :=
  ⟨by decide, by decide,
    (getFilteredData_after_build noToString fallbackStart rfl rfl (by decide)).2.2.2,
    by decide, by decide⟩

/-! ## Toggling a filter type twice -/

theorem JSObject.any_key_iff (o : JSObject) (k : String) :
    o.any (fun p => p.1 == k) = true ↔ k ∈ o.map Prod.fst := by
  simp only [List.any_eq_true, beq_iff_eq, List.mem_map]

theorem JSObject.set_keys (o : JSObject) (k : String) (v : JSVal) :
    (JSObject.set o k v).map Prod.fst =
      if k ∈ o.map Prod.fst then o.map Prod.fst else o.map Prod.fst ++ [k] := by
  unfold JSObject.set
  by_cases h : k ∈ o.map Prod.fst
  · rw [if_pos ((JSObject.any_key_iff o k).mpr h), if_pos h, List.map_map]
    apply List.map_congr_left
    intro p _
    by_cases hp : p.1 = k
    · simp [hp]
    · simp [hp]
  · have h' : ¬ o.any (fun p => p.1 == k) = true := fun ha =>
      h ((JSObject.any_key_iff o k).mp ha)
    rw [if_neg h', if_neg h, List.map_append]
    rfl

theorem JSObject.set_nodup (o : JSObject) (k : String) (v : JSVal)
    (h : (o.map Prod.fst).Nodup) : ((JSObject.set o k v).map Prod.fst).Nodup := by
  rw [JSObject.set_keys]
  split
  · exact h
  · rename_i hk
    exact List.Nodup.append h (List.nodup_singleton k) (by simpa using hk)

theorem JSObject.mem_set (o : JSObject) (k : String) (v : JSVal) (p : String × JSVal) :
    p ∈ JSObject.set o k v ↔ (p ∈ o ∧ p.1 ≠ k) ∨ p = (k, v) := by
  unfold JSObject.set
  by_cases h : o.any (fun p => p.1 == k) = true
  · rw [if_pos h, List.mem_map]
    constructor
    · rintro ⟨q, hq, rfl⟩
      by_cases hk : q.1 = k
      · right
        simp [hk]
      · left
        simp [hk, hq]
    · rintro (⟨hp, hk⟩ | rfl)
      · exact ⟨p, hp, by simp [hk]⟩
      · obtain ⟨q, hq, hk⟩ := List.any_eq_true.mp h
        exact ⟨q, hq, by simp [beq_iff_eq.mp hk]⟩
  · rw [if_neg h, List.mem_append, List.mem_singleton]
    constructor
    · rintro (hp | rfl)
      · left
        refine ⟨hp, fun hk => h ?_⟩
        exact List.any_eq_true.mpr ⟨p, hp, by simp [hk]⟩
      · exact Or.inr rfl
    · rintro (⟨hp, _⟩ | rfl)
      · exact Or.inl hp
      · exact Or.inr rfl

theorem JSObject.lookup_of_mem (o : JSObject) (k : String) (v : JSVal)
    (hnodup : (o.map Prod.fst).Nodup) (h : (k, v) ∈ o) : List.lookup k o = some v := by
  induction o with
  | nil => exact absurd h (List.not_mem_nil _)
  | cons p rest ih =>
    obtain ⟨a, b⟩ := p
    rw [List.map_cons, List.nodup_cons] at hnodup
    rcases List.mem_cons.mp h with heq | hrest
    · injection heq with h1 h2
      subst h1 h2
      simp [List.lookup]
    · have hne : k ≠ a := by
        rintro rfl
        exact hnodup.1 (List.mem_map.mpr ⟨(k, v), hrest, rfl⟩)
      have hbeq : (k == a) = false := by simpa using hne
      simp only [List.lookup, hbeq]
      exact ih hnodup.2 hrest

theorem JSObject.get_of_mem (o : JSObject) (k : String) (v : JSVal)
    (hnodup : (o.map Prod.fst).Nodup) (h : (k, v) ∈ o) : o.get k = v := by
  unfold JSObject.get
  rw [JSObject.lookup_of_mem o k v hnodup h]

theorem JSObject.set_set_restore (o : JSObject) (k : String) (v v0 : JSVal)
    (hnodup : (o.map Prod.fst).Nodup) (h : (k, v0) ∈ o) :
    JSObject.set (JSObject.set o k v) k v0 = o := by
  have hany : o.any (fun p => p.1 == k) = true :=
    List.any_eq_true.mpr ⟨(k, v0), h, by simp⟩
  have hany' : (JSObject.set o k v).any (fun p => p.1 == k) = true :=
    List.any_eq_true.mpr ⟨(k, v), (JSObject.mem_set o k v (k, v)).mpr (Or.inr rfl), by simp⟩
  have hfirst : JSObject.set o k v = o.map (fun p => if p.1 = k then (k, v) else p) := by
    unfold JSObject.set
    rw [if_pos hany]
  have hsecond : JSObject.set (JSObject.set o k v) k v0 =
      (JSObject.set o k v).map (fun p => if p.1 = k then (k, v0) else p) := by
    generalize JSObject.set o k v = o1 at hany'
    unfold JSObject.set
    rw [if_pos hany']
  rw [hsecond, hfirst, List.map_map]
  conv_rhs => rw [← List.map_id o]
  apply List.map_congr_left
  intro p hp
  by_cases hk : p.1 = k
  · have hp' : p = (k, v0) :=
      List.inj_on_of_nodup_map hnodup hp h hk
    simp [hp']
  · simp [hk]

theorem toggleNodeType_flags (toStr : JSVal → String) (s : AppState) (type : JSVal)
    (h : FilterFlags s.visibleTypes) : FilterFlags (toggleNodeType toStr s type).visibleTypes := by
  refine ⟨JSObject.set_nodup _ _ _ h.1, ?_⟩
  intro t ht
  obtain ⟨b, hb⟩ := h.2 t ht
  by_cases hk : t = toPropertyKey toStr type
  · exact ⟨_, (JSObject.mem_set _ _ _ _).mpr (Or.inr (by rw [hk]))⟩
  · exact ⟨b, (JSObject.mem_set _ _ _ _).mpr (Or.inl ⟨hb, hk⟩)⟩

theorem foldl_toggleNodeType_flags (toStr : JSVal → String) (keys : List JSVal) :
    ∀ s : AppState, FilterFlags s.visibleTypes →
      FilterFlags (keys.foldl (toggleNodeType toStr) s).visibleTypes := by
  induction keys with
  | nil => exact fun _ h => h
  | cons key rest ih =>
    intro s h
    exact ih _ (toggleNodeType_flags toStr s key h)

theorem initialState_flags : FilterFlags initialState.visibleTypes := by
  refine ⟨by decide, ?_⟩
  intro t ht
  exact ⟨true, by
    simp only [List.mem_cons, List.mem_singleton, List.not_mem_nil, or_false] at ht
    rcases ht with rfl | rfl | rfl | rfl <;> decide⟩

theorem toggleNodeType_twice_of_flag (toStr : JSVal → String) (s : AppState) (type : String)
    (b : Bool) (hnodup : (s.visibleTypes.map Prod.fst).Nodup)
    (hflag : (type, JSVal.bool b) ∈ s.visibleTypes) :
    s.visibleTypes.get type = .bool b ∧
    (toggleNodeType toStr s (.str type)).visibleTypes.get type = .bool (!b) ∧
    (∀ k : String, k ≠ type →
      (toggleNodeType toStr s (.str type)).visibleTypes.get k = s.visibleTypes.get k) ∧
    toggleNodeType toStr (toggleNodeType toStr s (.str type)) (.str type) = s := by
  have hget := JSObject.get_of_mem s.visibleTypes type (.bool b) hnodup hflag
  have hvis : (toggleNodeType toStr s (.str type)).visibleTypes =
      JSObject.set s.visibleTypes type (.bool (!b)) := by
    show JSObject.set s.visibleTypes type (.bool (!truthy (s.visibleTypes.get type))) = _
    rw [hget]
    rfl
  have hget' : (toggleNodeType toStr s (.str type)).visibleTypes.get type = .bool (!b) := by
    rw [hvis]
    exact JSObject.get_of_mem _ _ _ (JSObject.set_nodup _ _ _ hnodup)
      ((JSObject.mem_set _ _ _ _).mpr (Or.inr rfl))
  refine ⟨hget, hget', ?_, ?_⟩
  · intro k hk
    rw [hvis]
    exact JSObject.get_set_ne _ _ _ _ hk
  · have h2 : (toggleNodeType toStr (toggleNodeType toStr s (.str type))
        (.str type)).visibleTypes = s.visibleTypes := by
      show JSObject.set (toggleNodeType toStr s (.str type)).visibleTypes type
        (.bool (!truthy ((toggleNodeType toStr s (.str type)).visibleTypes.get type))) = _
      rw [hget', hvis]
      have hb : JSVal.bool (!truthy (.bool (!b))) = .bool b := by
        cases b <;> rfl
      rw [hb]
      exact JSObject.set_set_restore _ _ _ _ hnodup hflag
    calc toggleNodeType toStr (toggleNodeType toStr s (.str type)) (.str type)
        = { s with visibleTypes := (toggleNodeType toStr (toggleNodeType toStr s (.str type))
              (.str type)).visibleTypes } := rfl
      _ = s := by rw [h2]

/-- Claim C24: take any state the component reaches from a state with the initial
`visibleTypes` by calls of `toggleNodeType`, with any keys. For each of the types
People, Institutions, Projects and Methods the flag of the type is a boolean there,
`toggleNodeType(type)` negates it and leaves the value read under every other key as it
is, and `toggleNodeType(type)` applied twice gives back the state, so the original
`visibleTypes`. -/
theorem toggleNodeType_twice (toStr : JSVal → String) (s0 : AppState)
    (hs0 : s0.visibleTypes = initialState.visibleTypes) (keys : List JSVal) (type : String)
    (htype : type ∈ ["People", "Institutions", "Projects", "Methods"]) :
    ∃ b : Bool,
      (keys.foldl (toggleNodeType toStr) s0).visibleTypes.get type = .bool b ∧
      (toggleNodeType toStr (keys.foldl (toggleNodeType toStr) s0)
        (.str type)).visibleTypes.get type = .bool (!b) ∧
      (∀ k : String, k ≠ type →
        (toggleNodeType toStr (keys.foldl (toggleNodeType toStr) s0)
            (.str type)).visibleTypes.get k =
          (keys.foldl (toggleNodeType toStr) s0).visibleTypes.get k) ∧
      toggleNodeType toStr
          (toggleNodeType toStr (keys.foldl (toggleNodeType toStr) s0) (.str type))
          (.str type) =
        keys.foldl (toggleNodeType toStr) s0 := by
  have h0 : FilterFlags s0.visibleTypes := by
    rw [hs0]
    exact initialState_flags
  have h := foldl_toggleNodeType_flags toStr keys s0 h0
  obtain ⟨b, hb⟩ := h.2 type htype
  exact ⟨b, toggleNodeType_twice_of_flag toStr _ type b h.1 hb⟩

/-- Witness for C24: on the fallback data, after Projects, a key "Other" and Projects
again have been toggled, People is on; toggling it gives off, and toggling it again
gives the state back. -/
theorem toggleNodeType_twice_witness :
    fallbackGraphState.visibleTypes = initialState.visibleTypes ∧
    "People" ∈ ["People", "Institutions", "Projects", "Methods"] ∧
    ([.str "Projects", .str "Other", .str "Projects"].foldl (toggleNodeType noToString)
      fallbackGraphState).visibleTypes =
      [("People", .bool true), ("Institutions", .bool true), ("Projects", .bool true),
       ("Methods", .bool true), ("Other", .bool true)] ∧
    (toggleNodeType noToString
      ([.str "Projects", .str "Other", .str "Projects"].foldl (toggleNodeType noToString)
        fallbackGraphState) (.str "People")).visibleTypes =
      [("People", .bool false), ("Institutions", .bool true), ("Projects", .bool true),
       ("Methods", .bool true), ("Other", .bool true)] ∧
    ∃ b : Bool,
      ([.str "Projects", .str "Other", .str "Projects"].foldl (toggleNodeType noToString)
        fallbackGraphState).visibleTypes.get "People" = .bool b ∧
      toggleNodeType noToString (toggleNodeType noToString
          ([.str "Projects", .str "Other", .str "Projects"].foldl (toggleNodeType noToString)
            fallbackGraphState) (.str "People")) (.str "People") =
        [.str "Projects", .str "Other", .str "Projects"].foldl (toggleNodeType noToString)
          fallbackGraphState := by
  obtain ⟨b, h1, _, _, h4⟩ := toggleNodeType_twice noToString fallbackGraphState rfl
    [.str "Projects", .str "Other", .str "Projects"] "People" (by decide)
  exact ⟨rfl, by decide, by decide, by decide, b, h1, h4⟩

/-! ## Refining a search -/

theorem includes_iff_contiguous (s t : String) : includes s t = true ↔ t.data <:+: s.data := by
  unfold includes
  rw [List.any_eq_true, List.infix_iff_prefix_suffix]
  constructor
  · rintro ⟨u, hu, hp⟩
    exact ⟨u, List.isPrefixOf_iff_prefix.mp hp, (List.mem_tails _ _).mp hu⟩
  · rintro ⟨u, hp, hu⟩
    exact ⟨u, (List.mem_tails _ _).mpr hu, List.isPrefixOf_iff_prefix.mpr hp⟩

theorem includes_trans (a b c : String) (hab : includes a b = true)
    (hbc : includes b c = true) : includes a c = true := by
  rw [includes_iff_contiguous] at *
  exact List.IsInfix.trans hbc hab

theorem includes_lower_of_ascii (unicodeLower : String → String) (t t' : String)
    (hascii : ∀ c ∈ t'.data, c.toNat < 128) (hsub : includes t' t = true) :
    includes (toLowerCase unicodeLower t') (toLowerCase unicodeLower t) = true := by
  rw [includes_iff_contiguous] at hsub
  have hascii' : ∀ c ∈ t.data, c.toNat < 128 := fun c hc => hascii c (hsub.subset hc)
  have h1 : toLowerCase unicodeLower t' = String.mk (t'.data.map Char.toLower) := by
    unfold toLowerCase
    rw [if_pos]
    simpa [List.all_eq_true] using hascii
  have h2 : toLowerCase unicodeLower t = String.mk (t.data.map Char.toLower) := by
    unfold toLowerCase
    rw [if_pos]
    simpa [List.all_eq_true] using hascii'
  rw [h1, h2, includes_iff_contiguous]
  obtain ⟨u, v, huv⟩ := hsub
  exact ⟨u.map Char.toLower, v.map Char.toLower, by
    show u.map Char.toLower ++ t.data.map Char.toLower ++ v.map Char.toLower =
      t'.data.map Char.toLower
    rw [← huv, List.map_append, List.map_append]⟩

theorem not_blank_of_includes (t t' : String) (ht : trim t ≠ "")
    (hsub : includes t' t = true) : trim t' ≠ "" := by
  rw [includes_iff_contiguous] at hsub
  intro h
  rw [trim_eq_empty_iff] at h
  exact ht ((trim_eq_empty_iff t).mpr fun c hc => h c (hsub.subset hc))

theorem lowerIncludes_refine (unicodeLower : String → String) (v : JSVal) (t t' : String)
    (hlow : includes (toLowerCase unicodeLower t') (toLowerCase unicodeLower t) = true)
    (r' : Bool) (h : lowerIncludes unicodeLower v t' = .ok r') :
    ∃ r, lowerIncludes unicodeLower v t = .ok r ∧ (r' = true → r = true) := by
  unfold lowerIncludes at h ⊢
  split at h
  · rename_i s
    injection h with h
    refine ⟨_, rfl, fun hr => ?_⟩
    rw [← h] at hr
    exact includes_trans _ _ _ hr hlow
  · exact absurd h (by simp)

theorem guardedIncludes_refine (unicodeLower : String → String) (v : JSVal) (t t' : String)
    (hlow : includes (toLowerCase unicodeLower t') (toLowerCase unicodeLower t) = true)
    (r' : Bool) (h : guardedIncludes unicodeLower v t' = .ok r') :
    ∃ r, guardedIncludes unicodeLower v t = .ok r ∧ (r' = true → r = true) := by
  unfold guardedIncludes at h ⊢
  split
  · rename_i hv
    rw [if_pos hv] at h
    exact lowerIncludes_refine unicodeLower v t t' hlow r' h
  · rename_i hv
    rw [if_neg hv] at h
    injection h with h
    exact ⟨false, rfl, fun hr => by rw [← h] at hr; exact hr⟩

theorem orElse_refine (a a' : Except JSError Bool) (b b' : Unit → Except JSError Bool)
    (ha : ∀ r', a' = .ok r' → ∃ r, a = .ok r ∧ (r' = true → r = true))
    (hb : ∀ r', b' () = .ok r' → ∃ r, b () = .ok r ∧ (r' = true → r = true))
    (r' : Bool) (h : orElse a' b' = .ok r') :
    ∃ r, orElse a b = .ok r ∧ (r' = true → r = true) := by
  cases ha' : a' with
  | error e =>
    rw [ha'] at h
    exact absurd h (by simp [orElse])
  | ok x' =>
    obtain ⟨x, hx, hxx⟩ := ha x' ha'
    cases x' with
    | true =>
      rw [hx, hxx rfl]
      exact ⟨true, rfl, fun _ => rfl⟩
    | false =>
      rw [ha'] at h
      have h' : b' () = .ok r' := h
      obtain ⟨y, hy, hyy⟩ := hb r' h'
      rw [hx]
      cases x with
      | true => exact ⟨true, rfl, fun _ => rfl⟩
      | false => exact ⟨y, hy, hyy⟩

theorem nodeMatches_refine (unicodeLower : String → String) (node : Node) (t t' : String)
    (hlow : includes (toLowerCase unicodeLower t') (toLowerCase unicodeLower t) = true)
    (r' : Bool) (h : nodeMatches unicodeLower node t' = .ok r') :
    ∃ r, nodeMatches unicodeLower node t = .ok r ∧ (r' = true → r = true) := by
  unfold nodeMatches at h ⊢
  refine orElse_refine _ _ _ _ (lowerIncludes_refine unicodeLower _ t t' hlow) ?_ r' h
  refine orElse_refine _ _ _ _ (guardedIncludes_refine unicodeLower _ t t' hlow) ?_
  refine orElse_refine _ _ _ _ (guardedIncludes_refine unicodeLower _ t t' hlow) ?_
  refine orElse_refine _ _ _ _ (guardedIncludes_refine unicodeLower _ t t' hlow) ?_
  exact guardedIncludes_refine unicodeLower _ t t' hlow

theorem JSSet.add_subset_add (a b : JSSet) (v : JSVal) (h : ∀ x ∈ a, x ∈ b) :
    ∀ x ∈ a.add v, x ∈ b.add v := by
  intro x hx
  rw [JSSet.mem_add] at hx ⊢
  exact hx.imp (h x) id

theorem collectMatches_refine (unicodeLower : String → String) (t t' : String)
    (hlow : includes (toLowerCase unicodeLower t') (toLowerCase unicodeLower t) = true)
    (nodes : List Node) :
    ∀ (found found' r' : JSSet), (∀ x ∈ found', x ∈ found) →
      collectMatches unicodeLower t' nodes found' = .ok r' →
      ∃ r, collectMatches unicodeLower t nodes found = .ok r ∧ ∀ x ∈ r', x ∈ r := by
  induction nodes with
  | nil =>
    intro found found' r' hsub h
    unfold collectMatches at h ⊢
    injection h with h
    exact ⟨found, rfl, fun x hx => hsub x (h ▸ hx)⟩
  | cons node rest ih =>
    intro found found' r' hsub h
    unfold collectMatches at h ⊢
    cases hm' : nodeMatches unicodeLower node t' with
    | error e =>
      rw [hm'] at h
      exact absurd h (by simp)
    | ok m' =>
      obtain ⟨m, hm, hmm⟩ := nodeMatches_refine unicodeLower node t t' hlow m' hm'
      rw [hm'] at h
      rw [hm]
      cases m' with
      | true =>
        rw [hmm rfl]
        exact ih _ _ r' (JSSet.add_subset_add _ _ _ hsub) h
      | false =>
        cases m with
        | true =>
          exact ih _ _ r' (fun x hx => (JSSet.mem_add _ _ _).mpr (Or.inl (hsub x hx))) h
        | false => exact ih _ _ r' hsub h

theorem collectMatches_ids (unicodeLower : String → String) (term : String)
    (nodes : List Node) :
    ∀ (found r : JSSet), collectMatches unicodeLower term nodes found = .ok r →
      ∀ x ∈ r, x ∈ found ∨ ∃ n ∈ nodes, n.id = x := by
  induction nodes with
  | nil =>
    intro found r h x hx
    unfold collectMatches at h
    injection h with h
    exact Or.inl (h ▸ hx)
  | cons node rest ih =>
    intro found r h x hx
    unfold collectMatches at h
    cases hm : nodeMatches unicodeLower node term with
    | error e =>
      rw [hm] at h
      exact absurd h (by simp)
    | ok m =>
      rw [hm] at h
      cases m with
      | true =>
        rcases ih _ r h x hx with hf | ⟨n, hn, hid⟩
        · rcases (JSSet.mem_add _ _ _).mp hf with hf | rfl
          · exact Or.inl hf
          · exact Or.inr ⟨node, List.mem_cons_self _ _, rfl⟩
        · exact Or.inr ⟨n, List.mem_cons_of_mem _ hn, hid⟩
      | false =>
        rcases ih _ r h x hx with hf | ⟨n, hn, hid⟩
        · exact Or.inl hf
        · exact Or.inr ⟨n, List.mem_cons_of_mem _ hn, hid⟩

theorem handleSearch_normal_iff (unicodeLower : String → String) (s : AppState)
    (term : String) (hterm : trim term ≠ "") (s' : AppState) :
    handleSearch unicodeLower s term = .normal s' ↔
      ∃ found, collectMatches unicodeLower term s.data.nodes [] = .ok found ∧
        s' = { s with searchTerm := term, highlightedNodes := found } := by
  unfold handleSearch
  simp only [hterm, if_false]
  cases hc : collectMatches unicodeLower term s.data.nodes [] with
  | error e => simp
  | ok found =>
    constructor
    · intro h
      injection h with h
      exact ⟨found, rfl, h.symm⟩
    · rintro ⟨f, hf, rfl⟩
      injection hf with hf
      rw [hf]

/-- Counterexample to C25 as stated: the only node is called "Νίκος". The term "Σ" is
not blank and is a substring of the term "ΟΣ"; `handleSearch` of "Σ" sets the
empty highlight set and `handleSearch` of "ΟΣ" sets the set of P100, which is no
subset of it. -/
theorem refined_search_adds_result :
    trim "Σ" ≠ "" ∧ includes "ΟΣ" "Σ" = true ∧
    handleSearch greekLower greekNameState "Σ" =
      .normal { greekNameState with searchTerm := "Σ", highlightedNodes := [] } ∧
    handleSearch greekLower greekNameState "ΟΣ" =
      .normal { greekNameState with searchTerm := "ΟΣ", highlightedNodes := [.str "P100"] } ∧
    ¬ ∀ v ∈ ([.str "P100"] : JSSet), v ∈ ([] : JSSet) := by
  refine ⟨by decide, by decide, ?_, ?_, by decide⟩
  · rfl
  · rfl

/-- Claim C25 (amended): let the term `t` be not blank and a substring of the term `t'`,
and let the lower-cased `t` be a substring of the lower-cased `t'`, which is always so
when `t'` is ASCII. If `handleSearch` completes for `t'` then it completes for `t`, and
the highlight set it sets for `t'` is a subset of the one it sets for `t`. And every
highlight set `handleSearch` sets, for any term, holds only ids of nodes of
`data.nodes`. -/
theorem refined_search_narrows (unicodeLower : String → String) (s : AppState)
    (t t' : String) (ht : trim t ≠ "") (hsub : includes t' t = true)
    (hlow : (∀ c ∈ t'.data, c.toNat < 128) ∨
      includes (toLowerCase unicodeLower t') (toLowerCase unicodeLower t) = true) :
    (∀ s', handleSearch unicodeLower s t' = .normal s' →
      ∃ s0, handleSearch unicodeLower s t = .normal s0 ∧
        ∀ v ∈ s'.highlightedNodes, v ∈ s0.highlightedNodes) ∧
    (∀ (term : String) (s' : AppState), handleSearch unicodeLower s term = .normal s' →
      ∀ v ∈ s'.highlightedNodes, ∃ n ∈ s.data.nodes, n.id = v) := by
  have hlow' : includes (toLowerCase unicodeLower t') (toLowerCase unicodeLower t) = true :=
    hlow.elim (fun h => includes_lower_of_ascii unicodeLower t t' h hsub) id
  have ht' := not_blank_of_includes t t' ht hsub
  constructor
  · intro s' h
    obtain ⟨found', hc', rfl⟩ := (handleSearch_normal_iff unicodeLower s t' ht' s').mp h
    obtain ⟨found, hc, hsubset⟩ :=
      collectMatches_refine unicodeLower t t' hlow' s.data.nodes [] [] found'
        (fun x hx => hx) hc'
    exact ⟨_, (handleSearch_normal_iff unicodeLower s t ht _).mpr ⟨found, hc, rfl⟩, hsubset⟩
  · intro term s' h v hv
    by_cases hterm : trim term = ""
    · unfold handleSearch at h
      simp only [hterm, if_true] at h
      injection h with h
      rw [← h] at hv
      exact absurd hv (List.not_mem_nil v)
    · obtain ⟨found, hc, rfl⟩ := (handleSearch_normal_iff unicodeLower s term hterm s').mp h
      rcases collectMatches_ids unicodeLower term s.data.nodes [] found hc v hv with h0 | h1
      · exact absurd h0 (List.not_mem_nil v)
      · exact h1

/-- Witness for C25 (amended): "walk" refined to "walking" on the fallback data; both
searches give the set of M001. -/
theorem refined_search_narrows_witness :
    trim "walk" ≠ "" ∧ includes "walking" "walk" = true ∧
    (∀ c ∈ "walking".data, c.toNat < 128) ∧
    handleSearch noUnicodeLower fallbackGraphState "walking" =
      .normal { fallbackGraphState with
                  searchTerm := "walking", highlightedNodes := [.str "M001"] } ∧
    ∃ s0, handleSearch noUnicodeLower fallbackGraphState "walk" = .normal s0 ∧
      ∀ v ∈ ([.str "M001"] : JSSet), v ∈ s0.highlightedNodes :=
  ⟨by decide, by decide, by decide, rfl,
    (refined_search_narrows noUnicodeLower fallbackGraphState "walk" "walking" (by decide)
      (by decide) (Or.inl (by decide))).1 _ rfl⟩

end Voice
